import Mathlib

/-!
Verification of the saturon color engine against its specification.

The development below is a shallow embedding of the TypeScript sources
(src/Color.ts, src/math.ts, src/utils.ts, src/converters.ts) into Lean.
JavaScript numbers are modelled as exact rationals; the IEEE special values
NaN and plus or minus infinity are outside the model (the branches of the
source that normalize them are noted where they occur and are dead under
this idealization).  Transcendental library functions (Math.pow, Math.cbrt,
Math.sin, Math.cos, Math.atan2, Math.sqrt) have no exact rational
counterpart; they are passed in as an abstract bundle of functions
(`TransFns`), so every definition stays computable and every theorem that
does not touch them holds for all instantiations.
-/

namespace Saturon

/-- Math.min on two rationals, written with a plain conditional so that the
kernel can evaluate it inside decide. -/
def jsMin (a b : ℚ) : ℚ := if a ≤ b then a else b

/-- Math.max on two rationals. -/
def jsMax (a b : ℚ) : ℚ := if b ≤ a then a else b

/-- Math.abs on rationals. -/
def jsAbs (q : ℚ) : ℚ := if q < 0 then -q else q

/-- Truncation toward zero on rationals, as performed by JavaScript when
computing the remainder operator. -/
def jsTrunc (q : ℚ) : ℤ := if 0 ≤ q then ⌊q⌋ else -⌊-q⌋

/-- The JavaScript remainder operator a % b (sign follows the dividend).
The sources only apply it with positive literal divisors (360 and 12). -/
def jsRem (a b : ℚ) : ℚ := a - b * (jsTrunc (a / b) : ℚ)

/-- Number.prototype.toFixed followed by Number(...): rounding to p decimal
digits, ties toward positive infinity (ECMA-262 picks the larger candidate). -/
def roundFixed (q : ℚ) (p : ℕ) : ℚ := (⌊q * 10 ^ p + 1 / 2⌋ : ℚ) / 10 ^ p

/-- Matrix-vector product as computed by multiplyMatrices in src/utils.ts for
a matrix and a (possibly longer) vector: every row is folded against the
vector, a missing vector entry counting as 0.  This reproduces the source
expression row.reduce((a, c, i) => a + c * (col[i] || 0), 0). -/
def dotJs : List ℚ → List ℚ → ℚ
  | [], _ => 0
  | r :: rs, v => r * v.headD 0 + dotJs rs v.tail

/-- multiplyMatrices (src/utils.ts) specialized to the only shape the model
converters use: 3x3 matrix times a coordinate vector. -/
def mulMatVec (m : List (List ℚ)) (v : List ℚ) : List ℚ :=
  m.map (fun row => dotJs row v)

/-- Conversion matrices from src/math.ts (MATRICES).  Only the matrices with
exact rational entries in the source are written out; all are copied
verbatim. -/
def D50_to_D65 : List (List ℚ) :=
  [[0.955473421488075, -0.02309845494876471, 0.06325924320057072],
   [-0.0283697093338637, 1.0099953980813041, 0.021041441191917323],
   [0.012314014864481998, -0.020507649298898964, 1.330365926242124]]

/-- MATRICES.D65_to_d50 from src/math.ts. -/
def D65_to_d50 : List (List ℚ) :=
  [[1.0479297925449969, 0.022946870601609652, -0.05019226628920524],
   [0.02962780877005599, 0.9904344267538799, -0.017073799063418826],
   [-0.009243040646204504, 0.015055191490298152, 0.7518742814281371]]

/-- MATRICES.SRGB_to_XYZD65 from src/math.ts. -/
def SRGB_to_XYZD65_M : List (List ℚ) :=
  [[506752 / 1228815, 87881 / 245763, 12673 / 70218],
   [87098 / 409605, 175762 / 245763, 12673 / 175545],
   [7918 / 409605, 87881 / 737289, 1001167 / 1053270]]

/-- MATRICES.XYZD65_to_SRGB from src/math.ts. -/
def XYZD65_to_SRGB_M : List (List ℚ) :=
  [[12831 / 3959, -329 / 214, -1974 / 3959],
   [-851781 / 878810, 1648619 / 878810, 36519 / 878810],
   [705 / 12673, -2585 / 12673, 705 / 667]]

/-- MATRICES.P3_to_XYZD65 from src/math.ts. -/
def P3_to_XYZD65_M : List (List ℚ) :=
  [[608311 / 1250200, 189793 / 714400, 198249 / 1000160],
   [35783 / 156275, 247089 / 357200, 198249 / 2500400],
   [0 / 1, 32229 / 714400, 5220557 / 5000800]]

/-- MATRICES.XYZD65_to_P3 from src/math.ts. -/
def XYZD65_to_P3_M : List (List ℚ) :=
  [[446124 / 178915, -333277 / 357830, -72051 / 178915],
   [-14852 / 17905, 63121 / 35810, 423 / 17905],
   [11844 / 330415, -50337 / 660830, 316169 / 330415]]

/-- MATRICES.REC2020_to_XYZD65 from src/math.ts. -/
def REC2020_to_XYZD65_M : List (List ℚ) :=
  [[63426534 / 99577255, 20160776 / 139408157, 47086771 / 278816314],
   [26158966 / 99577255, 472592308 / 697040785, 8267143 / 139408157],
   [0 / 1, 19567812 / 697040785, 295819943 / 278816314]]

/-- MATRICES.XYZD65_to_REC2020 from src/math.ts. -/
def XYZD65_to_REC2020_M : List (List ℚ) :=
  [[30757411 / 17917100, -6372589 / 17917100, -4539589 / 17917100],
   [-19765991 / 29648200, 47925759 / 29648200, 467509 / 29648200],
   [792561 / 44930125, -1921689 / 44930125, 42328811 / 44930125]]

/-- MATRICES.A98_to_XYZD65 from src/math.ts. -/
def A98_to_XYZD65_M : List (List ℚ) :=
  [[573536 / 994567, 263643 / 1420810, 187206 / 994567],
   [591459 / 1989134, 6239551 / 9945670, 374412 / 4972835],
   [53769 / 1989134, 351524 / 4972835, 4929758 / 4972835]]

/-- MATRICES.XYZD65_to_A98 from src/math.ts. -/
def XYZD65_to_A98_M : List (List ℚ) :=
  [[1829569 / 896150, -506331 / 896150, -308931 / 896150],
   [-851781 / 878810, 1648619 / 878810, 36519 / 878810],
   [16779 / 1248040, -147721 / 1248040, 1266979 / 1248040]]

/-- MATRICES.ProPhoto_to_XYZD50 from src/math.ts. -/
def ProPhoto_to_XYZD50_M : List (List ℚ) :=
  [[0.7977666449006423, 0.13518129740053308, 0.0313477341283922],
   [0.2880748288194013, 0.711835234241873, 0.00008993693872564],
   [0.0, 0.0, 0.8251046025104602]]

/-- MATRICES.XYZD50_to_ProPhoto from src/math.ts. -/
def XYZD50_to_ProPhoto_M : List (List ℚ) :=
  [[1.3457868816471583, -0.25557208737979464, -0.05110186497554526],
   [-0.5446307051249019, 1.5082477428451468, 0.02052744743642139],
   [0.0, 0.0, 1.2119675456389452]]

/-- MATRICES.LMS_to_XYZD65 from src/math.ts. -/
def LMS_to_XYZD65_M : List (List ℚ) :=
  [[1.2268798758459243, -0.5578149944602171, 0.2813910456659647],
   [-0.0405757452148008, 1.112286803280317, -0.0717110580655164],
   [-0.0763729366746601, -0.4214933324022432, 1.5869240198367816]]

/-- MATRICES.XYZD65_to_LMS from src/math.ts. -/
def XYZD65_to_LMS_M : List (List ℚ) :=
  [[0.819022437996703, 0.3619062600528904, -0.1288737815209879],
   [0.0329836539323885, 0.9292868615863434, 0.0361446663506424],
   [0.0481771893596242, 0.2642395317527308, 0.6335478284694309]]

/-- MATRICES.LMS_to_OKLAB from src/math.ts. -/
def LMS_to_OKLAB_M : List (List ℚ) :=
  [[0.210454268309314, 0.7936177747023054, -0.0040720430116193],
   [1.9779985324311684, -2.4285922420485799, 0.450593709617411],
   [0.0259040424655478, 0.7827717124575296, -0.8086757549230774]]

/-- MATRICES.OKLAB_to_LMS from src/math.ts. -/
def OKLAB_to_LMS_M : List (List ℚ) :=
  [[1.0, 0.3963377773761749, 0.2158037573099136],
   [1.0, -0.1055613458156586, -0.0638541728258133],
   [1.0, -0.0894841775298119, -1.2914855480194092]]

/-- Abstract bundle standing for the transcendental pieces of the JavaScript
Math library.  Theorems quantify over it; the concrete claims below only ever
evaluate code paths that avoid these fields (or constrain single values of
them by hypothesis). -/
structure TransFns where
  /-- Math.pow. -/
  powf : ℚ → ℚ → ℚ
  /-- Math.cbrt. -/
  cbrt : ℚ → ℚ
  /-- Math.sqrt. -/
  sqrtf : ℚ → ℚ
  /-- The composite fun h => Math.cos (h * PI / 180) used by the LCH and
  OKLCH converters. -/
  cosDeg : ℚ → ℚ
  /-- The composite fun h => Math.sin (h * PI / 180). -/
  sinDeg : ℚ → ℚ
  /-- The composite fun b a => Math.atan2 (b, a) * 180 / PI. -/
  atan2Deg : ℚ → ℚ → ℚ
  /-- Math.PI itself (used by the rad angle unit of the parser). -/
  piQ : ℚ
  /-- Stand-in for the IEEE NaN that RGB_to_HWB produces for achromatic
  inputs (the model has no NaN value). -/
  nanQ : ℚ

/-- A fixed instantiation of TransFns used to close concrete statements whose
evaluation never reaches a transcendental call (or reaches Math.pow only at
exponent 1, where fun x y => x agrees with it exactly). -/
def stubT : TransFns :=
  { powf := fun x _ => x, cbrt := fun _ => 0, sqrtf := fun _ => 0,
    cosDeg := fun _ => 0, sinDeg := fun _ => 0, atan2Deg := fun _ _ => 0,
    piQ := 0, nanQ := 0 }

/-- RGB_to_XYZD65 from src/math.ts.  The linearization branch for
the small range is val / 12.92; the power branch uses Math.pow. -/
def RGB_to_XYZD65 (T : TransFns) (rgb : List ℚ) : List ℚ :=
  let rgbNorm := rgb.map (fun v => v / 255)
  let linearRGB := rgbNorm.map (fun val =>
    let sign : ℚ := if val < 0 then -1 else 1
    let abs := jsAbs val
    if abs ≤ 0.04045 then val / 12.92
    else sign * T.powf ((abs + 0.055) / 1.055) 2.4)
  mulMatVec SRGB_to_XYZD65_M linearRGB

/-- XYZD65_to_RGB from src/math.ts. -/
def XYZD65_to_RGB (T : TransFns) (xyz : List ℚ) : List ℚ :=
  let linRGB := mulMatVec XYZD65_to_SRGB_M xyz
  let gammaRGB := linRGB.map (fun val =>
    let sign : ℚ := if val < 0 then -1 else 1
    let abs := jsAbs val
    if abs > 0.0031308 then sign * (1.055 * T.powf abs (1 / 2.4) - 0.055)
    else 12.92 * val)
  gammaRGB.map (fun v => v * 255)

/-- HSL_to_RGB from src/math.ts: h in [0,360], s and l in [0,100],
output channels in 0..255.  Entirely rational. -/
def HSL_to_RGB (hsl : List ℚ) : List ℚ :=
  let h := hsl.getD 0 0
  let s := hsl.getD 1 0 / 100
  let l := hsl.getD 2 0 / 100
  let f : ℚ → ℚ := fun n =>
    let k := jsRem (n + h / 30) 12
    let a := s * jsMin l (1 - l)
    l - a * jsMax (-1) (jsMin (k - 3) (jsMin (9 - k) 1))
  [f 0 * 255, f 8 * 255, f 4 * 255]

/-- RGB_to_HSL from src/math.ts.  The switch statement on the maximum is
rendered as an if chain testing the channels in source order, which matches
the JavaScript case dispatch.  The final fix-ups (s < 0, h >= 360, l = 0,
S = 0) are copied in source order. -/
def RGB_to_HSL (rgb : List ℚ) : List ℚ :=
  let r := rgb.getD 0 0 / 255
  let g := rgb.getD 1 0 / 255
  let b := rgb.getD 2 0 / 255
  let mx := jsMax r (jsMax g b)
  let mn := jsMin r (jsMin g b)
  let lBig := (mn + mx) / 2
  let d := mx - mn
  let sBig : ℚ :=
    if d ≠ 0 then (if lBig = 0 ∨ lBig = 1 then 0 else (mx - lBig) / jsMin lBig (1 - lBig)) else 0
  let hBig : ℚ :=
    if d ≠ 0 then
      (if mx = r then (g - b) / d + (if g < b then 6 else 0)
       else if mx = g then (b - r) / d + 2
       else (r - g) / d + 4) * 60
    else 0
  let h := hBig
  let s := sBig * 100
  let l := lBig * 100
  let h := if s < 0 then h + 180 else h
  let s := if s < 0 then jsAbs s else s
  let h := if h ≥ 360 then h - 360 else h
  let s := if l = 0 then 0 else s
  let h := if sBig = 0 ∨ l = 0 then 0 else h
  [h, s, l]

/-- HWB_to_RGB from src/math.ts. -/
def HWB_to_RGB (hwb : List ℚ) : List ℚ :=
  let h := hwb.getD 0 0
  let w := hwb.getD 1 0 / 100
  let b := hwb.getD 2 0 / 100
  if w + b ≥ 1 then
    let gray := w / (w + b)
    [gray, gray, gray]
  else
    let rgb := (HSL_to_RGB [h, 100, 50]).map (fun c => c / 255)
    (rgb.map (fun c => c * (1 - w - b) + w)).map (fun c => c * 255)

/-- RGB_to_HWB from src/math.ts.  On achromatic input the source leaves the
hue as NaN (later normalized by toArray); the model represents that value by
the abstract T.nanQ. -/
def RGB_to_HWB (T : TransFns) (rgb : List ℚ) : List ℚ :=
  let sr := rgb.getD 0 0 / 255
  let sg := rgb.getD 1 0 / 255
  let sb := rgb.getD 2 0 / 255
  let mx := jsMax sr (jsMax sg sb)
  let mn := jsMin sr (jsMin sg sb)
  let d := mx - mn
  let hue : ℚ :=
    if d ≠ 0 then
      let h0 :=
        (if mx = sr then (sg - sb) / d + (if sg < sb then 6 else 0)
         else if mx = sg then (sb - sr) / d + 2
         else (sr - sg) / d + 4) * 60
      if h0 ≥ 360 then h0 - 360 else h0
    else T.nanQ
  [hue, mn * 100, (1 - mx) * 100]

/-- LAB_to_XYZD50 from src/math.ts (entirely rational: the cube branch). -/
def LAB_to_XYZD50 (lab : List ℚ) : List ℚ :=
  let lBig := lab.getD 0 0
  let a := lab.getD 1 0
  let b := lab.getD 2 0
  let d50 : List ℚ := [0.3457 / 0.3585, 1.0, (1.0 - 0.3457 - 0.3585) / 0.3585]
  let κ : ℚ := 24389 / 27
  let ε : ℚ := 216 / 24389
  let fy := (lBig + 16) / 116
  let fx := a / 500 + fy
  let fz := fy - b / 200
  let xyz : List ℚ :=
    [if fx ^ 3 > ε then fx ^ 3 else (116 * fx - 16) / κ,
     if lBig > κ * ε then fy ^ 3 else lBig / κ,
     if fz ^ 3 > ε then fz ^ 3 else (116 * fz - 16) / κ]
  (xyz.zip d50).map (fun p => p.1 * p.2)

/-- XYZD50_to_LAB from src/math.ts (uses Math.cbrt through T). -/
def XYZD50_to_LAB (T : TransFns) (xyz : List ℚ) : List ℚ :=
  let d50 : List ℚ := [0.3457 / 0.3585, 1.0, (1.0 - 0.3457 - 0.3585) / 0.3585]
  let ε : ℚ := 216 / 24389
  let κ : ℚ := 24389 / 27
  let scaled := (xyz.zip d50).map (fun p => p.1 / p.2)
  let f := scaled.map (fun v => if v > ε then T.cbrt v else (κ * v + 16) / 116)
  let fx := f.getD 0 0
  let fy := f.getD 1 0
  let fz := f.getD 2 0
  [116 * fy - 16, 500 * (fx - fy), 200 * (fy - fz)]

/-- LCH_to_LAB from src/math.ts (cos and sin in degrees through T). -/
def LCH_to_LAB (T : TransFns) (lch : List ℚ) : List ℚ :=
  let lBig := lch.getD 0 0
  let c := lch.getD 1 0
  let h := lch.getD 2 0
  [lBig, c * T.cosDeg h, c * T.sinDeg h]

/-- LAB_to_LCH from src/math.ts (sqrt and atan2 through T). -/
def LAB_to_LCH (T : TransFns) (lab : List ℚ) : List ℚ :=
  let lBig := lab.getD 0 0
  let a := lab.getD 1 0
  let b := lab.getD 2 0
  let c := T.sqrtf (a ^ 2 + b ^ 2)
  let h := T.atan2Deg b a
  [lBig, c, if h < 0 then h + 360 else h]

/-- OKLAB_to_XYZD65 from src/math.ts (entirely rational: cubing). -/
def OKLAB_to_XYZD65 (oklab : List ℚ) : List ℚ :=
  let lmsNl := mulMatVec OKLAB_to_LMS_M oklab
  mulMatVec LMS_to_XYZD65_M (lmsNl.map (fun c => c ^ 3))

/-- XYZD65_to_OKLAB from src/math.ts (Math.cbrt through T). -/
def XYZD65_to_OKLAB (T : TransFns) (xyz : List ℚ) : List ℚ :=
  let lms := mulMatVec XYZD65_to_LMS_M xyz
  mulMatVec LMS_to_OKLAB_M (lms.map T.cbrt)

/-- OKLCH_to_OKLAB from src/math.ts. -/
def OKLCH_to_OKLAB (T : TransFns) (oklch : List ℚ) : List ℚ :=
  let lBig := oklch.getD 0 0
  let c := oklch.getD 1 0
  let h := oklch.getD 2 0
  [lBig, c * T.cosDeg h, c * T.sinDeg h]

/-- OKLAB_to_OKLCH from src/math.ts. -/
def OKLAB_to_OKLCH (T : TransFns) (oklab : List ℚ) : List ℚ :=
  let lBig := oklab.getD 0 0
  let a := oklab.getD 1 0
  let b := oklab.getD 2 0
  let h := T.atan2Deg b a
  let c := T.sqrtf (a ^ 2 + b ^ 2)
  [lBig, c, if h < 0 then h + 360 else h]

/-- Value kind of a ComponentDefinition (src/types.ts): a numeric range, the
tag angle, or the tag percentage. -/
inductive CompValue
  | range (lo hi : ℚ)
  | angle
  | percentage
deriving DecidableEq

/-- ComponentDefinition from src/types.ts: coordinate index, value kind and
rounding precision.  Every built-in converter supplies a precision, so the
field is total here. -/
structure ComponentDef where
  index : ℕ
  value : CompValue
  precision : ℕ
deriving DecidableEq

/-- ColorModelConverter from src/types.ts, restricted to the fields the
verified operations read.  The targetGamut field is only consumed by the
gamut-fit methods (chroma-reduction, css-gamut-map), which are outside the
claims below, and is omitted.  Components are an association list in object
insertion order. -/
structure ModelConv where
  supportsLegacy : Bool := false
  alphaVariant : Option String := none
  components : List (String × ComponentDef)
  bridge : String
  toBridge : List ℚ → List ℚ
  fromBridge : List ℚ → List ℚ

/-- ColorSpaceConverter input of spaceConverterToModelConverter
(src/utils.ts): component names, bridge, optional transfer functions
(defaulting to the identity, as in the source) and the two matrices. -/
structure SpaceConv where
  components : List String
  bridge : String
  toLinear : ℚ → ℚ := fun c => c
  fromLinear : ℚ → ℚ := fun c => c
  toBridgeMatrix : List (List ℚ)
  fromBridgeMatrix : List (List ℚ)

/-- spaceConverterToModelConverter from src/utils.ts: components become
range [0,1] with precision 5 at consecutive indices; toBridge linearizes and
multiplies, fromBridge multiplies and delinearizes. -/
def spaceConverterToModelConverter (sc : SpaceConv) : ModelConv :=
  { supportsLegacy := false
    components := sc.components.enum.map (fun p => (p.2, ⟨p.1, CompValue.range 0 1, 5⟩))
    bridge := sc.bridge
    toBridge := fun coords => mulMatVec sc.toBridgeMatrix (coords.map sc.toLinear)
    fromBridge := fun coords => (mulMatVec sc.fromBridgeMatrix coords).map sc.fromLinear }

/-- The srgb (and display-p3) toLinear transfer from src/converters.ts; the
source repeats this literal function for both spaces. -/
def srgbToLin (T : TransFns) (c : ℚ) : ℚ :=
  let sign : ℚ := if c < 0 then -1 else 1
  let abs := jsAbs c
  if abs ≤ 0.04045 then sign * (abs / 12.92)
  else sign * T.powf ((abs + 0.055) / 1.055) 2.4

/-- The srgb (and display-p3) fromLinear transfer from src/converters.ts. -/
def srgbFromLin (T : TransFns) (c : ℚ) : ℚ :=
  let sign : ℚ := if c < 0 then -1 else 1
  let abs := jsAbs c
  if abs > 0.0031308 then sign * (1.055 * T.powf abs (1 / 2.4) - 0.055)
  else sign * (12.92 * abs)

/-- rec2020 toLinear transfer from src/converters.ts. -/
def rec2020ToLin (T : TransFns) (c : ℚ) : ℚ :=
  let α : ℚ := 1.09929682680944
  let β : ℚ := 0.018053968510807
  let sign : ℚ := if c < 0 then -1 else 1
  let abs := jsAbs c
  if abs < β * 4.5 then sign * (abs / 4.5)
  else sign * T.powf ((abs + α - 1) / α) (1 / 0.45)

/-- rec2020 fromLinear transfer from src/converters.ts. -/
def rec2020FromLin (T : TransFns) (c : ℚ) : ℚ :=
  let α : ℚ := 1.09929682680944
  let β : ℚ := 0.018053968510807
  let sign : ℚ := if c < 0 then -1 else 1
  let abs := jsAbs c
  if abs > β then sign * (α * T.powf abs 0.45 - (α - 1))
  else sign * (4.5 * abs)

/-- a98-rgb toLinear transfer from src/converters.ts. -/
def a98ToLin (T : TransFns) (c : ℚ) : ℚ :=
  (if c < 0 then (-1 : ℚ) else 1) * T.powf (jsAbs c) (563 / 256)

/-- a98-rgb fromLinear transfer from src/converters.ts. -/
def a98FromLin (T : TransFns) (c : ℚ) : ℚ :=
  (if c < 0 then (-1 : ℚ) else 1) * T.powf (jsAbs c) (256 / 563)

/-- prophoto-rgb toLinear transfer from src/converters.ts. -/
def prophotoToLin (T : TransFns) (c : ℚ) : ℚ :=
  let et2 : ℚ := 16 / 512
  let sign : ℚ := if c < 0 then -1 else 1
  let abs := jsAbs c
  if abs ≤ et2 then sign * (abs / 16) else sign * T.powf abs 1.8

/-- prophoto-rgb fromLinear transfer from src/converters.ts. -/
def prophotoFromLin (T : TransFns) (c : ℚ) : ℚ :=
  let et : ℚ := 1 / 512
  let sign : ℚ := if c < 0 then -1 else 1
  let abs := jsAbs c
  if abs ≥ et then sign * T.powf abs (1 / 1.8) else sign * (16 * abs)

/-- The identity 3x3 matrix literal used by the xyz, xyz-d65 color spaces in
src/converters.ts. -/
def identity3 : List (List ℚ) := [[1, 0, 0], [0, 1, 0], [0, 0, 1]]

/-- colorSpaces from src/converters.ts, already passed through
spaceConverterToModelConverter, in object insertion order. -/
def colorSpacesList (T : TransFns) : List (String × ModelConv) :=
  [("srgb", spaceConverterToModelConverter
      { components := ["r", "g", "b"], bridge := "xyz-d65",
        toLinear := srgbToLin T, fromLinear := srgbFromLin T,
        toBridgeMatrix := SRGB_to_XYZD65_M, fromBridgeMatrix := XYZD65_to_SRGB_M }),
   ("srgb-linear", spaceConverterToModelConverter
      { components := ["r", "g", "b"], bridge := "xyz-d65",
        toBridgeMatrix := SRGB_to_XYZD65_M, fromBridgeMatrix := XYZD65_to_SRGB_M }),
   ("display-p3", spaceConverterToModelConverter
      { components := ["r", "g", "b"], bridge := "xyz-d65",
        toLinear := srgbToLin T, fromLinear := srgbFromLin T,
        toBridgeMatrix := P3_to_XYZD65_M, fromBridgeMatrix := XYZD65_to_P3_M }),
   ("rec2020", spaceConverterToModelConverter
      { components := ["r", "g", "b"], bridge := "xyz-d65",
        toLinear := rec2020ToLin T, fromLinear := rec2020FromLin T,
        toBridgeMatrix := REC2020_to_XYZD65_M, fromBridgeMatrix := XYZD65_to_REC2020_M }),
   ("a98-rgb", spaceConverterToModelConverter
      { components := ["r", "g", "b"], bridge := "xyz-d65",
        toLinear := a98ToLin T, fromLinear := a98FromLin T,
        toBridgeMatrix := A98_to_XYZD65_M, fromBridgeMatrix := XYZD65_to_A98_M }),
   ("prophoto-rgb", spaceConverterToModelConverter
      { components := ["r", "g", "b"], bridge := "xyz-d50",
        toLinear := prophotoToLin T, fromLinear := prophotoFromLin T,
        toBridgeMatrix := ProPhoto_to_XYZD50_M, fromBridgeMatrix := XYZD50_to_ProPhoto_M }),
   ("xyz-d65", spaceConverterToModelConverter
      { components := ["x", "y", "z"], bridge := "xyz-d65",
        toBridgeMatrix := identity3, fromBridgeMatrix := identity3 }),
   ("xyz-d50", spaceConverterToModelConverter
      { components := ["x", "y", "z"], bridge := "xyz-d65",
        toBridgeMatrix := D50_to_D65, fromBridgeMatrix := D65_to_d50 }),
   ("xyz", spaceConverterToModelConverter
      { components := ["x", "y", "z"], bridge := "xyz-d65",
        toBridgeMatrix := identity3, fromBridgeMatrix := identity3 })]

/-- colorModels from src/converters.ts in object insertion order: the seven
named models followed by the spread of colorSpaces. -/
def colorModels (T : TransFns) : List (String × ModelConv) :=
  [("rgb",
    { supportsLegacy := true, alphaVariant := some "rgba",
      components := [("r", ⟨0, CompValue.range 0 255, 0⟩), ("g", ⟨1, CompValue.range 0 255, 0⟩),
                     ("b", ⟨2, CompValue.range 0 255, 0⟩)],
      bridge := "xyz-d65", toBridge := RGB_to_XYZD65 T, fromBridge := XYZD65_to_RGB T }),
   ("hsl",
    { supportsLegacy := true, alphaVariant := some "hsla",
      components := [("h", ⟨0, CompValue.angle, 1⟩), ("s", ⟨1, CompValue.percentage, 1⟩),
                     ("l", ⟨2, CompValue.percentage, 1⟩)],
      bridge := "rgb", toBridge := HSL_to_RGB, fromBridge := RGB_to_HSL }),
   ("hwb",
    { components := [("h", ⟨0, CompValue.angle, 1⟩), ("w", ⟨1, CompValue.percentage, 1⟩),
                     ("b", ⟨2, CompValue.percentage, 1⟩)],
      bridge := "rgb", toBridge := HWB_to_RGB, fromBridge := RGB_to_HWB T }),
   ("lab",
    { components := [("l", ⟨0, CompValue.percentage, 5⟩), ("a", ⟨1, CompValue.range (-125) 125, 5⟩),
                     ("b", ⟨2, CompValue.range (-125) 125, 5⟩)],
      bridge := "xyz-d50", toBridge := LAB_to_XYZD50, fromBridge := XYZD50_to_LAB T }),
   ("lch",
    { components := [("l", ⟨0, CompValue.percentage, 5⟩), ("c", ⟨1, CompValue.range 0 150, 5⟩),
                     ("h", ⟨2, CompValue.angle, 5⟩)],
      bridge := "lab", toBridge := LCH_to_LAB T, fromBridge := LAB_to_LCH T }),
   ("oklab",
    { components := [("l", ⟨0, CompValue.range 0 1, 5⟩), ("a", ⟨1, CompValue.range (-0.4) 0.4, 5⟩),
                     ("b", ⟨2, CompValue.range (-0.4) 0.4, 5⟩)],
      bridge := "xyz-d65", toBridge := OKLAB_to_XYZD65, fromBridge := XYZD65_to_OKLAB T }),
   ("oklch",
    { components := [("l", ⟨0, CompValue.range 0 1, 5⟩), ("c", ⟨1, CompValue.range 0 0.4, 5⟩),
                     ("h", ⟨2, CompValue.angle, 5⟩)],
      bridge := "oklab", toBridge := OKLCH_to_OKLAB T, fromBridge := OKLAB_to_OKLCH T })]
  ++ colorSpacesList T

/-- Names of the registered color spaces (keys of colorSpaces). -/
def colorSpaceNames : List String :=
  ["srgb", "srgb-linear", "display-p3", "rec2020", "a98-rgb", "prophoto-rgb",
   "xyz-d65", "xyz-d50", "xyz"]

/-- A Color value: registered model name and coordinate array, index 3 being
the alpha (the constructor maintains length 4). -/
structure Color where
  model : String
  coords : List ℚ
deriving DecidableEq

/-- Association lookup mirroring a JavaScript object property read. -/
def lookupAssoc {α : Type} (l : List (String × α)) (k : String) : Option α :=
  (l.find? (fun e => e.1 = k)).map (fun e => e.2)

/-- colorModels[name] as an Option. -/
def lookupModel (T : TransFns) (name : String) : Option ModelConv :=
  lookupAssoc (colorModels T) name

/-- The Color constructor (src/Color.ts): rejects unregistered models and
coordinate arrays whose length is not 3 or 4; appends alpha 1 when only three
coordinates are given. -/
def mkColorE (T : TransFns) (model : String) (coords : List ℚ) : Option Color :=
  if (lookupModel T model).isNone then none
  else if coords.length < 3 ∨ 4 < coords.length then none
  else some ⟨model, if coords.length = 3 then coords ++ [1] else coords⟩

/-- Whitespace test matching the \s character class for the ASCII inputs the
claims exercise. -/
def isWsChar (c : Char) : Bool :=
  c = ' ' ∨ c = '\t' ∨ c = '\n' ∨ c = '\r' ∨ c = '\x0b' ∨ c = '\x0c'

/-- ASCII lower-casing of one character (the sources lower-case either via
the regex [A-Z] or String.prototype.toLowerCase on ASCII names). -/
def lowerChar (c : Char) : Char :=
  if 'A' ≤ c ∧ c ≤ 'Z' then Char.ofNat (c.toNat + 32) else c

/-- String.prototype.trim on a character list. -/
def trimList (s : List Char) : List Char :=
  ((s.dropWhile isWsChar).reverse.dropWhile isWsChar).reverse

/-- String.prototype.trim. -/
def jsTrim (s : String) : String := ⟨trimList s.data⟩

/-- String.prototype.toLowerCase (ASCII). -/
def jsToLower (s : String) : String := ⟨s.data.map lowerChar⟩

/-- model.trim().toLowerCase() as performed by Color.in. -/
def normModelName (s : String) : String := jsToLower (jsTrim s)

/-- graph[k].push(v), creating the adjacency entry on first use; entries keep
object insertion order like the source adjacency object. -/
def graphPush (g : List (String × List String)) (k v : String) : List (String × List String) :=
  if (g.find? (fun e => e.1 = k)).isSome then
    g.map (fun e => if e.1 = k then (e.1, e.2 ++ [v]) else e)
  else g ++ [(k, [v])]

/-- buildGraph from Color.in (src/Color.ts): an undirected edge between every
model and its bridge, inserted in registry order. -/
def buildGraph (T : TransFns) : List (String × List String) :=
  (colorModels T).foldl (fun g p => graphPush (graphPush g p.1 p.2.bridge) p.2.bridge p.1) []

/-- Path reconstruction of findPath: follow the parent chain from the end
node; the source pushes and reverses, which the accumulator mirrors.  The
fuel bounds the chain length (the parent map is finite and acyclic). -/
def rebuildPath (parent : List (String × Option String)) :
    ℕ → String → List String → Option (List String)
  | 0, _, _ => none
  | fuel + 1, cur, acc =>
    let acc2 := cur :: acc
    match lookupAssoc parent cur with
    | some (some nxt) => rebuildPath parent fuel nxt acc2
    | some none => some acc2
    | none => some acc2

/-- The breadth-first search loop of findPath (src/Color.ts): a growing queue
scanned by index, a visited set, and a parent map keyed by node.  Neighbors
enter the queue only when they have no parent entry yet.  The fuel argument
only bounds the iteration count; the source loop terminates because every
node enters the queue at most once, and the callers below pass fuel larger
than any possible queue length. -/
def bfsLoop (graph : List (String × List String)) (endName : String) :
    ℕ → List String → ℕ → List String → List (String × Option String) → Option (List String)
  | 0, _, _, _, _ => none
  | fuel + 1, queue, i, visited, parent =>
    if i < queue.length then
      let node := queue.getD i ""
      if node = endName then rebuildPath parent (parent.length + 1) endName []
      else if visited.contains node then bfsLoop graph endName fuel queue (i + 1) visited parent
      else
        let visited2 := visited ++ [node]
        let nbrs := (lookupAssoc graph node).getD []
        let qp := nbrs.foldl
          (fun (qp : List String × List (String × Option String)) nb =>
            if (qp.2.find? (fun e => e.1 = nb)).isSome then qp
            else (qp.1 ++ [nb], qp.2 ++ [(nb, some node)]))
          (queue, parent)
        bfsLoop graph endName fuel qp.1 (i + 1) visited2 qp.2
    else none

/-- findPath from Color.in.  The paths memo map is omitted: it is semantically
transparent here (cache coherence is treated separately with the registry
model), and the claims quantify over single conversions. -/
def findPath (graph : List (String × List String)) (startName endName : String) :
    Option (List String) :=
  bfsLoop graph endName (4 * graph.length + 8) [startName] 0 [] [(startName, none)]

/-- The path execution loop of Color.in: for every adjacent pair, apply
toBridge of the left model when it bridges to the right one, else fromBridge
of the right model when it bridges to the left one, else fail.  Every
registered converter defines both functions, so the source truthiness tests
on them always pass. -/
def execPath (T : TransFns) : List String → List ℚ → Option (List ℚ)
  | a :: b :: rest, v =>
    match lookupModel T a with
    | none => none
    | some conv =>
      if conv.bridge = b then execPath T (b :: rest) (conv.toBridge v)
      else
        match lookupModel T b with
        | none => none
        | some toConv =>
          if toConv.bridge = a then execPath T (b :: rest) (toConv.fromBridge v)
          else none
  | _, v => some v

/-- Color.in (src/Color.ts): normalize the target name; on identity skip the
graph entirely; otherwise build the graph, find a path and execute it.  In
both cases the result is the first three entries of the computed value with
the original alpha appended, passed through the constructor. -/
def inModel (T : TransFns) (c : Color) (model : String) : Option Color :=
  if normModelName model = c.model then
    mkColorE T (normModelName model) (c.coords.take 3 ++ [c.coords.getD 3 1])
  else
    (findPath (buildGraph T) c.model (normModelName model)).bind (fun path =>
      (execPath T path c.coords).bind (fun value =>
        mkColorE T (normModelName model) (value.take 3 ++ [c.coords.getD 3 1])))

/-- The three-valued precision option of fit (src/utils.ts): a number, null,
or undefined, which select the override, no rounding, or the per-component
precision respectively. -/
inductive PrecOpt
  | undef
  | null
  | num (n : ℕ)
deriving DecidableEq

/-- componentProps[i]: the component definition whose index is i.  The source
builds an index-keyed array; indices are distinct, so the first match equals
the source array entry. -/
def propAt (components : List (String × ComponentDef)) (i : ℕ) : Option ComponentDef :=
  (components.find? (fun p => p.2.index = i)).map (fun p => p.2)

/-- fit from src/utils.ts restricted to the built-in methods none and clip.
The registered gamut-mapping methods (chroma-reduction, css-gamut-map) run
the whole engine recursively and are outside every claim verified here; the
model maps them, like unknown names, to failure.  Clipping clamps ranges and
wraps angles; the final pass rounds with the three-valued precision rule. -/
def fitE (T : TransFns) (coords : List ℚ) (model : String)
    (method : String) (precision : PrecOpt) : Option (List ℚ) := do
  let conv ← lookupModel T model
  let comps := conv.components
  let clipped ←
    if method = "none" then some coords
    else if method = "clip" then
      (coords.take 3).enum.mapM (fun p =>
        match propAt comps p.1 with
        | none => none
        | some prop =>
          match prop.value with
          | CompValue.angle => some (jsRem (jsRem p.2 360 + 360) 360)
          | CompValue.range lo hi => some (jsMin hi (jsMax lo p.2))
          | CompValue.percentage => some (jsMin 100 (jsMax 0 p.2)))
    else none
  some ((clipped.take 3).enum.map (fun p =>
    let pr : Option ℕ :=
      match precision with
      | PrecOpt.num n => some n
      | PrecOpt.null => none
      | PrecOpt.undef => some (((propAt comps p.1).map (fun d => d.precision)).getD 3)
    match pr with
    | none => p.2
    | some n => roundFixed p.2 n))

/-- Options of toArray and toObject (src/Color.ts).  The precision field is
the value fit receives: the call site tests containment of the key and passes
null when absent, so the default here is null. -/
structure GetOptions where
  fitMethod : String := "none"
  precision : PrecOpt := PrecOpt.null
deriving DecidableEq

/-- Color.toArray (src/Color.ts).  The NaN and infinity normalization of the
source is dead in the rational model.  Every call site passes a non-empty
method name, so the truthiness test on it always succeeds and fit always
runs. -/
def toArrayE (T : TransFns) (c : Color) (opts : GetOptions) : Option (List ℚ) := do
  let _conv ← lookupModel T c.model
  let normalized := c.coords.take 3
  let clipped ← fitE T normalized c.model opts.fitMethod opts.precision
  some (clipped.take 3 ++ [c.coords.getD 3 0])

/-- The every-loop of Color.equals: component-wise absolute difference within
epsilon, iterating over the indices of the first array.  Reachable colors
always carry four coordinates, matching the source arrays. -/
def coordsWithin (a b : List ℚ) (eps : ℚ) : Bool :=
  (List.range a.length).all (fun i => jsAbs (a.getD i 0 - b.getD i 0) ≤ eps)

/-- The default epsilon of equals and inGamut. -/
def defaultEpsilon : ℚ := 1 / 100000

/-- Color.equals as implemented (src/Color.ts lines 919 to 929): when the
models DIFFER the raw coordinate arrays are compared; when the models are
EQUAL both colors are converted to xyz-d65 and the results compared.  This
mirrors the source condition otherColor.model !== this.model guarding the raw
comparison. -/
def equalsE (T : TransFns) (a b : Color) (eps : ℚ) : Option Bool :=
  if b.model ≠ a.model then
    some (coordsWithin a.coords b.coords eps)
  else do
    let ax ← inModel T a "xyz-d65"
    let axArr ← toArrayE T ax {}
    let bx ← inModel T b "xyz-d65"
    let bxArr ← toArrayE T bx {}
    some (coordsWithin axArr bxArr eps)

/-- The comparison the specification sentence describes for equals, written
from the spec words for the refinement comparison: same model compares the
raw coordinates component-wise, different models compare both colors
converted to xyz-d65. -/
def equalsPerSpec (T : TransFns) (a b : Color) (eps : ℚ) : Option Bool :=
  if a.model = b.model then
    some (coordsWithin a.coords b.coords eps)
  else do
    let ax ← inModel T a "xyz-d65"
    let axArr ← toArrayE T ax {}
    let bx ← inModel T b "xyz-d65"
    let bxArr ← toArrayE T bx {}
    some (coordsWithin axArr bxArr eps)

/-- Color.contrast (src/Color.ts): WCAG 2.1 ratio from the Y channels of both
colors in xyz-d65; the other color is converted first, as in the source. -/
def contrastE (T : TransFns) (a other : Color) : Option ℚ := do
  let bx ← inModel T other "xyz-d65"
  let bArr ← toArrayE T bx {}
  let lBg := bArr.getD 1 0
  let ax ← inModel T a "xyz-d65"
  let aArr ← toArrayE T ax {}
  let lText := aArr.getD 1 0
  some ((jsMax lText lBg + 0.05) / (jsMin lText lBg + 0.05))

/-- The names of the built-in easing functions (src/math.ts EASINGS). -/
inductive EasingName
  | linear
  | easeIn
  | easeOut
  | easeInOut
  | easeInCubic
  | easeOutCubic
  | easeInOutCubic
deriving DecidableEq

/-- EASINGS from src/math.ts.  The ease-out-cubic entry pre-decrements t, so
it computes (t - 1)^3 + 1; ease-in-out-cubic calls Math.pow at the integer
exponent 3, which is the exact cube. -/
def EASINGS : EasingName → ℚ → ℚ
  | EasingName.linear => fun t => t
  | EasingName.easeIn => fun t => t * t
  | EasingName.easeOut => fun t => t * (2 - t)
  | EasingName.easeInOut => fun t => if t < 0.5 then 2 * t * t else -1 + (4 - 2 * t) * t
  | EasingName.easeInCubic => fun t => t * t * t
  | EasingName.easeOutCubic => fun t => (t - 1) * (t - 1) * (t - 1) + 1
  | EasingName.easeInOutCubic => fun t => if t < 0.5 then 4 * t * t * t else 1 - (-2 * t + 2) ^ 3 / 2

/-- Hue interpolation method names of mix (src/types.ts). -/
inductive HueMethod
  | shorter
  | longer
  | increasing
  | decreasing
deriving DecidableEq

/-- deltaHue inside Color.mix: signed shortest difference in (-180, 180]
computed with the JavaScript double remainder. -/
def deltaHue (a b : ℚ) : ℚ :=
  let d := jsRem (jsRem (b - a) 360 + 360) 360
  if d > 180 then d - 360 else d

/-- deltaHueLong inside Color.mix. -/
def deltaHueLong (a b : ℚ) : ℚ :=
  let short := deltaHue a b
  if short ≥ 0 then short - 360 else short + 360

/-- The interpolate helper of Color.mix, including the final wrap into
[0, 360). -/
def interpolateHue (fromV toV t : ℚ) (m : HueMethod) : ℚ :=
  let mixed :=
    match m with
    | HueMethod.shorter => fromV + t * deltaHue fromV toV
    | HueMethod.longer => fromV + t * deltaHueLong fromV toV
    | HueMethod.increasing => fromV * (1 - t) + (if toV < fromV then toV + 360 else toV) * t
    | HueMethod.decreasing => fromV * (1 - t) + (if toV > fromV then toV - 360 else toV) * t
  jsRem (jsRem mixed 360 + 360) 360

/-- MixOptions with the source defaults (src/Color.ts line 650). -/
structure MixOptions where
  hue : HueMethod := HueMethod.shorter
  amount : ℚ := 0.5
  easing : EasingName := EasingName.linear
  gamma : ℚ := 1.0

/-- The alpha ComponentDefinition the source injects at index 3. -/
def alphaComponentDef : ComponentDef := ⟨3, CompValue.range 0 1, 3⟩

/-- Color.mix (src/Color.ts lines 613 to 721), embedded verbatim: the
interpolation parameter is t = clamp(amount), eased, then gamma corrected via
Math.pow; amounts 0 and 1 return early; when either alpha is below 1 the
premultiplied branch runs, whose non-hue formula is literally
premultA * t + premultB * (1 - t) with premultA from the receiver, and whose
mixed alpha is thisAlpha * t + otherAlpha * (1 - t); the fully opaque branch
interpolates start + (end - start) * t and emits alpha 1. -/
def mixE (T : TransFns) (c other : Color) (opts : MixOptions) : Option Color := do
  let coords ← toArrayE T c {}
  let conv ← lookupModel T c.model
  let comps := conv.components ++ [("alpha", alphaComponentDef)]
  let t := 1 - jsMax 0 (jsMin (1 - opts.amount) 1)
  let easedT := EASINGS opts.easing t
  let gammaCorrectedT := T.powf easedT (1 / opts.gamma)
  let thisCoords := coords.take 3
  let otherConverted ← inModel T other c.model
  let otherArr ← toArrayE T otherConverted {}
  let otherCoords := otherArr.take 3
  let thisAlpha := coords.getD 3 0
  let otherAlpha := other.coords.getD 3 0
  let hueIndex : Option ℕ := (comps.find? (fun p => p.1 = "h")).map (fun p => p.2.index)
  if opts.amount = 0 then mkColorE T c.model (thisCoords ++ [thisAlpha])
  else if opts.amount = 1 then mkColorE T c.model (otherCoords ++ [otherAlpha])
  else if thisAlpha < 1 ∨ otherAlpha < 1 then
    let premixed := thisCoords.enum.map (fun p =>
      let endV := otherCoords.getD p.1 0
      if hueIndex = some p.1 then interpolateHue p.2 endV gammaCorrectedT opts.hue
      else p.2 * thisAlpha * gammaCorrectedT + endV * otherAlpha * (1 - gammaCorrectedT))
    let mixedAlpha := thisAlpha * gammaCorrectedT + otherAlpha * (1 - gammaCorrectedT)
    let mixed :=
      if mixedAlpha > 0 then
        premixed.enum.map (fun p => if hueIndex = some p.1 then p.2 else p.2 / mixedAlpha)
      else
        thisCoords.enum.map (fun p => if hueIndex = some p.1 then premixed.getD p.1 0 else 0)
    mkColorE T c.model (mixed ++ [mixedAlpha])
  else
    let mixedCoords := thisCoords.enum.map (fun p =>
      match comps.find? (fun q => q.2.index = p.1) with
      | none => p.2
      | some q =>
        let endV := otherCoords.getD p.1 0
        if q.2.value = CompValue.angle then interpolateHue p.2 endV gammaCorrectedT opts.hue
        else p.2 + (endV - p.2) * gammaCorrectedT)
    mkColorE T c.model (mixedCoords ++ [1])

/-- ASCII upper-casing of one character (String.prototype.toUpperCase). -/
def upperChar (c : Char) : Char :=
  if 'a' ≤ c ∧ c ≤ 'z' then Char.ofNat (c.toNat - 32) else c

/-- ASCII letter test (the regex classes a-zA-Z of the tokenizer). -/
def isAsciiAlpha (c : Char) : Bool :=
  ('a' ≤ c ∧ c ≤ 'z') ∨ ('A' ≤ c ∧ c ≤ 'Z')

/-- ASCII digit test. -/
def isDigitCh (c : Char) : Bool := '0' ≤ c ∧ c ≤ '9'

/-- The character class [a-zA-Z0-9-%#] of extractBalancedExpression and of
the identifier scanner. -/
def isExprChar (c : Char) : Bool :=
  isAsciiAlpha c ∨ isDigitCh c ∨ c = '-' ∨ c = '%' ∨ c = '#'

/-- The character class [0-9.eE+-] of the number scanner. -/
def isNumChar (c : Char) : Bool :=
  isDigitCh c ∨ c = '.' ∨ c = 'e' ∨ c = 'E' ∨ c = '+' ∨ c = '-'

/-- Prefix test on strings through their character lists. -/
def strStartsWith (s p : String) : Bool := p.data.isPrefixOf s.data

/-- Collapse every whitespace run to one space: replace(/\s+/g, " ").  The
fuel is the remaining length; callers pass length + 1. -/
def collapseWsAux : ℕ → List Char → List Char
  | 0, s => s
  | fuel + 1, s =>
    match s with
    | [] => []
    | c :: rest =>
      if isWsChar c then ' ' :: collapseWsAux fuel (rest.dropWhile isWsChar)
      else c :: collapseWsAux fuel rest

/-- Global replacement of a fixed non-empty pattern, scanning left to right
exactly like String.prototype.replace with a literal global regex. -/
def replaceSeqAux (pat rep : List Char) : ℕ → List Char → List Char
  | 0, s => s
  | fuel + 1, s =>
    match s with
    | [] => []
    | c :: rest =>
      if pat ≠ [] ∧ pat.isPrefixOf s then rep ++ replaceSeqAux pat rep fuel (s.drop pat.length)
      else c :: replaceSeqAux pat rep fuel rest

/-- replace(/\s*,\s*/g, ", "): at each position, a whitespace run followed by
a comma (and trailing whitespace) becomes comma-space; this is the leftmost
greedy behavior of the global regex. -/
def commaPadAux : ℕ → List Char → List Char
  | 0, s => s
  | fuel + 1, s =>
    match s with
    | [] => []
    | c :: rest =>
      match s.dropWhile isWsChar with
      | ',' :: r => ',' :: ' ' :: commaPadAux fuel (r.dropWhile isWsChar)
      | _ => c :: commaPadAux fuel rest

/-- clean from src/utils.ts: trim, collapse whitespace, strip space after an
opening and before a closing paren, normalize comma padding, rewrite
calc(NaN) to 0, lower-case ASCII letters — in exactly the source order. -/
def clean (color : String) : String :=
  let s0 := trimList color.data
  let s1 := collapseWsAux (s0.length + 1) s0
  let s2 := replaceSeqAux ("( ".data) ("(".data) (s1.length + 1) s1
  let s3 := replaceSeqAux (" )".data) (")".data) (s2.length + 1) s2
  let s4 := commaPadAux (s3.length + 1) s3
  let s5 := replaceSeqAux (" ,".data) (",".data) (s4.length + 1) s4
  let s6 := replaceSeqAux ("calc(NaN)".data) ("0".data) (s5.length + 1) s5
  ⟨s6.map lowerChar⟩

/-- Decimal digits of a natural number (most significant first); the fuel 40
covers every magnitude reachable in the model. -/
def natDigits : ℕ → ℕ → List Char
  | 0, _ => []
  | fuel + 1, n =>
    if n < 10 then [Char.ofNat (48 + n)]
    else natDigits fuel (n / 10) ++ [Char.ofNat (48 + n % 10)]

/-- Decimal string of a natural number. -/
def natToString (n : ℕ) : String := ⟨natDigits 40 n⟩

/-- Least exponent k (up to the fuel) with q * 10 ^ k integral. -/
def decExpAux (q : ℚ) : ℕ → ℕ → Option ℕ
  | 0, _ => none
  | fuel + 1, k => if (q * 10 ^ k).den = 1 then some k else decExpAux q fuel (k + 1)

/-- Number.prototype.toString for the values the formatters print: after
rounding to a fixed number of decimals every value is a finite decimal, and
JavaScript prints such doubles in plain positional notation without trailing
zeros (the exponent notations require magnitudes outside what the rounded
component values can reach). -/
def jsNumToString (q : ℚ) : String :=
  let sign : String := if q < 0 then "-" else ""
  let aq := jsAbs q
  match decExpAux aq 30 0 with
  | none => "?"
  | some 0 => sign ++ natToString aq.num.natAbs
  | some k =>
    let digits := (natToString (aq * 10 ^ k).num.natAbs).data
    let padded := if digits.length ≤ k then List.replicate (k + 1 - digits.length) '0' ++ digits else digits
    let intPart : String := ⟨padded.take (padded.length - k)⟩
    let fracPart : String := ⟨padded.drop (padded.length - k)⟩
    sign ++ intPart ++ "." ++ fracPart

/-- Math.round: round half toward positive infinity. -/
def jsRound (q : ℚ) : ℤ := ⌊q + 1 / 2⌋

/-- Value of one decimal digit. -/
def digitVal (c : Char) : ℕ := c.toNat - 48

/-- Split a leading run of decimal digits from a character list. -/
def takeDigits : List Char → List ℕ × List Char
  | [] => ([], [])
  | c :: rest =>
    if isDigitCh c then
      let p := takeDigits rest
      (digitVal c :: p.1, p.2)
    else ([], c :: rest)

/-- Natural number denoted by a digit list (most significant first). -/
def digitsToNat (ds : List ℕ) : ℕ := ds.foldl (fun a d => a * 10 + d) 0

/-- Exponent clause of parseFloat: an optional e or E with signed digits; a
bare e with no digits contributes nothing, as in JavaScript. -/
def parseExpClause : List Char → ℤ
  | c :: r =>
    if c = 'e' ∨ c = 'E' then
      match r with
      | '-' :: r2 => -(digitsToNat (takeDigits r2).1 : ℤ)
      | '+' :: r2 => (digitsToNat (takeDigits r2).1 : ℤ)
      | r2 => (digitsToNat (takeDigits r2).1 : ℤ)
    else 0
  | [] => 0

/-- JavaScript parseFloat on the token shapes the sources feed it: leading
whitespace, optional sign, digits with optional fraction and exponent,
stopping at the first invalid character; none models NaN.  The Infinity
literals never reach parseFloat in the modelled paths. -/
def jsParseFloat (s : List Char) : Option ℚ :=
  let s1 := s.dropWhile isWsChar
  let signAndRest : ℚ × List Char :=
    match s1 with
    | '-' :: r => (-1, r)
    | '+' :: r => (1, r)
    | _ => (1, s1)
  let sign := signAndRest.1
  let p1 := takeDigits signAndRest.2
  let fracAndRest : List ℕ × List Char :=
    match p1.2 with
    | '.' :: r => takeDigits r
    | _ => ([], p1.2)
  if p1.1 = [] ∧ fracAndRest.1 = [] then none
  else
    let mant : ℚ := (digitsToNat p1.1 : ℚ) + (digitsToNat fracAndRest.1 : ℚ) / 10 ^ fracAndRest.1.length
    some (sign * mant * (10 : ℚ) ^ parseExpClause fracAndRest.2)

/-- The core of the numeric token regex (?:\d+|\d*\.\d+). -/
def numericCore (s : List Char) : Bool :=
  let d1 := s.takeWhile isDigitCh
  match s.drop d1.length with
  | [] => d1 ≠ []
  | '.' :: r2 => r2 ≠ [] ∧ r2.all isDigitCh
  | _ => false

/-- The numeric token regex ^-?(?:\d+|\d*\.\d+)$ of evaluateComponent. -/
def isNumericToken (s : List Char) : Bool :=
  match s with
  | '-' :: r => numericCore r
  | _ => numericCore s

/-- The angle token regex ^-?(?:\d+|\d*\.\d+)(?:deg|rad|grad|turn)$. -/
def isAngleToken (s : List Char) : Bool :=
  let core := fun (t : List Char) =>
    (["deg", "rad", "grad", "turn"].any (fun u =>
      u.data.isSuffixOf t ∧ numericCore (t.take (t.length - u.length))))
  match s with
  | '-' :: r => core r
  | _ => core s

/-- The last n characters, matching String.prototype.slice with a negative
start (shorter strings are returned whole). -/
def lastN (s : List Char) (n : ℕ) : List Char := s.drop (s.length - n)

/-- parseAngle inside modelConverterToColorConverter: parseFloat, then unit
dispatch on the suffix.  The rad branch multiplies by 180 / Math.PI, the
abstract T.piQ standing for PI. -/
def parseAngleTok (T : TransFns) (token : List Char) : Option ℚ := do
  let value ← jsParseFloat token
  if lastN token 3 = "deg".data then pure value
  else if lastN token 3 = "rad".data then pure (value * (180 / T.piQ))
  else if lastN token 4 = "grad".data then pure (value * 0.9)
  else if lastN token 4 = "turn".data then pure (value * 360)
  else pure value

/-- parsePercent inside modelConverterToColorConverter: percentage-typed
components keep the number; ranges straddling zero scale symmetrically; other
ranges remap linearly. -/
def parsePercent (value : CompValue) (str : List Char) (lo hi : ℚ) : Option ℚ := do
  let percent ← jsParseFloat str
  if value = CompValue.percentage then pure percent
  else if lo < 0 ∧ 0 < hi then pure (percent / 100 * (hi - lo) / 2)
  else pure (percent / 100 * (hi - lo) + lo)

/-- evaluateComponent from modelConverterToColorConverter (src/utils.ts).
The token none is 0; a token naming an origin component resolves through the
environment; otherwise the value kind selects the angle, percentage or number
evaluation with the legacy and relative restrictions of the source.  The
calc branch invokes the full arithmetic interpreter of the source; no
verified claim reaches it (the only calc literal among the claims, calc(NaN),
is rewritten to 0 by clean before parsing), and the model maps those tokens
to failure. -/
def evaluateComponent (T : TransFns) (supportsLegacy : Bool) (token : String)
    (value : CompValue) (base : List (String × ℚ)) (commaSeparated relative : Bool) : Option ℚ :=
  if token = "none" then some 0
  else
    match lookupAssoc base token with
    | some v => some v
    | none =>
      match value with
      | CompValue.angle =>
        if isAngleToken token.data then parseAngleTok T token.data
        else if isNumericToken token.data then jsParseFloat token.data
        else if token.data.getLast? = some '%' then
          if commaSeparated ∧ supportsLegacy then none
          else if relative then none
          else parsePercent value token.data 0 360
        else none
      | CompValue.percentage =>
        if isNumericToken token.data then
          if commaSeparated ∧ supportsLegacy then none else jsParseFloat token.data
        else if token.data.getLast? = some '%' then parsePercent value token.data 0 100
        else none
      | CompValue.range lo hi =>
        if isNumericToken token.data then jsParseFloat token.data
        else if token.data.getLast? = some '%' then parsePercent value token.data lo hi
        else none

/-- Inner scan of extractBalancedExpression: depth counting, keeping
characters while the depth stays positive; returns the kept characters and
the number of characters consumed. -/
def balancedAux : ℕ → List Char → ℕ → List Char × ℕ
  | 0, _, _ => ([], 0)
  | _ + 1, [], _ => ([], 0)
  | fuel + 1, c :: rest, depth =>
    let depth2 := if c = '(' then depth + 1 else if c = ')' then depth - 1 else depth
    if depth2 > 0 then
      let p := balancedAux fuel rest depth2
      (c :: p.1, p.2 + 1)
    else ([], 1)

/-- extractBalancedExpression from src/utils.ts: an identifier run when the
start is not an opening paren, then a full balanced parenthesized run
(with the closing paren appended even when the input ends early, as in the
source). -/
def extractBalanced (input : List Char) (start : ℕ) : List Char × ℕ :=
  let s := input.drop start
  let idp := if s.headD '(' = '(' then [] else s.takeWhile isExprChar
  let i1 := start + idp.length
  match input.drop i1 with
  | '(' :: r =>
    let p := balancedAux (r.length + 1) r 1
    (idp ++ '(' :: p.1 ++ [')'], i1 + 1 + p.2)
  | _ => (idp, i1)

/-- The namedColors table from src/converters.ts (148 entries). -/
def namedColors : List (String × List ℚ) :=
  [("aliceblue", [240, 248, 255]),
   ("antiquewhite", [250, 235, 215]),
   ("aqua", [0, 255, 255]),
   ("aquamarine", [127, 255, 212]),
   ("azure", [240, 255, 255]),
   ("beige", [245, 245, 220]),
   ("bisque", [255, 228, 196]),
   ("black", [0, 0, 0]),
   ("blanchedalmond", [255, 235, 205]),
   ("blue", [0, 0, 255]),
   ("blueviolet", [138, 43, 226]),
   ("brown", [165, 42, 42]),
   ("burlywood", [222, 184, 135]),
   ("cadetblue", [95, 158, 160]),
   ("chartreuse", [127, 255, 0]),
   ("chocolate", [210, 105, 30]),
   ("coral", [255, 127, 80]),
   ("cornflowerblue", [100, 149, 237]),
   ("cornsilk", [255, 248, 220]),
   ("crimson", [220, 20, 60]),
   ("cyan", [0, 255, 255]),
   ("darkblue", [0, 0, 139]),
   ("darkcyan", [0, 139, 139]),
   ("darkgoldenrod", [184, 134, 11]),
   ("darkgray", [169, 169, 169]),
   ("darkgreen", [0, 100, 0]),
   ("darkgrey", [169, 169, 169]),
   ("darkkhaki", [189, 183, 107]),
   ("darkmagenta", [139, 0, 139]),
   ("darkolivegreen", [85, 107, 47]),
   ("darkorange", [255, 140, 0]),
   ("darkorchid", [153, 50, 204]),
   ("darkred", [139, 0, 0]),
   ("darksalmon", [233, 150, 122]),
   ("darkseagreen", [143, 188, 143]),
   ("darkslateblue", [72, 61, 139]),
   ("darkslategray", [47, 79, 79]),
   ("darkslategrey", [47, 79, 79]),
   ("darkturquoise", [0, 206, 209]),
   ("darkviolet", [148, 0, 211]),
   ("deeppink", [255, 20, 147]),
   ("deepskyblue", [0, 191, 255]),
   ("dimgray", [105, 105, 105]),
   ("dimgrey", [105, 105, 105]),
   ("dodgerblue", [30, 144, 255]),
   ("firebrick", [178, 34, 34]),
   ("floralwhite", [255, 250, 240]),
   ("forestgreen", [34, 139, 34]),
   ("fuchsia", [255, 0, 255]),
   ("gainsboro", [220, 220, 220]),
   ("ghostwhite", [248, 248, 255]),
   ("gold", [255, 215, 0]),
   ("goldenrod", [218, 165, 32]),
   ("gray", [128, 128, 128]),
   ("green", [0, 128, 0]),
   ("greenyellow", [173, 255, 47]),
   ("grey", [128, 128, 128]),
   ("honeydew", [240, 255, 240]),
   ("hotpink", [255, 105, 180]),
   ("indianred", [205, 92, 92]),
   ("indigo", [75, 0, 130]),
   ("ivory", [255, 255, 240]),
   ("khaki", [240, 230, 140]),
   ("lavender", [230, 230, 250]),
   ("lavenderblush", [255, 240, 245]),
   ("lawngreen", [124, 252, 0]),
   ("lemonchiffon", [255, 250, 205]),
   ("lightblue", [173, 216, 230]),
   ("lightcoral", [240, 128, 128]),
   ("lightcyan", [224, 255, 255]),
   ("lightgoldenrodyellow", [250, 250, 210]),
   ("lightgray", [211, 211, 211]),
   ("lightgreen", [144, 238, 144]),
   ("lightgrey", [211, 211, 211]),
   ("lightpink", [255, 182, 193]),
   ("lightsalmon", [255, 160, 122]),
   ("lightseagreen", [32, 178, 170]),
   ("lightskyblue", [135, 206, 250]),
   ("lightslategray", [119, 136, 153]),
   ("lightslategrey", [119, 136, 153]),
   ("lightsteelblue", [176, 196, 222]),
   ("lightyellow", [255, 255, 224]),
   ("lime", [0, 255, 0]),
   ("limegreen", [50, 205, 50]),
   ("linen", [250, 240, 230]),
   ("magenta", [255, 0, 255]),
   ("maroon", [128, 0, 0]),
   ("mediumaquamarine", [102, 205, 170]),
   ("mediumblue", [0, 0, 205]),
   ("mediumorchid", [186, 85, 211]),
   ("mediumpurple", [147, 112, 219]),
   ("mediumseagreen", [60, 179, 113]),
   ("mediumslateblue", [123, 104, 238]),
   ("mediumspringgreen", [0, 250, 154]),
   ("mediumturquoise", [72, 209, 204]),
   ("mediumvioletred", [199, 21, 133]),
   ("midnightblue", [25, 25, 112]),
   ("mintcream", [245, 255, 250]),
   ("mistyrose", [255, 228, 225]),
   ("moccasin", [255, 228, 181]),
   ("navajowhite", [255, 222, 173]),
   ("navy", [0, 0, 128]),
   ("oldlace", [253, 245, 230]),
   ("olive", [128, 128, 0]),
   ("olivedrab", [107, 142, 35]),
   ("orange", [255, 165, 0]),
   ("orangered", [255, 69, 0]),
   ("orchid", [218, 112, 214]),
   ("palegoldenrod", [238, 232, 170]),
   ("palegreen", [152, 251, 152]),
   ("paleturquoise", [175, 238, 238]),
   ("palevioletred", [219, 112, 147]),
   ("papayawhip", [255, 239, 213]),
   ("peachpuff", [255, 218, 185]),
   ("peru", [205, 133, 63]),
   ("pink", [255, 192, 203]),
   ("plum", [221, 160, 221]),
   ("powderblue", [176, 224, 230]),
   ("purple", [128, 0, 128]),
   ("rebeccapurple", [102, 51, 153]),
   ("red", [255, 0, 0]),
   ("rosybrown", [188, 143, 143]),
   ("royalblue", [65, 105, 225]),
   ("saddlebrown", [139, 69, 19]),
   ("salmon", [250, 128, 114]),
   ("sandybrown", [244, 164, 96]),
   ("seagreen", [46, 139, 87]),
   ("seashell", [255, 245, 238]),
   ("sienna", [160, 82, 45]),
   ("silver", [192, 192, 192]),
   ("skyblue", [135, 206, 235]),
   ("slateblue", [106, 90, 205]),
   ("slategray", [112, 128, 144]),
   ("slategrey", [112, 128, 144]),
   ("snow", [255, 250, 250]),
   ("springgreen", [0, 255, 127]),
   ("steelblue", [70, 130, 180]),
   ("tan", [210, 180, 140]),
   ("teal", [0, 128, 128]),
   ("thistle", [216, 191, 216]),
   ("tomato", [255, 99, 71]),
   ("turquoise", [64, 224, 208]),
   ("violet", [238, 130, 238]),
   ("wheat", [245, 222, 179]),
   ("white", [255, 255, 255]),
   ("whitesmoke", [245, 245, 245]),
   ("yellow", [255, 255, 0]),
   ("yellowgreen", [154, 205, 50])]

/-- The systemColors table from src/config.ts: for every key a light and a
dark rgb triple; the ambient theme is light. -/
def systemColors : List (String × (List ℚ × List ℚ)) :=
  [("AccentColor", ([0, 120, 215], [10, 132, 255])),
   ("AccentColorText", ([255, 255, 255], [255, 255, 255])),
   ("ActiveText", ([255, 0, 0], [255, 100, 100])),
   ("ButtonBorder", ([169, 169, 169], [90, 90, 90])),
   ("ButtonFace", ([240, 240, 240], [60, 60, 60])),
   ("ButtonText", ([0, 0, 0], [255, 255, 255])),
   ("Canvas", ([255, 255, 255], [30, 30, 30])),
   ("CanvasText", ([0, 0, 0], [255, 255, 255])),
   ("Field", ([255, 255, 255], [45, 45, 45])),
   ("FieldText", ([0, 0, 0], [255, 255, 255])),
   ("GrayText", ([128, 128, 128], [169, 169, 169])),
   ("Highlight", ([0, 120, 215], [80, 80, 80])),
   ("HighlightText", ([255, 255, 255], [0, 0, 0])),
   ("LinkText", ([0, 0, 255], [0, 128, 255])),
   ("Mark", ([255, 255, 0], [255, 200, 0])),
   ("MarkText", ([0, 0, 0], [0, 0, 0])),
   ("SelectedItem", ([0, 120, 215], [100, 100, 100])),
   ("SelectedItemText", ([255, 255, 255], [255, 255, 255])),
   ("VisitedText", ([128, 0, 128], [200, 120, 255]))]

/-- Formatting options as Color.to receives them (src/Color.ts line 226).
The record is always fully supplied along the modelled paths, so the format
level defaults of the source (config.defaults.fit) never apply here. -/
structure FormatOpts where
  legacy : Bool := false
  fitMethod : String := "clip"
  precision : PrecOpt := PrecOpt.undef
  units : Bool := false
deriving DecidableEq

/-- The format closure built by modelConverterToColorConverter
(src/utils.ts lines 1382 to 1408): fit with the requested method and
precision, clamp and round the alpha to three decimals, attach percent or
degree suffixes in units or legacy mode, then emit the color(), legacy
comma, or modern space shape. -/
def formatFn (T : TransFns) (name : String) (conv : ModelConv)
    (coords : List ℚ) (o : FormatOpts) : Option String := do
  let c1 := coords.getD 0 0
  let c2 := coords.getD 1 0
  let c3 := coords.getD 2 0
  let a := coords.getD 3 1
  let clipped ← fitE T [c1, c2, c3] name o.fitMethod o.precision
  let alphaStr := jsNumToString (roundFixed (jsMin (jsMax a 0) 1) 3)
  let formatted := clipped.enum.map (fun p =>
    if o.units ∨ o.legacy then
      match conv.components.find? (fun q => q.2.index = p.1) with
      | some q =>
        if q.2.value = CompValue.percentage then jsNumToString p.2 ++ "%"
        else if q.2.value = CompValue.angle ∧ o.units then jsNumToString p.2 ++ "deg"
        else jsNumToString p.2
      | none => jsNumToString p.2
    else jsNumToString p.2)
  if name ∈ colorSpaceNames then
    some ("color(" ++ name ++ " " ++ String.intercalate " " formatted ++
      (if a ≠ 1 then " / " ++ alphaStr else "") ++ ")")
  else if o.legacy ∧ conv.supportsLegacy then
    if a = 1 then some (name ++ "(" ++ String.intercalate ", " formatted ++ ")")
    else some ((conv.alphaVariant.getD name) ++ "(" ++ String.intercalate ", " formatted ++
      ", " ++ alphaStr ++ ")")
  else
    some (name ++ "(" ++ String.intercalate " " formatted ++
      (if a ≠ 1 then " / " ++ alphaStr else "") ++ ")")

/-- Advance an index over spaces (the explicit space-skipping loops of the
tokenizer). -/
def skipSpaces (s : List Char) (i : ℕ) : ℕ :=
  i + ((s.drop i).takeWhile (fun c => c = ' ')).length

/-- Advance an index to the next space or the end of the input. -/
def takeUntilSpace (s : List Char) (i : ℕ) : ℕ :=
  i + ((s.drop i).takeWhile (fun c => c != ' ')).length

/-- The main scanning loop of the tokenizer in
modelConverterToColorConverter: commas and slashes are single tokens (eating
one following space), identifiers extend to balanced calls when a paren
follows, and signed numbers pick up a percent sign or a unit word.  Failure
is the Unexpected character error of the source. -/
def mainLoopTok (inner : List Char)  : ℕ → ℕ → Option (List String)
  | 0, _ => none
  | fuel + 1, i =>
    if i < inner.length then
      let char := inner.getD i ' '
      if char = ',' then
        let i2 := if inner.getD (i + 1) 'x' = ' ' then i + 2 else i + 1
        (mainLoopTok inner fuel i2).map (fun ts => "," :: ts)
      else if char = '/' then
        let i2 := if inner.getD (i + 1) 'x' = ' ' then i + 2 else i + 1
        (mainLoopTok inner fuel i2).map (fun ts => "/" :: ts)
      else if char = ' ' then mainLoopTok inner fuel (i + 1)
      else if isAsciiAlpha char ∨ char = '#' then
        let identLen := ((inner.drop i).takeWhile isExprChar).length
        let ident : String := ⟨(inner.drop i).take identLen⟩
        if inner.getD (i + identLen) 'x' = '(' then
          let p := extractBalanced inner i
          (mainLoopTok inner fuel p.2).map (fun ts => (⟨p.1⟩ : String) :: ts)
        else (mainLoopTok inner fuel (i + identLen)).map (fun ts => ident :: ts)
      else if isDigitCh char ∨ char = '.' ∨ char = '-' then
        let numLen := ((inner.drop i).takeWhile isNumChar).length
        let num := (inner.drop i).take numLen
        let j := i + numLen
        if inner.getD j 'x' = '%' then
          (mainLoopTok inner fuel (j + 1)).map (fun ts => (⟨num ++ ['%']⟩ : String) :: ts)
        else if isAsciiAlpha (inner.getD j 'x') then
          let unitLen := ((inner.drop j).takeWhile isAsciiAlpha).length
          let unit := (inner.drop j).take unitLen
          (mainLoopTok inner fuel (j + unitLen)).map (fun ts => (⟨num ++ unit⟩ : String) :: ts)
        else (mainLoopTok inner fuel j).map (fun ts => (⟨num⟩ : String) :: ts)
      else none
    else some []

/-- The tokenizer of modelConverterToColorConverter: function name up to the
opening paren, the inner payload without the trailing paren, the optional
from clause, the explicit space name for color(), then the main loop. -/
def tokenizeColor (str : List Char) : Option (List String) :=
  let funcName := str.takeWhile (fun c => c != '(')
  let tok0 : String := ⟨trimList funcName⟩
  let inner : List Char :=
    if funcName.length < str.length then trimList ((str.drop (funcName.length + 1)).dropLast)
    else trimList str.dropLast
  let st0 : List String × ℕ :=
    if ("from ".data).isPrefixOf inner then
      let i1 := skipSpaces inner 5
      let i2 := takeUntilSpace inner i1
      let colorStr := (inner.drop i1).take (i2 - i1)
      if colorStr.contains '(' then
        let p := extractBalanced inner i1
        (["from", ⟨p.1⟩], skipSpaces inner p.2)
      else (["from", ⟨colorStr⟩], skipSpaces inner i2)
    else ([], 0)
  let st1 : List String × ℕ :=
    if tok0 = "color" ∧ st0.2 < inner.length then
      let i2 := takeUntilSpace inner st0.2
      (st0.1 ++ [(⟨(inner.drop st0.2).take (i2 - st0.2)⟩ : String)], skipSpaces inner i2)
    else st0
  (mainLoopTok inner (inner.length + 2) st1.2).map (fun ts => tok0 :: st1.1 ++ ts)

/-- The token-position record the AST placement produces (getAST in
src/utils.ts). -/
structure ColorAST where
  fn : String
  space : Option String
  fromOrigin : Option String
  c1 : String
  c2 : String
  c3 : String
  alpha : String
  commaSeparated : Bool
deriving DecidableEq

/-- getAlpha inside getAST: a token at the separator position introduces the
alpha that follows it; a missing token means alpha 1; any other token is the
invalid separator error. -/
def getAlphaTok (tokens : List String) (index : ℕ) (sep : String) : Option (String × Bool) :=
  match tokens.get? index with
  | some tk => if tk = sep then some (tokens.getD (index + 1) "", true) else none
  | none => some ("1", false)

/-- getAST from modelConverterToColorConverter: positional dispatch between
the color() forms, the relative from forms, the legacy comma form and the
modern form, with the token-count check of the source.  The redundant
re-check of the comma separator after getAlpha always passes and is folded
away. -/
def getAST (tokens : List String) : Option ColorAST := do
  if tokens.getD 0 "" = "color" then
    if tokens.getD 1 "" = "from" then
      let p ← getAlphaTok tokens 7 "/"
      if tokens.length ≠ (if p.2 then 9 else 7) then none
      else some { fn := "color", space := some (tokens.getD 3 ""),
                  fromOrigin := some (tokens.getD 2 ""), c1 := tokens.getD 4 "",
                  c2 := tokens.getD 5 "", c3 := tokens.getD 6 "", alpha := p.1,
                  commaSeparated := false }
    else
      let p ← getAlphaTok tokens 5 "/"
      if tokens.length ≠ (if p.2 then 7 else 5) then none
      else some { fn := "color", space := some (tokens.getD 1 ""), fromOrigin := none,
                  c1 := tokens.getD 2 "", c2 := tokens.getD 3 "", c3 := tokens.getD 4 "",
                  alpha := p.1, commaSeparated := false }
  else
    if tokens.getD 1 "" = "from" then
      let p ← getAlphaTok tokens 6 "/"
      if tokens.length ≠ (if p.2 then 8 else 6) then none
      else some { fn := tokens.getD 0 "", space := none,
                  fromOrigin := some (tokens.getD 2 ""), c1 := tokens.getD 3 "",
                  c2 := tokens.getD 4 "", c3 := tokens.getD 5 "", alpha := p.1,
                  commaSeparated := false }
    else if tokens.getD 2 "" = "," ∧ tokens.getD 4 "" = "," then
      let p ← getAlphaTok tokens 6 ","
      if tokens.length ≠ (if p.2 then 8 else 6) then none
      else some { fn := tokens.getD 0 "", space := none, fromOrigin := none,
                  c1 := tokens.getD 1 "", c2 := tokens.getD 3 "", c3 := tokens.getD 5 "",
                  alpha := p.1, commaSeparated := true }
    else
      let p ← getAlphaTok tokens 4 "/"
      if tokens.length ≠ (if p.2 then 6 else 4) then none
      else some { fn := tokens.getD 0 "", space := none, fromOrigin := none,
                  c1 := tokens.getD 1 "", c2 := tokens.getD 2 "", c3 := tokens.getD 3 "",
                  alpha := p.1, commaSeparated := false }

/-- Stable insertion into a list ordered by component index (the sort in
parseAST; indices are distinct for every registered converter). -/
def insertByIndex (x : String × ComponentDef) :
    List (String × ComponentDef) → List (String × ComponentDef)
  | [] => [x]
  | y :: ys => if x.2.index < y.2.index then x :: y :: ys else y :: insertByIndex x ys

/-- Object.entries(components).sort by index. -/
def sortByIndex (l : List (String × ComponentDef)) : List (String × ComponentDef) :=
  l.foldr insertByIndex []

/-- First update recorded for a coordinate index. -/
def lookupIndexUpdate (updates : List (ℕ × ℚ)) (i : ℕ) : Option ℚ :=
  (updates.find? (fun p => p.1 = i)).map (fun p => p.2)

/-- parseAST from modelConverterToColorConverter, non-relative form: inject
the alpha component, reject comma syntax without legacy support, evaluate
each token against the component sorted by index while recording the
percent-or-number flags, and reject mixed flags in the comma form.  The
relative form (fromOrigin present) re-enters Color.from recursively on the
origin; no verified claim reaches it, and the model maps it to failure.
The source writes each evaluated value at its component index and returns
the first four slots; a hole (empty token) cannot survive the token-count
check, and the model returns failure for it. -/
def parseAST (T : TransFns) (conv : ModelConv) (ast : ColorAST) : Option (List ℚ) :=
  let comps := conv.components ++ [("alpha", alphaComponentDef)]
  if ast.commaSeparated ∧ conv.supportsLegacy ≠ true then none
  else
    match ast.fromOrigin with
    | some _ => none
    | none =>
      let sorted := sortByIndex comps
      let tokens := [ast.c1, ast.c2, ast.c3, ast.alpha]
      let step := fun (acc : Option (List Bool × List (ℕ × ℚ))) (p : ℕ × (String × ComponentDef)) =>
        match acc with
        | none => none
        | some fr =>
          let meta := p.2.2
          let token := tokens.getD p.1 ""
          if ast.commaSeparated ∧ token = "none" then none
          else
            let isRange := match meta.value with
              | CompValue.range _ _ => true
              | _ => false
            let flags2 :=
              if meta.index ≠ 3 ∧ isRange = true ∧ strStartsWith token "calc(" = false then
                fr.1 ++ [decide (token.data.getLast? = some '%')]
              else fr.1
            if token ≠ "" then
              match evaluateComponent T conv.supportsLegacy token meta.value [] ast.commaSeparated false with
              | none => none
              | some v => some (flags2, fr.2 ++ [(meta.index, v)])
            else some (flags2, fr.2)
      match sorted.enum.foldl step (some ([], [])) with
      | none => none
      | some fr =>
        if ast.commaSeparated ∧ fr.1.length > 1 ∧
            ¬ (fr.1.all (fun b => b)) ∧ ¬ (fr.1.all (fun b => ¬ b)) then none
        else
          match lookupIndexUpdate fr.2 0, lookupIndexUpdate fr.2 1,
                lookupIndexUpdate fr.2 2, lookupIndexUpdate fr.2 3 with
          | some v0, some v1, some v2, some v3 => some [v0, v1, v2, v3]
          | _, _, _, _ => none

/-- ColorConverter from src/types.ts: validity test, bridge, parse, the
bridge transports, and the optional output pair fromBridge and format. -/
structure ColorTypeConv where
  bridge : String
  isValid : String → Bool
  parse : String → Option (List ℚ)
  toBridgeC : List ℚ → List ℚ
  fromBridgeC : Option (List ℚ → List ℚ)
  format : Option (List ℚ → FormatOpts → Option String)

/-- Words of a string split on whitespace runs (String.prototype.split with
the regex \s+); an input without words yields one empty part, matching
JavaScript. -/
def splitWsAux : ℕ → List Char → List (List Char)
  | 0, _ => []
  | fuel + 1, s =>
    let w := s.takeWhile (fun c => ¬ isWsChar c)
    let r := (s.drop w.length).dropWhile isWsChar
    if r = [] then [w] else w :: splitWsAux fuel r

/-- validateRelativeColorSpace from modelConverterToColorConverter: the
color(from prefix, a balanced origin expression, and the space name as the
first following word. -/
def validateRelativeColorSpace (str : List Char) (name : String) : Bool :=
  if ¬ (("color(from ".data).isPrefixOf str) ∨ str.getLast? ≠ some ')' then false
  else
    let innerStr := trimList ((str.drop 11).dropLast)
    let p := extractBalanced innerStr 0
    if p.1 = [] then false
    else
      let rest := trimList (innerStr.drop p.2)
      (splitWsAux (rest.length + 1) rest).headD [] = name.data

/-- modelConverterToColorConverter from src/utils.ts: the installed
ColorConverter of a model or color space.  Validity is the prefix test of
the source (color(name for spaces, name( or alphaVariant( otherwise, with a
closing paren); parse is tokenize, AST placement and component evaluation;
the bridge transports carry the alpha through as coords[3] ?? 1. -/
def modelConverterToColorConverter (T : TransFns) (name : String) (conv : ModelConv) :
    ColorTypeConv :=
  { bridge := conv.bridge
    isValid := fun str =>
      if name ∈ colorSpaceNames then
        (strStartsWith str ("color(" ++ name ++ " ") ∨
          (strStartsWith str "color(from" ∧ validateRelativeColorSpace str.data name)) ∧
        str.data.getLast? = some ')'
      else
        (strStartsWith str (name ++ "(") ∨
          strStartsWith str ((conv.alphaVariant.getD name) ++ "(")) ∧
        str.data.getLast? = some ')'
    parse := fun str => do
      let tokens ← tokenizeColor str.data
      let ast ← getAST tokens
      let components ← parseAST T conv ast
      some (components.take 3 ++ [components.getD 3 1])
    toBridgeC := fun coords => conv.toBridge (coords.take 3) ++ [coords.getD 3 1]
    fromBridgeC := some (fun coords => conv.fromBridge coords ++ [coords.getD 3 1])
    format := some (fun coords o => formatFn T name conv coords o) }

/-- Hex digit test of the hex-color parser (0-9, a-f, A-F by character
codes, as in the source). -/
def isHexDigit (c : Char) : Bool :=
  isDigitCh c ∨ ('a' ≤ c ∧ c ≤ 'f') ∨ ('A' ≤ c ∧ c ≤ 'F')

/-- Value of one hex digit. -/
def hexVal (c : Char) : ℕ :=
  if isDigitCh c then c.toNat - 48
  else if 'a' ≤ c ∧ c ≤ 'f' then c.toNat - 87
  else c.toNat - 55

/-- colorBases["hex-color"].isValid: only the leading # is checked. -/
def hexIsValid (str : String) : Bool := str.data.headD ' ' = '#'

/-- colorBases["hex-color"].parse: 3, 4, 6 or 8 hex digits after the #;
short forms double each digit; the missing alpha slice parses as ff. -/
def hexParse (str : String) : Option (List ℚ) :=
  let hexB := str.data.drop 1
  if ¬ (hexB.length = 3 ∨ hexB.length = 4 ∨ hexB.length = 6 ∨ hexB.length = 8) then none
  else if ¬ hexB.all isHexDigit then none
  else if hexB.length ≤ 4 then
    let vals := hexB.map (fun c => (hexVal c * 16 + hexVal c : ℚ))
    some [vals.getD 0 0, vals.getD 1 0, vals.getD 2 0, vals.getD 3 255 / 255]
  else
    let pair := fun i => (hexVal (hexB.getD i '0') * 16 + hexVal (hexB.getD (i + 1) '0') : ℚ)
    let a : ℚ := if hexB.length = 8 then pair 6 else 255
    some [pair 0, pair 2, pair 4, a / 255]

/-- Two lowercase hex digits of a byte (toString(16) with padStart(2, 0)). -/
def toHexByte (n : ℕ) : List Char :=
  let d := fun m => if m < 10 then Char.ofNat (48 + m) else Char.ofNat (87 + m)
  [d (n / 16 % 16), d (n % 16)]

/-- colorBases["hex-color"].format: round and clamp each channel, append a
two-digit alpha only below 1, upper-case the result. -/
def hexFormat (coords : List ℚ) (_o : FormatOpts) : Option String :=
  let chan := fun (v : ℚ) => toHexByte (jsRound (jsMax 0 (jsMin 255 v))).toNat
  let a := coords.getD 3 1
  let hex := chan (coords.getD 0 0) ++ chan (coords.getD 1 0) ++ chan (coords.getD 2 0)
  let alphaPart := if a < 1 then toHexByte (jsRound (a * 255)).toNat else []
  some ⟨('#' :: hex ++ alphaPart).map upperChar⟩

/-- The hex-color entry of colorBases (src/converters.ts). -/
def hexEntry : ColorTypeConv :=
  { bridge := "rgb", isValid := hexIsValid, parse := hexParse,
    toBridgeC := fun c => c, fromBridgeC := some (fun c => c), format := some hexFormat }

/-- The named-color entry of colorBases: validity and parse by table lookup,
format by exact integer match after rounding and clamping (no match formats
to nothing, the undefined of the source). -/
def namedColorEntry : ColorTypeConv :=
  { bridge := "rgb"
    isValid := fun str => namedColors.any (fun p => p.1 = str)
    parse := fun str => (lookupAssoc namedColors str).map (fun rgb => rgb ++ [1])
    toBridgeC := fun c => c
    fromBridgeC := some (fun c => c)
    format := some (fun coords _ =>
      let r := (jsRound (jsMin 255 (jsMax 0 (coords.getD 0 0))) : ℚ)
      let g := (jsRound (jsMin 255 (jsMax 0 (coords.getD 1 0))) : ℚ)
      let b := (jsRound (jsMin 255 (jsMax 0 (coords.getD 2 0))) : ℚ)
      (namedColors.find? (fun p =>
        p.2.getD 0 0 = r ∧ p.2.getD 1 0 = g ∧ p.2.getD 2 0 = b)).map (fun p => p.1)) }

/-- The color-mix entry: validity is the prefix test; parse re-enters
Color.from recursively on both operands and delegates to mix, which no
verified claim exercises, so the model maps it to failure. -/
def colorMixEntry : ColorTypeConv :=
  { bridge := "rgb"
    isValid := fun str => strStartsWith str "color-mix(" ∧ str.data.getLast? = some ')'
    parse := fun _ => none
    toBridgeC := fun c => c, fromBridgeC := none, format := none }

/-- The transparent entry of colorBases. -/
def transparentEntry : ColorTypeConv :=
  { bridge := "rgb", isValid := fun str => str = "transparent",
    parse := fun _ => some [0, 0, 0, 0],
    toBridgeC := fun c => c, fromBridgeC := none, format := none }

/-- The currentColor entry of colorTypes (the registry key keeps the mixed
case of the source object literal). -/
def currentColorEntry : ColorTypeConv :=
  { bridge := "rgb", isValid := fun str => str = "currentcolor",
    parse := fun _ => some [0, 0, 0, 1],
    toBridgeC := fun c => c, fromBridgeC := none, format := none }

/-- The system-color entry: validity matches any configured key lower-cased;
parse picks the light entry (the ambient theme of src/config.ts). -/
def systemColorEntry : ColorTypeConv :=
  { bridge := "rgb"
    isValid := fun str => systemColors.any (fun p => jsToLower p.1 = str)
    parse := fun str =>
      ((systemColors.find? (fun p => jsToLower p.1 = str)).map (fun p => p.2.1 ++ [1]))
    toBridgeC := fun c => c, fromBridgeC := none, format := none }

/-- The contrast-color entry: parse re-enters Color.from recursively; no
verified claim reaches it and the model maps it to failure. -/
def contrastColorEntry : ColorTypeConv :=
  { bridge := "rgb"
    isValid := fun str => strStartsWith str "contrast-color(" ∧ str.data.getLast? = some ')'
    parse := fun _ => none, toBridgeC := fun c => c, fromBridgeC := none, format := none }

/-- The device-cmyk entry: parse has its own tokenizer and may recurse into
Color.from for the fallback; no verified claim reaches it and the model maps
parse to failure (the format closure is likewise unused). -/
def deviceCmykEntry : ColorTypeConv :=
  { bridge := "rgb"
    isValid := fun str => strStartsWith str "device-cmyk(" ∧ str.data.getLast? = some ')'
    parse := fun _ => none, toBridgeC := fun c => c, fromBridgeC := none, format := none }

/-- The light-dark entry: parse re-enters Color.from recursively; no
verified claim reaches it and the model maps it to failure. -/
def lightDarkEntry : ColorTypeConv :=
  { bridge := "rgb"
    isValid := fun str => strStartsWith str "light-dark(" ∧ str.data.getLast? = some ')'
    parse := fun _ => none, toBridgeC := fun c => c, fromBridgeC := none, format := none }

/-- colorTypes from src/converters.ts in object insertion order: hex-color,
the color functions of every model (colorBases spreads colorFunctions), then
named-color, color-mix, transparent, currentColor, system-color,
contrast-color, device-cmyk and light-dark. -/
def colorTypesList (T : TransFns) : List (String × ColorTypeConv) :=
  ("hex-color", hexEntry) ::
    ((colorModels T).map (fun p => (p.1, modelConverterToColorConverter T p.1 p.2))) ++
    [("named-color", namedColorEntry), ("color-mix", colorMixEntry),
     ("transparent", transparentEntry), ("currentColor", currentColorEntry),
     ("system-color", systemColorEntry), ("contrast-color", contrastColorEntry),
     ("device-cmyk", deviceCmykEntry), ("light-dark", lightDarkEntry)]

/-- The registered model names in registry order. -/
def modelNames (T : TransFns) : List String := (colorModels T).map (fun p => p.1)

/-- Color.from (src/Color.ts): clean the input, take the first color type
whose isValid accepts, parse, and wrap either directly (when the type is a
model) or through the bridge.  none is the unsupported-format error or any
parse error, both of which the source throws. -/
def fromE (T : TransFns) (color : String) : Option Color :=
  match (colorTypesList T).find? (fun p => p.2.isValid (clean color)) with
  | none => none
  | some p => do
    let parsed ← p.2.parse (clean color)
    if p.1 ∈ modelNames T then mkColorE T p.1 parsed
    else mkColorE T p.2.bridge (p.2.toBridgeC parsed)

/-- Color.type without strict (src/Color.ts): the first type whose isValid
accepts the cleaned string, or undefined. -/
def typeNonStrict (T : TransFns) (color : String) : Option String :=
  ((colorTypesList T).find? (fun p => p.2.isValid (clean color))).map (fun p => p.1)

/-- Color.to (src/Color.ts): lower-case the type name, require a converter
with fromBridge and format, then format directly on the same model, through
in() for another model, or through the bridge and fromBridge for a plain
color type. -/
def toE (T : TransFns) (c : Color) (ty : String) (o : FormatOpts) : Option String :=
  let cleanedType := jsToLower ty
  match lookupAssoc (colorTypesList T) cleanedType with
  | none => none
  | some conv =>
    match conv.fromBridgeC, conv.format with
    | some fromB, some fmt =>
      if cleanedType = c.model then fmt c.coords o
      else if cleanedType ∈ modelNames T then do
        let c2 ← inModel T c cleanedType
        let coords ← toArrayE T c2 {}
        fmt coords o
      else do
        let c2 ← inModel T c conv.bridge
        let coords ← toArrayE T c2 {}
        fmt (fromB coords) o
    | _, _ => none


/-- Whitespace runs replaced by one hyphen: name.replace with the regex of
the registration entry points. -/
def wsToHyphenAux : ℕ → List Char → List Char
  | 0, s => s
  | _ + 1, [] => []
  | fuel + 1, c :: rest =>
    if isWsChar c then '-' :: wsToHyphenAux fuel (rest.dropWhile isWsChar)
    else c :: wsToHyphenAux fuel rest

/-- Name normalization of registerColorType, registerColorBase and
registerColorSpace: whitespace runs to hyphens, then lower-case. -/
def normTypeName (s : String) : String :=
  ⟨(wsToHyphenAux (s.data.length + 1) s.data).map lowerChar⟩

/-- Name normalization of registerColorFunction: whitespace stripped
entirely, then lower-case. -/
def normFnName (s : String) : String :=
  ⟨(s.data.filter (fun c => ¬ isWsChar c)).map lowerChar⟩

/-- Name normalization of registerNamedColor: non-letters stripped, then
lower-case. -/
def normNamedName (s : String) : String :=
  ⟨(s.data.filter isAsciiAlpha).map lowerChar⟩

/-- Name normalization of registerFitMethod: trim, whitespace runs to
hyphens, lower-case. -/
def normFitName (s : String) : String :=
  ⟨(wsToHyphenAux ((trimList s.data).length + 1) (trimList s.data)).map lowerChar⟩

/-- The process-wide registry tables of src/converters.ts together with the
derived cache of src/utils.ts, reduced to what the registration entry points
read and write: key lists in insertion order for the converter tables (the
converter payloads are irrelevant to the cache behavior), the named-color
table with its rgb values, the fit-method keys, and the key set of the
cache Map. -/
structure RegState where
  types : List String
  bases : List String
  functions : List String
  models : List String
  spaces : List String
  named : List (String × List ℚ)
  fits : List String
  cacheKeys : List String
deriving DecidableEq

/-- cache.delete("graph") followed by cache.delete("paths"); on a
duplicate-free key set Map deletion is filtering. -/
def cacheInvalidate (s : List String) : List String :=
  (s.filter (fun k => k ≠ "graph")).filter (fun k => k ≠ "paths")

/-- The validation-relevant shape of a ColorConverter argument to
registerColorType and registerColorBase: the typeof checks on isValid,
toBridge and parse hold by typing; what remains observable is the bridge
name and the presence of the optional fromBridge and format pair. -/
structure ColorConvArg where
  bridge : String
  hasFromBridge : Bool
  hasFormat : Bool

/-- registerColorType (src/utils.ts): normalized name must be fresh in the
types table, fromBridge and format must be present or absent together, the
bridge must be a registered model; on success the name is installed and the
graph and paths cache entries are deleted. -/
def registerColorType (s : RegState) (name : String) (conv : ColorConvArg) : Option RegState :=
  if s.types.contains (normTypeName name) then none
  else if conv.hasFromBridge ≠ conv.hasFormat then none
  else if ¬ s.models.contains conv.bridge then none
  else some { s with types := s.types ++ [normTypeName name],
                     cacheKeys := cacheInvalidate s.cacheKeys }

/-- registerColorBase (src/utils.ts): as registerColorType, additionally
installing into the bases table. -/
def registerColorBase (s : RegState) (name : String) (conv : ColorConvArg) : Option RegState :=
  if s.types.contains (normTypeName name) then none
  else if conv.hasFromBridge ≠ conv.hasFormat then none
  else if ¬ s.models.contains conv.bridge then none
  else some { s with bases := s.bases ++ [normTypeName name],
                     types := s.types ++ [normTypeName name],
                     cacheKeys := cacheInvalidate s.cacheKeys }

/-- Keep the first occurrence of every key, as assignment into a JavaScript
object does for the normalized component map. -/
def dedupAux : List String → List String → List String
  | [], _ => []
  | x :: xs, seen =>
    if seen.contains x then dedupAux xs seen else x :: dedupAux xs (x :: seen)

/-- The validation-relevant shape of a ColorModelConverter argument to
registerColorFunction: component key names and the bridge (the remaining
typeof checks hold by typing). -/
structure ModelConvArg where
  componentNames : List String
  bridge : String

/-- registerColorFunction (src/utils.ts): lower-case the component keys into
an object (collapsing duplicates), require a fresh name and a registered
bridge, forbid a component named none, then install into the models,
functions and types tables and delete the cached graph and paths.  The
explicit uniqueness check of the source runs on the already-deduplicated
keys and always passes. -/
def registerColorFunction (s : RegState) (name : String) (conv : ModelConvArg) : Option RegState :=
  if s.types.contains (normFnName name) then none
  else if ¬ s.models.contains conv.bridge then none
  else if (dedupAux (dedupAux (conv.componentNames.map jsToLower) []) []).length ≠
      (dedupAux (conv.componentNames.map jsToLower) []).length then none
  else if (dedupAux (conv.componentNames.map jsToLower) []).contains "none" then none
  else some { s with models := s.models ++ [normFnName name],
                     functions := s.functions ++ [normFnName name],
                     types := s.types ++ [normFnName name],
                     cacheKeys := cacheInvalidate s.cacheKeys }

/-- The validation-relevant shape of a ColorSpaceConverter argument to
registerColorSpace; the source checks the matrices only for being 2D number
arrays, which holds by typing here. -/
structure SpaceConvArg where
  componentNames : List String
  bridge : String

/-- registerColorSpace (src/utils.ts): fresh name, registered bridge, then
install into the spaces, models, functions and types tables and delete the
cached graph and paths. -/
def registerColorSpace (s : RegState) (name : String) (conv : SpaceConvArg) : Option RegState :=
  if s.types.contains (normTypeName name) then none
  else if ¬ s.models.contains conv.bridge then none
  else some { s with spaces := s.spaces ++ [normTypeName name],
                     models := s.models ++ [normTypeName name],
                     functions := s.functions ++ [normTypeName name],
                     types := s.types ++ [normTypeName name],
                     cacheKeys := cacheInvalidate s.cacheKeys }

/-- registerNamedColor (src/utils.ts): the rgb array must have length three,
the stripped lower-cased name must be fresh, and no existing entry may carry
the same channel values; on success the pair is stored.  The function does
NOT touch the cache. -/
def registerNamedColor (s : RegState) (name : String) (rgb : List ℚ) : Option RegState :=
  if rgb.length ≠ 3 then none
  else if (s.named.find? (fun p => p.1 = normNamedName name)).isSome then none
  else if (s.named.find? (fun p => p.2.enum.all (fun q => q.2 = rgb.getD q.1 0))).isSome then none
  else some { s with named := s.named ++ [(normNamedName name, rgb)] }

/-- registerFitMethod (src/utils.ts): fresh normalized name (the callable
check holds by typing); on success the name is stored.  The function does
NOT touch the cache. -/
def registerFitMethod (s : RegState) (name : String) : Option RegState :=
  if s.fits.contains (normFitName name) then none
  else some { s with fits := s.fits ++ [normFitName name] }

/-- unregister (src/utils.ts): delete every given name from the types,
bases, functions, models and spaces tables, then delete the cached graph and
paths entries.  The names are used verbatim, without normalization. -/
def unregisterStep (st : RegState) (t : String) : RegState :=
  { st with types := st.types.filter (fun k => k ≠ t),
            bases := st.bases.filter (fun k => k ≠ t),
            functions := st.functions.filter (fun k => k ≠ t),
            models := st.models.filter (fun k => k ≠ t),
            spaces := st.spaces.filter (fun k => k ≠ t) }

/-- unregister (src/utils.ts): delete every given name from the types,
bases, functions, models and spaces tables, then delete the cached graph and
paths entries.  The names are used verbatim, without normalization. -/
def unregister (s : RegState) (names : List String) : RegState :=
  { names.foldl unregisterStep s with
    cacheKeys := cacheInvalidate (names.foldl unregisterStep s).cacheKeys }

/-- Membership of a value in the declared range of a ComponentDefinition
(angle implies 0..360, percentage implies 0..100, as in the specification
data model). -/
def inComponentRange : CompValue → ℚ → Bool
  | CompValue.range lo hi, v => lo ≤ v ∧ v ≤ hi
  | CompValue.angle, v => 0 ≤ v ∧ v ≤ 360
  | CompValue.percentage, v => 0 ≤ v ∧ v ≤ 100

/-- A well-formed hex body: 3, 4, 6 or 8 hex digits (the condition hexParse
checks after the leading #). -/
def validHexBody (body : List Char) : Bool :=
  (body.length = 3 ∨ body.length = 4 ∨ body.length = 6 ∨ body.length = 8) ∧
    body.all isHexDigit

/-- A small concrete registry state used by the cache-invalidation
statements: one registered model, one named color, and a populated derived
cache. -/
def regStateDemo : RegState :=
  { types := ["rgb"], bases := [], functions := [], models := ["rgb"], spaces := [],
    named := [("red", [255, 0, 0])], fits := [], cacheKeys := ["graph", "paths"] }

/-- A TransFns whose cbrt is exact at the one cube the lab instance below
evaluates (f = 1); every other transcendental stays stubbed. -/
def labWitnessT : TransFns :=
  { stubT with cbrt := fun q => if q = 1 then 1 else 0 }

/-- A TransFns whose cosine is the exact value at 0 degrees and whose square
root is exact at the one square the lch and oklch instances below evaluate;
sine and atan2 keep the stub value 0, which is exact at 0 degrees. -/
def trigWitnessT : TransFns :=
  { stubT with cosDeg := fun _ => 1, sqrtf := fun q => if q = 4 then 2 else 0 }

/-! Helper lemmas shared by the claim theorems. -/

theorem jsMin_eq_left {a b : ℚ} (hab : a ≤ b) : jsMin a b = a := if_pos hab

theorem jsMin_eq_right {a b : ℚ} (hba : b ≤ a) : jsMin a b = b := by
  unfold jsMin
  split_ifs with hh
  · exact le_antisymm hh hba
  · rfl

theorem jsMax_eq_left {a b : ℚ} (hba : b ≤ a) : jsMax a b = a := if_pos hba

theorem jsMax_eq_right {a b : ℚ} (hab : a ≤ b) : jsMax a b = b := by
  unfold jsMax
  split_ifs with hh
  · exact le_antisymm hab hh
  · rfl

theorem jsMin_comm (a b : ℚ) : jsMin a b = jsMin b a := by
  rcases le_total a b with h | h
  · rw [jsMin_eq_left h, jsMin_eq_right h]
  · rw [jsMin_eq_right h, jsMin_eq_left h]

theorem jsMax_comm (a b : ℚ) : jsMax a b = jsMax b a := by
  rcases le_total a b with h | h
  · rw [jsMax_eq_right h, jsMax_eq_left h]
  · rw [jsMax_eq_left h, jsMax_eq_right h]

theorem jsTrunc_of_nonneg {q : ℚ} (h : 0 ≤ q) : jsTrunc q = ⌊q⌋ := if_pos h

theorem jsRem_small {a b : ℚ} (hb : 0 < b) (h0 : 0 ≤ a) (h1 : a < b) : jsRem a b = a := by
  unfold jsRem
  rw [jsTrunc_of_nonneg (div_nonneg h0 hb.le)]
  have hz : ⌊a / b⌋ = 0 :=
    Int.floor_eq_zero_iff.mpr ⟨div_nonneg h0 hb.le, (div_lt_one hb).mpr h1⟩
  rw [hz]
  push_cast
  ring

theorem jsRem_once {a b : ℚ} (hb : 0 < b) (h0 : b ≤ a) (h1 : a < 2 * b) : jsRem a b = a - b := by
  unfold jsRem
  rw [jsTrunc_of_nonneg (div_nonneg (hb.le.trans h0) hb.le)]
  have hz : ⌊a / b⌋ = 1 := by
    rw [Int.floor_eq_iff]
    constructor
    · push_cast
      exact (one_le_div hb).mpr h0
    · push_cast
      rw [div_lt_iff₀ hb]
      linarith
  rw [hz]
  push_cast
  ring

theorem coordsWithin_refl (l : List ℚ) {eps : ℚ} (heps : 0 ≤ eps) :
    coordsWithin l l eps = true := by
  unfold coordsWithin
  simp only [List.all_eq_true, List.mem_range, decide_eq_true_eq]
  intro i _
  simpa [jsAbs] using heps

theorem take3_getD : ∀ l : List ℚ, l.length = 4 → l.take 3 ++ [l.getD 3 0] = l := by
  intro l h
  rcases l with _ | ⟨a, _ | ⟨b, _ | ⟨c, _ | ⟨d, tl⟩⟩⟩⟩ <;> simp_all

theorem getD3_default : ∀ l : List ℚ, l.length = 4 → l.getD 3 1 = l.getD 3 0 := by
  intro l h
  rcases l with _ | ⟨a, _ | ⟨b, _ | ⟨c, _ | ⟨d, tl⟩⟩⟩⟩ <;> simp_all

theorem mkColorE_model {T : TransFns} {m : String} {coords : List ℚ} {col : Color}
    (h : mkColorE T m coords = some col) : col.model = m := by
  unfold mkColorE at h
  split_ifs at h <;> simp_all <;> exact h ▸ rfl

theorem mkColorE_length {T : TransFns} {m : String} {coords : List ℚ} {col : Color}
    (h : mkColorE T m coords = some col) : col.coords.length = 4 := by
  unfold mkColorE at h
  split_ifs at h with h1 h2 h3 <;> simp_all <;> rw [← h] <;> simp <;> omega

theorem mkColorE_of_four {T : TransFns} {m : String} {coords : List ℚ}
    (h1 : (lookupModel T m).isSome) (h2 : coords.length = 4) :
    mkColorE T m coords = some ⟨m, coords⟩ := by
  unfold mkColorE
  rw [if_neg (by simp [Option.isNone_iff_eq_none]; intro hc; simp [hc] at h1),
      if_neg (by omega)]
  simp [show coords.length ≠ 3 by omega]

theorem lookupAssoc_mem {α : Type} {l : List (String × α)} {k : String} {v : α}
    (h : lookupAssoc l k = some v) : k ∈ l.map Prod.fst := by
  unfold lookupAssoc at h
  cases hf : l.find? (fun e => e.1 = k) with
  | none => simp [hf] at h
  | some e =>
    have hm := List.mem_of_find?_eq_some hf
    have hp := List.find?_some hf
    simp only [decide_eq_true_eq] at hp
    exact hp ▸ List.mem_map.mpr ⟨e, hm, rfl⟩

theorem modelNames_eq (T : TransFns) :
    modelNames T = ["rgb", "hsl", "hwb", "lab", "lch", "oklab", "oklch", "srgb",
      "srgb-linear", "display-p3", "rec2020", "a98-rgb", "prophoto-rgb", "xyz-d65",
      "xyz-d50", "xyz"] := rfl

theorem normModelName_fixed {n : String}
    (h : n ∈ ["rgb", "hsl", "hwb", "lab", "lch", "oklab", "oklch", "srgb",
      "srgb-linear", "display-p3", "rec2020", "a98-rgb", "prophoto-rgb", "xyz-d65",
      "xyz-d50", "xyz"]) : normModelName n = n := by
  fin_cases h <;> with_unfolding_all decide

theorem mulMatVec_length (m : List (List ℚ)) (v : List ℚ) :
    (mulMatVec m v).length = m.length := by
  simp [mulMatVec]

theorem getD_append3 (l : List ℚ) (x : ℚ) (h : l.length = 3) :
    (l ++ [x]).getD 3 0 = x := by
  rcases l with _ | ⟨a, _ | ⟨b, _ | ⟨c, tl⟩⟩⟩ <;> simp_all

theorem mkColorE_coords_of_four {T : TransFns} {m : String} {coords : List ℚ} {col : Color}
    (hlen : coords.length = 4) (h : mkColorE T m coords = some col) :
    col.coords = coords := by
  unfold mkColorE at h
  split_ifs at h with h1 h2 h3
  · omega
  · rw [← Option.some.inj h]

theorem lookupModel_mem {T : TransFns} {a : String} {conv : ModelConv}
    (h : lookupModel T a = some conv) : (a, conv) ∈ colorModels T := by
  unfold lookupModel lookupAssoc at h
  cases hf : (colorModels T).find? (fun e => e.1 = a) with
  | none => rw [hf] at h; simp at h
  | some e =>
    rw [hf] at h
    have hm := List.mem_of_find?_eq_some hf
    have hp := List.find?_some hf
    simp only [decide_eq_true_eq] at hp
    obtain ⟨e1, e2⟩ := e
    simp at h
    subst hp
    subst h
    exact hm

theorem conv_lengths (T : TransFns) :
    ∀ p ∈ colorModels T, (∀ v, (p.2.toBridge v).length = 3) ∧
      (∀ v, (p.2.fromBridge v).length = 3) := by
  intro p hp
  simp only [colorModels, colorSpacesList, List.mem_append, List.mem_cons,
    List.not_mem_nil, or_false] at hp
  rcases hp with ⟨rfl | rfl | rfl | rfl | rfl | rfl | rfl⟩ |
    (rfl | rfl | rfl | rfl | rfl | rfl | rfl | rfl | rfl) <;>
    refine ⟨fun v => ?_, fun v => ?_⟩ <;>
    first
      | rfl
      | (simp only [HWB_to_RGB]
         split <;> simp [HSL_to_RGB])

theorem execPath_length {T : TransFns} :
    ∀ (path : List String) (v w : List ℚ), execPath T path v = some w →
      w = v ∨ w.length = 3 := by
  intro path
  induction path with
  | nil =>
    intro v w h
    rw [show execPath T [] v = some v from rfl] at h
    exact Or.inl (Option.some.inj h).symm
  | cons a rest ih =>
    intro v w h
    cases rest with
    | nil =>
      rw [show execPath T [a] v = some v from rfl] at h
      exact Or.inl (Option.some.inj h).symm
    | cons b rest2 =>
      rw [show execPath T (a :: b :: rest2) v =
        (match lookupModel T a with
        | none => none
        | some conv =>
          if conv.bridge = b then execPath T (b :: rest2) (conv.toBridge v)
          else match lookupModel T b with
            | none => none
            | some toConv =>
              if toConv.bridge = a then execPath T (b :: rest2) (toConv.fromBridge v)
              else none) from rfl] at h
      cases hla : lookupModel T a with
      | none => rw [hla] at h; simp at h
      | some conv =>
        rw [hla] at h
        simp only [] at h
        by_cases hbr : conv.bridge = b
        · rw [if_pos hbr] at h
          rcases ih (conv.toBridge v) w h with rfl | h3
          · exact Or.inr ((conv_lengths T _ (lookupModel_mem hla)).1 v)
          · exact Or.inr h3
        · rw [if_neg hbr] at h
          cases hlb : lookupModel T b with
          | none => rw [hlb] at h; simp at h
          | some toConv =>
            rw [hlb] at h
            simp only [] at h
            by_cases hbr2 : toConv.bridge = a
            · rw [if_pos hbr2] at h
              rcases ih (toConv.fromBridge v) w h with rfl | h3
              · exact Or.inr ((conv_lengths T _ (lookupModel_mem hlb)).2 v)
              · exact Or.inr h3
            · rw [if_neg hbr2] at h; simp at h

theorem inModel_props {T : TransFns} {c : Color} {m : String} {c2 : Color}
    (hc : c.coords.length = 4) (h : inModel T c m = some c2) :
    c2.model = normModelName m ∧ c2.coords.length = 4 ∧
      c2.coords.getD 3 0 = c.coords.getD 3 0 := by
  unfold inModel at h
  split_ifs at h with hid
  · have htk : (c.coords.take 3).length = 3 := by simp [hc]
    have hin : (c.coords.take 3 ++ [c.coords.getD 3 1]).length = 4 := by simp [htk]
    have hco := mkColorE_coords_of_four hin h
    refine ⟨mkColorE_model h, mkColorE_length h, ?_⟩
    rw [hco, getD3_default c.coords hc, getD_append3 _ _ htk]
  · cases hfp : findPath (buildGraph T) c.model (normModelName m) with
    | none => rw [hfp] at h; simp at h
    | some path =>
      rw [hfp] at h
      simp only [Option.some_bind] at h
      cases hev : execPath T path c.coords with
      | none => rw [hev] at h; simp at h
      | some value =>
        rw [hev] at h
        simp only [Option.some_bind] at h
        have htk : (value.take 3).length = 3 := by
          rcases execPath_length path c.coords value hev with rfl | h3
          · simp [hc]
          · simp [h3]
        have hin : (value.take 3 ++ [c.coords.getD 3 1]).length = 4 := by simp [htk]
        have hco := mkColorE_coords_of_four hin h
        refine ⟨mkColorE_model h, mkColorE_length h, ?_⟩
        rw [hco, getD3_default c.coords hc, getD_append3 _ _ htk]

theorem inModel_identity {T : TransFns} {c : Color} {m : String}
    (h : normModelName m = c.model) (hmem : (lookupModel T c.model).isSome)
    (hc : c.coords.length = 4) : inModel T c m = some c := by
  unfold inModel
  rw [if_pos h, h, getD3_default c.coords hc, take3_getD c.coords hc,
    mkColorE_of_four hmem hc]

theorem enum_map_snd (l : List ℚ) : l.enum.map (fun p => p.2) = l := by
  simp [List.enum_map_snd l]

theorem jsMin_pos {a b : ℚ} (ha : 0 < a) (hb : 0 < b) : 0 < jsMin a b := by
  unfold jsMin
  split <;> assumption

theorem toArrayE_id {T : TransFns} {c : Color}
    (hm : (lookupModel T c.model).isSome) (hc : c.coords.length = 4) :
    toArrayE T c {} = some c.coords := by
  obtain ⟨conv, hconv⟩ := Option.isSome_iff_exists.mp hm
  unfold toArrayE fitE
  rw [hconv]
  simp [enum_map_snd, List.take_take]
  simpa using take3_getD c.coords hc

/-- C7: parsing the literal string #ff5733 with Color.from and formatting the
result with to("rgb") under default options yields exactly "rgb(255 87 51)".
The path is rational throughout, so the transcendental stub is never
consulted. -/
theorem from_hex_to_rgb_string :
    (fromE stubT "#ff5733").bind (fun c => toE stubT c "rgb" {}) =
      some "rgb(255 87 51)" := by
  with_unfolding_all decide

/-- C8: clean rewrites calc(NaN) to 0 (after collapsing whitespace) so the
literal string hsl(none calc(NaN) 50%) parses with the none token as 0 and
formats back as hsl(0 0 50). -/
theorem from_hsl_none_calc_nan :
    clean "hsl(none calc(NaN) 50%)" = "hsl(none 0 50%)" ∧
    (fromE stubT "hsl(none calc(NaN) 50%)").bind (fun c => toE stubT c "hsl" {}) =
      some "hsl(0 0 50)" := by
  with_unfolding_all decide

/-- C1: Color.equals inverts the branch the specification (and its own doc
comment) describe.  Two colors with the SAME raw coordinates in DIFFERENT
models (xyz-d65 versus xyz-d50) are reported equal by the implemented
comparison, which compares the raw coordinate arrays when the models differ,
while the comparison the specification sentence describes converts both to
xyz-d65 first and reports them different. -/
theorem equals_branch_inversion :
    equalsE stubT ⟨"xyz-d65", [1/2, 1/2, 1/2, 1]⟩ ⟨"xyz-d50", [1/2, 1/2, 1/2, 1]⟩
        defaultEpsilon = some true ∧
    equalsPerSpec stubT ⟨"xyz-d65", [1/2, 1/2, 1/2, 1]⟩ ⟨"xyz-d50", [1/2, 1/2, 1/2, 1]⟩
        defaultEpsilon = some false := by
  with_unfolding_all decide

/-- C2: the premultiplied branch of Color.mix weights the receiver by
gammaCorrectedT and the other color by (1 - gammaCorrectedT), the reverse of
the formula of the claim (and of what the opaque branch and the amount-0/1
endpoints do).  With receiver xyz-d65 [1,0,0] alpha 1/2, other [0,0,0] alpha
1 and amount 9/10 (t' = 9/10, the stub computes pow(9/10, 1) exactly), the
code produces x = 9/11 and alpha 11/20, where the claim formula gives
x = 1/19 and alpha 19/20. -/
theorem mix_premultiplied_weights_swapped :
    stubT.powf (9/10) 1 = 9/10 ∧
    mixE stubT ⟨"xyz-d65", [1, 0, 0, 1/2]⟩ ⟨"xyz-d65", [0, 0, 0, 1]⟩
        { amount := 9/10 } = some ⟨"xyz-d65", [9/11, 0, 0, 11/20]⟩ := by
  with_unfolding_all decide

/-- Counterexample to C3 as stated: mixing black rgb with white hsl at amount
1 yields rgb [255,255,255,1], but equals against the hsl operand returns
false, because equals compares raw coordinate arrays when the models
differ. -/
theorem mix_amount_one_equals_counterexample :
    (mixE stubT ⟨"rgb", [0, 0, 0, 1]⟩ ⟨"hsl", [0, 0, 100, 1]⟩ { amount := 1 }).bind
        (fun r => equalsE stubT r ⟨"hsl", [0, 0, 100, 1]⟩ defaultEpsilon) =
      some false := by
  with_unfolding_all decide

/-- Counterexample to C4 as stated: h = 360 is within the declared angle
range of hsl, yet the rgb round trip returns hue 0, off by 360, far beyond
the 1e-5 tolerance. -/
theorem hsl_roundtrip_counterexample :
    inComponentRange CompValue.angle 360 = true ∧
    RGB_to_HSL (HSL_to_RGB [360, 100, 50]) = [(0 : ℚ), 100, 50] := by
  with_unfolding_all decide

/-- Counterexample to C5 as stated: registerNamedColor and registerFitMethod
succeed on a state whose cache holds graph and paths entries and leave both
entries in place. -/
theorem register_named_color_keeps_cache :
    (registerNamedColor regStateDemo "blue" [0, 0, 255]).map RegState.cacheKeys =
        some ["graph", "paths"] ∧
    (registerFitMethod regStateDemo "mymethod").map RegState.cacheKeys =
        some ["graph", "paths"] := by
  with_unfolding_all decide

/-- Counterexample to C10 as stated: the raw string "#abcd " (trailing space)
begins with # and its raw remainder is not 3, 4, 6 or 8 hex digits, yet
Color.from succeeds, because the parser runs on the cleaned (trimmed)
string. -/
theorem hex_from_trailing_space_counterexample :
    validHexBody (("#abcd ").data.drop 1) = false ∧
    fromE stubT "#abcd " = some ⟨"rgb", [170, 187, 204, 221/255]⟩ := by
  with_unfolding_all decide

/-- C9: the WCAG contrast ratio is symmetric: both orders convert both colors
to xyz-d65, and the ratio is built from the maximum and minimum of the two Y
channels, which are order-insensitive. -/
theorem contrast_symmetric (T : TransFns) (a b : Color) :
    contrastE T a b = contrastE T b a := by
  unfold contrastE
  cases h1 : inModel T a "xyz-d65" with
  | none =>
    cases h2 : inModel T b "xyz-d65" with
    | none => simp
    | some bx =>
      cases h4 : toArrayE T bx {} with
      | none => simp [h4]
      | some bArr => simp [h4]
  | some ax =>
    cases h2 : inModel T b "xyz-d65" with
    | none =>
      cases h3 : toArrayE T ax {} with
      | none => simp [h3]
      | some aArr => simp [h3]
    | some bx =>
      cases h3 : toArrayE T ax {} with
      | none =>
        cases h4 : toArrayE T bx {} with
        | none => simp [h3, h4]
        | some bArr => simp [h3, h4]
      | some aArr =>
        cases h4 : toArrayE T bx {} with
        | none => simp [h3, h4]
        | some bArr =>
          simp [h3, h4]
          rw [jsMax_comm, jsMin_comm]

/-- C6: a successful Color.in conversion keeps exactly four coordinates,
reports the normalized target model, and carries the alpha coordinate
through unchanged (only the first three coordinates travel the bridge path);
and when the normalized target equals the current model of a registered
color, the conversion returns a copy with the same model and coordinates. -/
theorem in_preserves_alpha_and_identity (T : TransFns) (c : Color) (m : String)
    (hc : c.coords.length = 4) :
    (∀ c2, inModel T c m = some c2 →
        c2.model = normModelName m ∧ c2.coords.length = 4 ∧
        c2.coords.getD 3 0 = c.coords.getD 3 0) ∧
    (normModelName m = c.model → (lookupModel T c.model).isSome →
        inModel T c m = some c) :=
  ⟨fun _ h => inModel_props hc h, fun h1 h2 => inModel_identity h1 h2 hc⟩

theorem in_preserves_alpha_and_identity_witness :
    (Color.mk "rgb" [1, 2, 3, 1/2]).coords.length = 4 ∧
    ((∀ c2, inModel stubT (Color.mk "rgb" [1, 2, 3, 1/2]) "hsl" = some c2 →
        c2.model = normModelName "hsl" ∧ c2.coords.length = 4 ∧
        c2.coords.getD 3 0 = (Color.mk "rgb" [1, 2, 3, 1/2]).coords.getD 3 0) ∧
      (normModelName "hsl" = (Color.mk "rgb" [1, 2, 3, 1/2]).model →
        (lookupModel stubT (Color.mk "rgb" [1, 2, 3, 1/2]).model).isSome →
        inModel stubT (Color.mk "rgb" [1, 2, 3, 1/2]) "hsl" =
          some (Color.mk "rgb" [1, 2, 3, 1/2]))) :=
  ⟨by with_unfolding_all decide,
   in_preserves_alpha_and_identity stubT ⟨"rgb", [1, 2, 3, 1/2]⟩ "hsl"
     (by with_unfolding_all decide)⟩

theorem unregister_fold_cache (names : List String) :
    ∀ s : RegState, (names.foldl unregisterStep s).cacheKeys = s.cacheKeys := by
  induction names with
  | nil => intro s; rfl
  | cons n rest ih =>
    intro s
    rw [List.foldl_cons, ih]
    rfl

/-- C5 amended: the registration entry points registerColorType,
registerColorBase, registerColorFunction, registerColorSpace and unregister
delete the cached graph and paths entries on success, but registerNamedColor
and registerFitMethod leave the cache untouched. -/
theorem registry_cache_invalidation_amended (s : RegState) (name : String)
    (ct : ColorConvArg) (mc : ModelConvArg) (sc : SpaceConvArg) (rgb : List ℚ)
    (names : List String) :
    (∀ s2, registerColorType s name ct = some s2 →
        s2.cacheKeys = cacheInvalidate s.cacheKeys) ∧
    (∀ s2, registerColorBase s name ct = some s2 →
        s2.cacheKeys = cacheInvalidate s.cacheKeys) ∧
    (∀ s2, registerColorFunction s name mc = some s2 →
        s2.cacheKeys = cacheInvalidate s.cacheKeys) ∧
    (∀ s2, registerColorSpace s name sc = some s2 →
        s2.cacheKeys = cacheInvalidate s.cacheKeys) ∧
    (unregister s names).cacheKeys = cacheInvalidate s.cacheKeys ∧
    (∀ s2, registerNamedColor s name rgb = some s2 → s2.cacheKeys = s.cacheKeys) ∧
    (∀ s2, registerFitMethod s name = some s2 → s2.cacheKeys = s.cacheKeys) ∧
    "graph" ∉ cacheInvalidate s.cacheKeys ∧ "paths" ∉ cacheInvalidate s.cacheKeys := by
  refine ⟨fun s2 h => ?_, fun s2 h => ?_, fun s2 h => ?_, fun s2 h => ?_, ?_,
    fun s2 h => ?_, fun s2 h => ?_, ?_, ?_⟩
  · unfold registerColorType at h
    split_ifs at h
    rw [← Option.some.inj h]
  · unfold registerColorBase at h
    split_ifs at h
    rw [← Option.some.inj h]
  · unfold registerColorFunction at h
    split_ifs at h
    rw [← Option.some.inj h]
  · unfold registerColorSpace at h
    split_ifs at h
    rw [← Option.some.inj h]
  · show cacheInvalidate ((names.foldl unregisterStep s).cacheKeys) = cacheInvalidate s.cacheKeys
    rw [unregister_fold_cache]
  · unfold registerNamedColor at h
    split_ifs at h
    rw [← Option.some.inj h]
  · unfold registerFitMethod at h
    split_ifs at h
    rw [← Option.some.inj h]
  · unfold cacheInvalidate
    simp
  · unfold cacheInvalidate
    simp

theorem hexParse_none_of_invalid {str : String}
    (h : validHexBody (str.data.drop 1) = false) : hexParse str = none := by
  have hnot := of_decide_eq_false h
  by_cases hl : (str.data.drop 1).length = 3 ∨ (str.data.drop 1).length = 4 ∨
      (str.data.drop 1).length = 6 ∨ (str.data.drop 1).length = 8
  · have ha : (str.data.drop 1).all isHexDigit = false := by
      cases hba : (str.data.drop 1).all isHexDigit
      · rfl
      · exact absurd ⟨hl, hba⟩ hnot
    simp only [hexParse]
    rw [if_neg (not_not_intro hl), if_pos (by rw [ha]; exact Bool.false_ne_true)]
  · simp only [hexParse]
    rw [if_pos hl]

/-- C10 amended: for every input whose CLEANED form begins with # but whose
cleaned remainder is not 3, 4, 6 or 8 hex digits, the non-strict Color.type
reports hex-color (the validator checks only the leading #) while Color.from
fails during parsing. -/
theorem hex_type_accepts_from_throws (T : TransFns) (s : String)
    (h1 : hexIsValid (clean s) = true)
    (h2 : validHexBody ((clean s).data.drop 1) = false) :
    typeNonStrict T s = some "hex-color" ∧ fromE T s = none := by
  have hfind : (colorTypesList T).find? (fun p => p.2.isValid (clean s)) =
      some ("hex-color", hexEntry) := by
    rw [colorTypesList]
    exact List.find?_cons_of_pos _ (by simpa [hexEntry] using h1)
  constructor
  · unfold typeNonStrict
    rw [hfind]
    rfl
  · unfold fromE
    rw [hfind]
    show (hexParse (clean s)).bind _ = none
    rw [hexParse_none_of_invalid h2]
    rfl

theorem hex_type_accepts_from_throws_witness :
    (hexIsValid (clean "#xyz") = true ∧
      validHexBody ((clean "#xyz").data.drop 1) = false) ∧
    (typeNonStrict stubT "#xyz" = some "hex-color" ∧ fromE stubT "#xyz" = none) :=
  ⟨⟨by with_unfolding_all decide, by with_unfolding_all decide⟩,
   hex_type_accepts_from_throws stubT "#xyz" (by with_unfolding_all decide)
     (by with_unfolding_all decide)⟩

/-- C3 amended: mixing with amount 0 returns the receiver unchanged and
mixing with amount 1 returns exactly the other color converted into the
receiver's model, for every easing, gamma and hue option; when the other
color already has the receiver's model, that converted color is the other
color itself.  (As stated, the equals-based half of the claim fails
cross-model, because equals compares raw coordinate arrays when the models
differ.) -/
theorem mix_endpoints_amended (T : TransFns) (c o oc : Color) (hu : HueMethod)
    (e : EasingName) (g : ℚ)
    (hm : (lookupModel T c.model).isSome) (hc : c.coords.length = 4)
    (ho4 : o.coords.length = 4) (ho : inModel T o c.model = some oc) :
    mixE T c o { hue := hu, amount := 0, easing := e, gamma := g } = some c ∧
    mixE T c o { hue := hu, amount := 1, easing := e, gamma := g } = some oc ∧
    (o.model = c.model → oc = o) := by
  obtain ⟨conv, hconv⟩ := Option.isSome_iff_exists.mp hm
  have hnorm : normModelName c.model = c.model := by
    apply normModelName_fixed
    rw [← modelNames_eq T]
    exact lookupAssoc_mem hconv
  obtain ⟨hocm, hoc4, hocA⟩ := inModel_props ho4 ho
  rw [hnorm] at hocm
  have hm2 : (lookupModel T oc.model).isSome := by rw [hocm]; exact hm
  have harr : toArrayE T c {} = some c.coords := toArrayE_id hm hc
  have harr2 : toArrayE T oc {} = some oc.coords := toArrayE_id hm2 hoc4
  refine ⟨?_, ?_, ?_⟩
  · unfold mixE
    rw [harr]
    simp only [Option.bind_eq_bind, Option.some_bind]
    rw [hconv]
    simp only [Option.some_bind]
    rw [ho]
    simp only [Option.some_bind]
    rw [harr2]
    simp only [Option.some_bind]
    split_ifs with h1
    · rw [take3_getD c.coords hc, mkColorE_of_four hm hc]
    · exact absurd trivial h1
  · unfold mixE
    rw [harr]
    simp only [Option.bind_eq_bind, Option.some_bind]
    rw [hconv]
    simp only [Option.some_bind]
    rw [ho]
    simp only [Option.some_bind]
    rw [harr2]
    simp only [Option.some_bind]
    split_ifs with h1
    · exact absurd h1 (by norm_num)
    · rw [← hocA, take3_getD oc.coords hoc4, mkColorE_of_four hm hoc4, ← hocm]
  · intro hmod
    have h2 := inModel_identity (hnorm.trans hmod.symm) (by rw [hmod]; exact hm) ho4
    rw [ho] at h2
    exact Option.some.inj h2

theorem mix_endpoints_amended_witness :
    ((lookupModel stubT (Color.mk "rgb" [0, 0, 0, 1]).model).isSome = true ∧
      (Color.mk "rgb" [0, 0, 0, 1]).coords.length = 4 ∧
      (Color.mk "hsl" [0, 0, 100, 1]).coords.length = 4 ∧
      inModel stubT (Color.mk "hsl" [0, 0, 100, 1]) (Color.mk "rgb" [0, 0, 0, 1]).model =
        some (Color.mk "rgb" [255, 255, 255, 1])) ∧
    (mixE stubT (Color.mk "rgb" [0, 0, 0, 1]) (Color.mk "hsl" [0, 0, 100, 1])
        { hue := HueMethod.shorter, amount := 0, easing := EasingName.linear, gamma := 1 } =
      some (Color.mk "rgb" [0, 0, 0, 1]) ∧
    mixE stubT (Color.mk "rgb" [0, 0, 0, 1]) (Color.mk "hsl" [0, 0, 100, 1])
        { hue := HueMethod.shorter, amount := 1, easing := EasingName.linear, gamma := 1 } =
      some (Color.mk "rgb" [255, 255, 255, 1]) ∧
    ((Color.mk "hsl" [0, 0, 100, 1]).model = (Color.mk "rgb" [0, 0, 0, 1]).model →
      (Color.mk "rgb" [255, 255, 255, 1]) = Color.mk "hsl" [0, 0, 100, 1])) :=
  ⟨⟨by with_unfolding_all decide, by with_unfolding_all decide,
     by with_unfolding_all decide, by with_unfolding_all decide⟩,
   mix_endpoints_amended stubT ⟨"rgb", [0, 0, 0, 1]⟩ ⟨"hsl", [0, 0, 100, 1]⟩
     ⟨"rgb", [255, 255, 255, 1]⟩ HueMethod.shorter EasingName.linear 1
     (by with_unfolding_all decide) (by with_unfolding_all decide)
     (by with_unfolding_all decide) (by with_unfolding_all decide)⟩

theorem hsl_rt_sectorA (h s l : ℚ) (hh0 : 0 ≤ h) (hh1 : h ≤ 60)
    (hs0 : 0 < s) (hs1 : s ≤ 100) (hl0 : 0 < l) (hl1 : l < 100) :
    RGB_to_HSL (HSL_to_RGB [h, s, l]) = [h, s, l] := by
  have hx0 : (0:ℚ) ≤ h / 30 := by linarith
  have hx1 : h / 30 ≤ 2 := by linarith
  have hJ : 0 < jsMin (l / 100) (1 - l / 100) := jsMin_pos (by linarith) (by linarith)
  set A := s / 100 * jsMin (l / 100) (1 - l / 100) with hAdef
  have hA : 0 < A := mul_pos (by linarith) hJ
  have hk0 : jsRem (0 + h / 30) 12 = 0 + h / 30 :=
    jsRem_small (by norm_num) (by linarith) (by linarith)
  have hk8 : jsRem (8 + h / 30) 12 = 8 + h / 30 :=
    jsRem_small (by norm_num) (by linarith) (by linarith)
  have hk4 : jsRem (4 + h / 30) 12 = 4 + h / 30 :=
    jsRem_small (by norm_num) (by linarith) (by linarith)
  have hRGB : HSL_to_RGB [h, s, l] = [(l / 100 - A * (-1)) * 255,
      (l / 100 - A * (9 - (8 + h / 30))) * 255, (l / 100 - A * 1) * 255] := by
    simp only [HSL_to_RGB, List.getD_cons_zero, List.getD_cons_succ]
    rw [hk0, hk8, hk4]
    rw [jsMin_eq_right (show (1:ℚ) ≤ 9 - (0 + h / 30) by linarith)]
    rw [jsMin_eq_left (show 0 + h / 30 - 3 ≤ (1:ℚ) by linarith)]
    rw [jsMax_eq_left (show 0 + h / 30 - 3 ≤ (-1 : ℚ) by linarith)]
    rw [jsMin_eq_left (show 9 - (8 + h / 30) ≤ (1:ℚ) by linarith)]
    rw [jsMin_eq_right (show 9 - (8 + h / 30) ≤ 8 + h / 30 - 3 by linarith)]
    rw [jsMax_eq_right (show (-1:ℚ) ≤ 9 - (8 + h / 30) by linarith)]
    rw [jsMin_eq_right (show (1:ℚ) ≤ 9 - (4 + h / 30) by linarith)]
    rw [jsMin_eq_right (show (1:ℚ) ≤ 4 + h / 30 - 3 by linarith)]
    rw [jsMax_eq_right (show (-1:ℚ) ≤ (1:ℚ) by norm_num)]
  rw [hRGB]
  have h255 : ∀ q : ℚ, q * 255 / 255 = q := fun q => by ring
  simp only [RGB_to_HSL, List.getD_cons_zero, List.getD_cons_succ]
  simp only [h255]
  have hgb : l / 100 - A * 1 ≤ l / 100 - A * (9 - (8 + h / 30)) := by
    linarith [mul_le_mul_of_nonneg_left
      (show 9 - (8 + h / 30) ≤ (1:ℚ) by linarith) hA.le]
  have hgr : l / 100 - A * (9 - (8 + h / 30)) ≤ l / 100 - A * (-1) := by
    linarith [mul_le_mul_of_nonneg_left
      (show (-1:ℚ) ≤ 9 - (8 + h / 30) by linarith) hA.le]
  have hbr : l / 100 - A * 1 ≤ l / 100 - A * (-1) := by
    linarith [mul_le_mul_of_nonneg_left (show (-1:ℚ) ≤ (1:ℚ) by norm_num) hA.le]
  simp only [jsMax_eq_left hgb, jsMax_eq_left hgr, jsMin_eq_right hgb, jsMin_eq_right hbr]
  have hlBig : (l / 100 - A * 1 + (l / 100 - A * (-1))) / 2 = l / 100 := by ring
  have hdq : l / 100 - A * (-1) - (l / 100 - A * 1) = 2 * A := by ring
  simp only [hlBig, hdq]
  have hAne : (2 : ℚ) * A ≠ 0 := ne_of_gt (by linarith)
  have hl01 : ¬(l / 100 = 0 ∨ l / 100 = 1) := by rintro (heq | heq) <;> linarith
  have hnum : l / 100 - A * (-1) - l / 100 = A := by ring
  have hsBig : A / jsMin (l / 100) (1 - l / 100) = s / 100 := by
    rw [hAdef]
    exact mul_div_cancel_right₀ _ (ne_of_gt hJ)
  have hglt : ¬(l / 100 - A * (9 - (8 + h / 30)) < l / 100 - A * 1) := not_lt.mpr hgb
  simp only [if_pos hAne, if_neg hl01, if_true, if_neg hglt, hnum, hsBig, add_zero]
  have hV : (l / 100 - A * (9 - (8 + h / 30)) - (l / 100 - A * 1)) / (2 * A) * 60 = h := by
    field_simp
    ring
  rw [hV]
  have hsneg : ¬(s / 100 * 100 < 0) := not_lt.mpr (by linarith)
  have h360 : ¬(h ≥ 360) := fun hcon => by linarith
  have hlne : ¬(l / 100 * 100 = 0) := fun heq => by linarith
  have hfin : ¬(s / 100 = 0 ∨ l / 100 * 100 = 0) := by rintro (heq | heq) <;> linarith
  simp only [if_neg hsneg, if_neg h360, if_neg hlne, if_neg hfin]
  rw [show s / 100 * 100 = s from by ring, show l / 100 * 100 = l from by ring]

theorem hsl_rt_sectorB (h s l : ℚ) (hh0 : 60 < h) (hh1 : h < 120)
    (hs0 : 0 < s) (hs1 : s ≤ 100) (hl0 : 0 < l) (hl1 : l < 100) :
    RGB_to_HSL (HSL_to_RGB [h, s, l]) = [h, s, l] := by
  have hJ : 0 < jsMin (l / 100) (1 - l / 100) := jsMin_pos (by linarith) (by linarith)
  set A := s / 100 * jsMin (l / 100) (1 - l / 100) with hAdef
  have hA : 0 < A := mul_pos (by linarith) hJ
  have hk0 : jsRem (0 + h / 30) 12 = 0 + h / 30 :=
    jsRem_small (by norm_num) (by linarith) (by linarith)
  have hk8 : jsRem (8 + h / 30) 12 = 8 + h / 30 :=
    jsRem_small (by norm_num) (by linarith) (by linarith)
  have hk4 : jsRem (4 + h / 30) 12 = 4 + h / 30 :=
    jsRem_small (by norm_num) (by linarith) (by linarith)
  have hRGB : HSL_to_RGB [h, s, l] = [(l / 100 - A * (0 + h / 30 - 3)) * 255,
      (l / 100 - A * (-1)) * 255, (l / 100 - A * 1) * 255] := by
    simp only [HSL_to_RGB, List.getD_cons_zero, List.getD_cons_succ]
    rw [hk0, hk8, hk4]
    rw [jsMin_eq_right (show (1:ℚ) ≤ 9 - (0 + h / 30) by linarith)]
    rw [jsMin_eq_left (show 0 + h / 30 - 3 ≤ (1:ℚ) by linarith)]
    rw [jsMax_eq_right (show (-1:ℚ) ≤ 0 + h / 30 - 3 by linarith)]
    rw [jsMin_eq_left (show 9 - (8 + h / 30) ≤ (1:ℚ) by linarith)]
    rw [jsMin_eq_right (show 9 - (8 + h / 30) ≤ 8 + h / 30 - 3 by linarith)]
    rw [jsMax_eq_left (show 9 - (8 + h / 30) ≤ (-1:ℚ) by linarith)]
    rw [jsMin_eq_right (show (1:ℚ) ≤ 9 - (4 + h / 30) by linarith)]
    rw [jsMin_eq_right (show (1:ℚ) ≤ 4 + h / 30 - 3 by linarith)]
    rw [jsMax_eq_right (show (-1:ℚ) ≤ (1:ℚ) by norm_num)]
  rw [hRGB]
  have h255 : ∀ q : ℚ, q * 255 / 255 = q := fun q => by ring
  simp only [RGB_to_HSL, List.getD_cons_zero, List.getD_cons_succ]
  simp only [h255]
  have hbl : l / 100 - A * 1 ≤ l / 100 - A * (-1) := by
    linarith [mul_le_mul_of_nonneg_left (show (-1:ℚ) ≤ (1:ℚ) by norm_num) hA.le]
  have hrg : l / 100 - A * (0 + h / 30 - 3) ≤ l / 100 - A * (-1) := by
    linarith [mul_le_mul_of_nonneg_left
      (show (-1:ℚ) ≤ 0 + h / 30 - 3 by linarith) hA.le]
  have hbr : l / 100 - A * 1 ≤ l / 100 - A * (0 + h / 30 - 3) := by
    linarith [mul_le_mul_of_nonneg_left
      (show 0 + h / 30 - 3 ≤ (1:ℚ) by linarith) hA.le]
  simp only [jsMax_eq_left hbl, jsMax_eq_right hrg, jsMin_eq_right hbl,
    jsMin_eq_right hbr]
  have hlBig : (l / 100 - A * 1 + (l / 100 - A * (-1))) / 2 = l / 100 := by ring
  have hdq : l / 100 - A * (-1) - (l / 100 - A * 1) = 2 * A := by ring
  simp only [hlBig, hdq]
  have hAne : (2 : ℚ) * A ≠ 0 := ne_of_gt (by linarith)
  have hl01 : ¬(l / 100 = 0 ∨ l / 100 = 1) := by rintro (heq | heq) <;> linarith
  have hnum : l / 100 - A * (-1) - l / 100 = A := by ring
  have hsBig : A / jsMin (l / 100) (1 - l / 100) = s / 100 := by
    rw [hAdef]
    exact mul_div_cancel_right₀ _ (ne_of_gt hJ)
  have hmxr : ¬(l / 100 - A * (-1) = l / 100 - A * (0 + h / 30 - 3)) := by
    intro heq
    nlinarith [mul_pos hA (show (0:ℚ) < h - 60 by linarith)]
  simp only [if_pos hAne, if_neg hl01, if_neg hmxr, if_true, hnum, hsBig, add_zero]
  have hV : ((l / 100 - A * 1 - (l / 100 - A * (0 + h / 30 - 3))) / (2 * A) + 2) * 60
      = h := by
    field_simp
    ring
  rw [hV]
  have hsneg : ¬(s / 100 * 100 < 0) := not_lt.mpr (by linarith)
  have h360 : ¬(h ≥ 360) := fun hcon => by linarith
  have hlne : ¬(l / 100 * 100 = 0) := fun heq => by linarith
  have hfin : ¬(s / 100 = 0 ∨ l / 100 * 100 = 0) := by rintro (heq | heq) <;> linarith
  simp only [if_neg hsneg, if_neg h360, if_neg hlne, if_neg hfin]
  rw [show s / 100 * 100 = s from by ring, show l / 100 * 100 = l from by ring]

theorem hsl_rt_sectorC (h s l : ℚ) (hh0 : 120 ≤ h) (hh1 : h ≤ 180)
    (hs0 : 0 < s) (hs1 : s ≤ 100) (hl0 : 0 < l) (hl1 : l < 100) :
    RGB_to_HSL (HSL_to_RGB [h, s, l]) = [h, s, l] := by
  have hJ : 0 < jsMin (l / 100) (1 - l / 100) := jsMin_pos (by linarith) (by linarith)
  set A := s / 100 * jsMin (l / 100) (1 - l / 100) with hAdef
  have hA : 0 < A := mul_pos (by linarith) hJ
  have hk0 : jsRem (0 + h / 30) 12 = 0 + h / 30 :=
    jsRem_small (by norm_num) (by linarith) (by linarith)
  have hk8 : jsRem (8 + h / 30) 12 = 8 + h / 30 - 12 :=
    jsRem_once (by norm_num) (by linarith) (by linarith)
  have hk4 : jsRem (4 + h / 30) 12 = 4 + h / 30 :=
    jsRem_small (by norm_num) (by linarith) (by linarith)
  have hRGB : HSL_to_RGB [h, s, l] = [(l / 100 - A * 1) * 255,
      (l / 100 - A * (-1)) * 255, (l / 100 - A * (9 - (4 + h / 30))) * 255] := by
    simp only [HSL_to_RGB, List.getD_cons_zero, List.getD_cons_succ]
    rw [hk0, hk8, hk4]
    rw [jsMin_eq_right (show (1:ℚ) ≤ 9 - (0 + h / 30) by linarith)]
    rw [jsMin_eq_right (show (1:ℚ) ≤ 0 + h / 30 - 3 by linarith)]
    rw [jsMax_eq_right (show (-1:ℚ) ≤ (1:ℚ) by norm_num)]
    rw [jsMin_eq_right (show (1:ℚ) ≤ 9 - (8 + h / 30 - 12) by linarith)]
    rw [jsMin_eq_left (show 8 + h / 30 - 12 - 3 ≤ (1:ℚ) by linarith)]
    rw [jsMax_eq_left (show 8 + h / 30 - 12 - 3 ≤ (-1:ℚ) by linarith)]
    rw [jsMin_eq_left (show 9 - (4 + h / 30) ≤ (1:ℚ) by linarith)]
    rw [jsMin_eq_right (show 9 - (4 + h / 30) ≤ 4 + h / 30 - 3 by linarith)]
    rw [jsMax_eq_right (show (-1:ℚ) ≤ 9 - (4 + h / 30) by linarith)]
  rw [hRGB]
  have h255 : ∀ q : ℚ, q * 255 / 255 = q := fun q => by ring
  simp only [RGB_to_HSL, List.getD_cons_zero, List.getD_cons_succ]
  simp only [h255]
  have hbl : l / 100 - A * 1 ≤ l / 100 - A * (-1) := by
    linarith [mul_le_mul_of_nonneg_left (show (-1:ℚ) ≤ (1:ℚ) by norm_num) hA.le]
  have hbg : l / 100 - A * (9 - (4 + h / 30)) ≤ l / 100 - A * (-1) := by
    linarith [mul_le_mul_of_nonneg_left
      (show (-1:ℚ) ≤ 9 - (4 + h / 30) by linarith) hA.le]
  have hrb : l / 100 - A * 1 ≤ l / 100 - A * (9 - (4 + h / 30)) := by
    linarith [mul_le_mul_of_nonneg_left
      (show 9 - (4 + h / 30) ≤ (1:ℚ) by linarith) hA.le]
  simp only [jsMax_eq_left hbg, jsMax_eq_right hbl, jsMin_eq_right hbg,
    jsMin_eq_left hrb]
  have hlBig : (l / 100 - A * 1 + (l / 100 - A * (-1))) / 2 = l / 100 := by ring
  have hdq : l / 100 - A * (-1) - (l / 100 - A * 1) = 2 * A := by ring
  simp only [hlBig, hdq]
  have hAne : (2 : ℚ) * A ≠ 0 := ne_of_gt (by linarith)
  have hl01 : ¬(l / 100 = 0 ∨ l / 100 = 1) := by rintro (heq | heq) <;> linarith
  have hnum : l / 100 - A * (-1) - l / 100 = A := by ring
  have hsBig : A / jsMin (l / 100) (1 - l / 100) = s / 100 := by
    rw [hAdef]
    exact mul_div_cancel_right₀ _ (ne_of_gt hJ)
  have hmxr : ¬(l / 100 - A * (-1) = l / 100 - A * 1) := by
    intro heq
    linarith
  simp only [if_pos hAne, if_neg hl01, if_neg hmxr, if_true, hnum, hsBig, add_zero]
  have hV : ((l / 100 - A * (9 - (4 + h / 30)) - (l / 100 - A * 1)) / (2 * A) + 2) * 60
      = h := by
    field_simp
    ring
  rw [hV]
  have hsneg : ¬(s / 100 * 100 < 0) := not_lt.mpr (by linarith)
  have h360 : ¬(h ≥ 360) := fun hcon => by linarith
  have hlne : ¬(l / 100 * 100 = 0) := fun heq => by linarith
  have hfin : ¬(s / 100 = 0 ∨ l / 100 * 100 = 0) := by rintro (heq | heq) <;> linarith
  simp only [if_neg hsneg, if_neg h360, if_neg hlne, if_neg hfin]
  rw [show s / 100 * 100 = s from by ring, show l / 100 * 100 = l from by ring]

theorem hsl_rt_sectorD (h s l : ℚ) (hh0 : 180 < h) (hh1 : h < 240)
    (hs0 : 0 < s) (hs1 : s ≤ 100) (hl0 : 0 < l) (hl1 : l < 100) :
    RGB_to_HSL (HSL_to_RGB [h, s, l]) = [h, s, l] := by
  have hJ : 0 < jsMin (l / 100) (1 - l / 100) := jsMin_pos (by linarith) (by linarith)
  set A := s / 100 * jsMin (l / 100) (1 - l / 100) with hAdef
  have hA : 0 < A := mul_pos (by linarith) hJ
  have hk0 : jsRem (0 + h / 30) 12 = 0 + h / 30 :=
    jsRem_small (by norm_num) (by linarith) (by linarith)
  have hk8 : jsRem (8 + h / 30) 12 = 8 + h / 30 - 12 :=
    jsRem_once (by norm_num) (by linarith) (by linarith)
  have hk4 : jsRem (4 + h / 30) 12 = 4 + h / 30 :=
    jsRem_small (by norm_num) (by linarith) (by linarith)
  have hRGB : HSL_to_RGB [h, s, l] = [(l / 100 - A * 1) * 255,
      (l / 100 - A * (8 + h / 30 - 12 - 3)) * 255, (l / 100 - A * (-1)) * 255] := by
    simp only [HSL_to_RGB, List.getD_cons_zero, List.getD_cons_succ]
    rw [hk0, hk8, hk4]
    rw [jsMin_eq_right (show (1:ℚ) ≤ 9 - (0 + h / 30) by linarith)]
    rw [jsMin_eq_right (show (1:ℚ) ≤ 0 + h / 30 - 3 by linarith)]
    rw [jsMax_eq_right (show (-1:ℚ) ≤ (1:ℚ) by norm_num)]
    rw [jsMin_eq_right (show (1:ℚ) ≤ 9 - (8 + h / 30 - 12) by linarith)]
    rw [jsMin_eq_left (show 8 + h / 30 - 12 - 3 ≤ (1:ℚ) by linarith)]
    rw [jsMax_eq_right (show (-1:ℚ) ≤ 8 + h / 30 - 12 - 3 by linarith)]
    rw [jsMin_eq_left (show 9 - (4 + h / 30) ≤ (1:ℚ) by linarith)]
    rw [jsMin_eq_right (show 9 - (4 + h / 30) ≤ 4 + h / 30 - 3 by linarith)]
    rw [jsMax_eq_left (show 9 - (4 + h / 30) ≤ (-1:ℚ) by linarith)]
  rw [hRGB]
  have h255 : ∀ q : ℚ, q * 255 / 255 = q := fun q => by ring
  simp only [RGB_to_HSL, List.getD_cons_zero, List.getD_cons_succ]
  simp only [h255]
  have hbl : l / 100 - A * 1 ≤ l / 100 - A * (-1) := by
    linarith [mul_le_mul_of_nonneg_left (show (-1:ℚ) ≤ (1:ℚ) by norm_num) hA.le]
  have hgb2 : l / 100 - A * (8 + h / 30 - 12 - 3) ≤ l / 100 - A * (-1) := by
    linarith [mul_le_mul_of_nonneg_left
      (show (-1:ℚ) ≤ 8 + h / 30 - 12 - 3 by linarith) hA.le]
  have hrg2 : l / 100 - A * 1 ≤ l / 100 - A * (8 + h / 30 - 12 - 3) := by
    linarith [mul_le_mul_of_nonneg_left
      (show 8 + h / 30 - 12 - 3 ≤ (1:ℚ) by linarith) hA.le]
  simp only [jsMax_eq_right hgb2, jsMax_eq_right hbl, jsMin_eq_left hgb2,
    jsMin_eq_left hrg2]
  have hlBig : (l / 100 - A * 1 + (l / 100 - A * (-1))) / 2 = l / 100 := by ring
  have hdq : l / 100 - A * (-1) - (l / 100 - A * 1) = 2 * A := by ring
  simp only [hlBig, hdq]
  have hAne : (2 : ℚ) * A ≠ 0 := ne_of_gt (by linarith)
  have hl01 : ¬(l / 100 = 0 ∨ l / 100 = 1) := by rintro (heq | heq) <;> linarith
  have hnum : l / 100 - A * (-1) - l / 100 = A := by ring
  have hsBig : A / jsMin (l / 100) (1 - l / 100) = s / 100 := by
    rw [hAdef]
    exact mul_div_cancel_right₀ _ (ne_of_gt hJ)
  have hmxr : ¬(l / 100 - A * (-1) = l / 100 - A * 1) := by
    intro heq
    linarith
  have hmxg : ¬(l / 100 - A * (-1) = l / 100 - A * (8 + h / 30 - 12 - 3)) := by
    intro heq
    nlinarith [mul_pos hA (show (0:ℚ) < h - 180 by linarith)]
  simp only [if_pos hAne, if_neg hl01, if_neg hmxr, if_neg hmxg, hnum, hsBig, add_zero]
  have hV : ((l / 100 - A * 1 - (l / 100 - A * (8 + h / 30 - 12 - 3))) / (2 * A) + 4)
      * 60 = h := by
    field_simp
    ring
  rw [hV]
  have hsneg : ¬(s / 100 * 100 < 0) := not_lt.mpr (by linarith)
  have h360 : ¬(h ≥ 360) := fun hcon => by linarith
  have hlne : ¬(l / 100 * 100 = 0) := fun heq => by linarith
  have hfin : ¬(s / 100 = 0 ∨ l / 100 * 100 = 0) := by rintro (heq | heq) <;> linarith
  simp only [if_neg hsneg, if_neg h360, if_neg hlne, if_neg hfin]
  rw [show s / 100 * 100 = s from by ring, show l / 100 * 100 = l from by ring]

theorem hsl_rt_sectorE (h s l : ℚ) (hh0 : 240 ≤ h) (hh1 : h < 300)
    (hs0 : 0 < s) (hs1 : s ≤ 100) (hl0 : 0 < l) (hl1 : l < 100) :
    RGB_to_HSL (HSL_to_RGB [h, s, l]) = [h, s, l] := by
  have hJ : 0 < jsMin (l / 100) (1 - l / 100) := jsMin_pos (by linarith) (by linarith)
  set A := s / 100 * jsMin (l / 100) (1 - l / 100) with hAdef
  have hA : 0 < A := mul_pos (by linarith) hJ
  have hk0 : jsRem (0 + h / 30) 12 = 0 + h / 30 :=
    jsRem_small (by norm_num) (by linarith) (by linarith)
  have hk8 : jsRem (8 + h / 30) 12 = 8 + h / 30 - 12 :=
    jsRem_once (by norm_num) (by linarith) (by linarith)
  have hk4 : jsRem (4 + h / 30) 12 = 4 + h / 30 - 12 :=
    jsRem_once (by norm_num) (by linarith) (by linarith)
  have hRGB : HSL_to_RGB [h, s, l] = [(l / 100 - A * (9 - (0 + h / 30))) * 255,
      (l / 100 - A * 1) * 255, (l / 100 - A * (-1)) * 255] := by
    simp only [HSL_to_RGB, List.getD_cons_zero, List.getD_cons_succ]
    rw [hk0, hk8, hk4]
    rw [jsMin_eq_left (show 9 - (0 + h / 30) ≤ (1:ℚ) by linarith)]
    rw [jsMin_eq_right (show 9 - (0 + h / 30) ≤ 0 + h / 30 - 3 by linarith)]
    rw [jsMax_eq_right (show (-1:ℚ) ≤ 9 - (0 + h / 30) by linarith)]
    rw [jsMin_eq_right (show (1:ℚ) ≤ 9 - (8 + h / 30 - 12) by linarith)]
    rw [jsMin_eq_right (show (1:ℚ) ≤ 8 + h / 30 - 12 - 3 by linarith)]
    rw [jsMax_eq_right (show (-1:ℚ) ≤ (1:ℚ) by norm_num)]
    rw [jsMin_eq_right (show (1:ℚ) ≤ 9 - (4 + h / 30 - 12) by linarith)]
    rw [jsMin_eq_left (show 4 + h / 30 - 12 - 3 ≤ (1:ℚ) by linarith)]
    rw [jsMax_eq_left (show 4 + h / 30 - 12 - 3 ≤ (-1:ℚ) by linarith)]
  rw [hRGB]
  have h255 : ∀ q : ℚ, q * 255 / 255 = q := fun q => by ring
  simp only [RGB_to_HSL, List.getD_cons_zero, List.getD_cons_succ]
  simp only [h255]
  have hbl : l / 100 - A * 1 ≤ l / 100 - A * (-1) := by
    linarith [mul_le_mul_of_nonneg_left (show (-1:ℚ) ≤ (1:ℚ) by norm_num) hA.le]
  have hrb : l / 100 - A * (9 - (0 + h / 30)) ≤ l / 100 - A * (-1) := by
    linarith [mul_le_mul_of_nonneg_left
      (show (-1:ℚ) ≤ 9 - (0 + h / 30) by linarith) hA.le]
  have hgr2 : l / 100 - A * 1 ≤ l / 100 - A * (9 - (0 + h / 30)) := by
    linarith [mul_le_mul_of_nonneg_left
      (show 9 - (0 + h / 30) ≤ (1:ℚ) by linarith) hA.le]
  simp only [jsMax_eq_right hbl, jsMax_eq_right hrb, jsMin_eq_left hbl,
    jsMin_eq_right hgr2]
  have hlBig : (l / 100 - A * 1 + (l / 100 - A * (-1))) / 2 = l / 100 := by ring
  have hdq : l / 100 - A * (-1) - (l / 100 - A * 1) = 2 * A := by ring
  simp only [hlBig, hdq]
  have hAne : (2 : ℚ) * A ≠ 0 := ne_of_gt (by linarith)
  have hl01 : ¬(l / 100 = 0 ∨ l / 100 = 1) := by rintro (heq | heq) <;> linarith
  have hnum : l / 100 - A * (-1) - l / 100 = A := by ring
  have hsBig : A / jsMin (l / 100) (1 - l / 100) = s / 100 := by
    rw [hAdef]
    exact mul_div_cancel_right₀ _ (ne_of_gt hJ)
  have hmxr : ¬(l / 100 - A * (-1) = l / 100 - A * (9 - (0 + h / 30))) := by
    intro heq
    nlinarith [mul_pos hA (show (0:ℚ) < 300 - h by linarith)]
  have hmxg : ¬(l / 100 - A * (-1) = l / 100 - A * 1) := by
    intro heq
    linarith
  simp only [if_pos hAne, if_neg hl01, if_neg hmxr, if_neg hmxg, hnum, hsBig, add_zero]
  have hV : ((l / 100 - A * (9 - (0 + h / 30)) - (l / 100 - A * 1)) / (2 * A) + 4)
      * 60 = h := by
    field_simp
    ring
  rw [hV]
  have hsneg : ¬(s / 100 * 100 < 0) := not_lt.mpr (by linarith)
  have h360 : ¬(h ≥ 360) := fun hcon => by linarith
  have hlne : ¬(l / 100 * 100 = 0) := fun heq => by linarith
  have hfin : ¬(s / 100 = 0 ∨ l / 100 * 100 = 0) := by rintro (heq | heq) <;> linarith
  simp only [if_neg hsneg, if_neg h360, if_neg hlne, if_neg hfin]
  rw [show s / 100 * 100 = s from by ring, show l / 100 * 100 = l from by ring]

theorem hsl_rt_sectorF (h s l : ℚ) (hh0 : 300 ≤ h) (hh1 : h < 360)
    (hs0 : 0 < s) (hs1 : s ≤ 100) (hl0 : 0 < l) (hl1 : l < 100) :
    RGB_to_HSL (HSL_to_RGB [h, s, l]) = [h, s, l] := by
  have hJ : 0 < jsMin (l / 100) (1 - l / 100) := jsMin_pos (by linarith) (by linarith)
  set A := s / 100 * jsMin (l / 100) (1 - l / 100) with hAdef
  have hA : 0 < A := mul_pos (by linarith) hJ
  have hk0 : jsRem (0 + h / 30) 12 = 0 + h / 30 :=
    jsRem_small (by norm_num) (by linarith) (by linarith)
  have hk8 : jsRem (8 + h / 30) 12 = 8 + h / 30 - 12 :=
    jsRem_once (by norm_num) (by linarith) (by linarith)
  have hk4 : jsRem (4 + h / 30) 12 = 4 + h / 30 - 12 :=
    jsRem_once (by norm_num) (by linarith) (by linarith)
  have hRGB : HSL_to_RGB [h, s, l] = [(l / 100 - A * (-1)) * 255,
      (l / 100 - A * 1) * 255, (l / 100 - A * (4 + h / 30 - 12 - 3)) * 255] := by
    simp only [HSL_to_RGB, List.getD_cons_zero, List.getD_cons_succ]
    rw [hk0, hk8, hk4]
    rw [jsMin_eq_left (show 9 - (0 + h / 30) ≤ (1:ℚ) by linarith)]
    rw [jsMin_eq_right (show 9 - (0 + h / 30) ≤ 0 + h / 30 - 3 by linarith)]
    rw [jsMax_eq_left (show 9 - (0 + h / 30) ≤ (-1:ℚ) by linarith)]
    rw [jsMin_eq_right (show (1:ℚ) ≤ 9 - (8 + h / 30 - 12) by linarith)]
    rw [jsMin_eq_right (show (1:ℚ) ≤ 8 + h / 30 - 12 - 3 by linarith)]
    rw [jsMax_eq_right (show (-1:ℚ) ≤ (1:ℚ) by norm_num)]
    rw [jsMin_eq_right (show (1:ℚ) ≤ 9 - (4 + h / 30 - 12) by linarith)]
    rw [jsMin_eq_left (show 4 + h / 30 - 12 - 3 ≤ (1:ℚ) by linarith)]
    rw [jsMax_eq_right (show (-1:ℚ) ≤ 4 + h / 30 - 12 - 3 by linarith)]
  rw [hRGB]
  have h255 : ∀ q : ℚ, q * 255 / 255 = q := fun q => by ring
  simp only [RGB_to_HSL, List.getD_cons_zero, List.getD_cons_succ]
  simp only [h255]
  have hbl : l / 100 - A * 1 ≤ l / 100 - A * (-1) := by
    linarith [mul_le_mul_of_nonneg_left (show (-1:ℚ) ≤ (1:ℚ) by norm_num) hA.le]
  have hgb3 : l / 100 - A * 1 ≤ l / 100 - A * (4 + h / 30 - 12 - 3) := by
    linarith [mul_le_mul_of_nonneg_left
      (show 4 + h / 30 - 12 - 3 ≤ (1:ℚ) by linarith) hA.le]
  have hbr3 : l / 100 - A * (4 + h / 30 - 12 - 3) ≤ l / 100 - A * (-1) := by
    linarith [mul_le_mul_of_nonneg_left
      (show (-1:ℚ) ≤ 4 + h / 30 - 12 - 3 by linarith) hA.le]
  simp only [jsMax_eq_right hgb3, jsMax_eq_left hbr3, jsMin_eq_left hgb3,
    jsMin_eq_right hbl]
  have hlBig : (l / 100 - A * 1 + (l / 100 - A * (-1))) / 2 = l / 100 := by ring
  have hdq : l / 100 - A * (-1) - (l / 100 - A * 1) = 2 * A := by ring
  simp only [hlBig, hdq]
  have hAne : (2 : ℚ) * A ≠ 0 := ne_of_gt (by linarith)
  have hl01 : ¬(l / 100 = 0 ∨ l / 100 = 1) := by rintro (heq | heq) <;> linarith
  have hnum : l / 100 - A * (-1) - l / 100 = A := by ring
  have hsBig : A / jsMin (l / 100) (1 - l / 100) = s / 100 := by
    rw [hAdef]
    exact mul_div_cancel_right₀ _ (ne_of_gt hJ)
  have hgblt : l / 100 - A * 1 < l / 100 - A * (4 + h / 30 - 12 - 3) := by
    linarith [mul_lt_mul_of_pos_left
      (show 4 + h / 30 - 12 - 3 < (1:ℚ) by linarith) hA]
  simp only [if_pos hAne, if_neg hl01, if_pos hgblt, if_true, hnum, hsBig]
  have hV : ((l / 100 - A * 1 - (l / 100 - A * (4 + h / 30 - 12 - 3))) / (2 * A) + 6)
      * 60 = h := by
    field_simp
    ring
  rw [hV]
  have hsneg : ¬(s / 100 * 100 < 0) := not_lt.mpr (by linarith)
  have h360 : ¬(h ≥ 360) := fun hcon => by linarith
  have hlne : ¬(l / 100 * 100 = 0) := fun heq => by linarith
  have hfin : ¬(s / 100 = 0 ∨ l / 100 * 100 = 0) := by rintro (heq | heq) <;> linarith
  simp only [if_neg hsneg, if_neg h360, if_neg hlne, if_neg hfin]
  rw [show s / 100 * 100 = s from by ring, show l / 100 * 100 = l from by ring]

/-- The hsl round trip through rgb is exact on the non-degenerate in-range
inputs 0 <= h < 360, 0 < s <= 100, 0 < l < 100 (assembled from the six hue
sectors above). -/
theorem hsl_roundtrip_amended (h s l : ℚ) (hh0 : 0 ≤ h) (hh1 : h < 360)
    (hs0 : 0 < s) (hs1 : s ≤ 100) (hl0 : 0 < l) (hl1 : l < 100) :
    RGB_to_HSL (HSL_to_RGB [h, s, l]) = [h, s, l] := by
  rcases le_or_lt h 60 with hc | hc
  · exact hsl_rt_sectorA h s l hh0 hc hs0 hs1 hl0 hl1
  rcases lt_or_le h 120 with hc2 | hc2
  · exact hsl_rt_sectorB h s l hc hc2 hs0 hs1 hl0 hl1
  rcases le_or_lt h 180 with hc3 | hc3
  · exact hsl_rt_sectorC h s l hc2 hc3 hs0 hs1 hl0 hl1
  rcases lt_or_le h 240 with hc4 | hc4
  · exact hsl_rt_sectorD h s l hc3 hc4 hs0 hs1 hl0 hl1
  rcases lt_or_le h 300 with hc5 | hc5
  · exact hsl_rt_sectorE h s l hc4 hc5 hs0 hs1 hl0 hl1
  · exact hsl_rt_sectorF h s l hc5 hh1 hs0 hs1 hl0 hl1

theorem hsl_roundtrip_amended_witness :
    ((0:ℚ) ≤ 250 ∧ (250:ℚ) < 360 ∧ (0:ℚ) < 40 ∧ (40:ℚ) ≤ 100 ∧
      (0:ℚ) < 30 ∧ (30:ℚ) < 100) ∧
    RGB_to_HSL (HSL_to_RGB [250, 40, 30]) = [(250:ℚ), 40, 30] :=
  ⟨by norm_num,
   hsl_roundtrip_amended 250 40 30 (by norm_num) (by norm_num) (by norm_num)
     (by norm_num) (by norm_num) (by norm_num)⟩

theorem cube_lt_cube {x y : ℚ} (h : x < y) : x ^ 3 < y ^ 3 := by
  nlinarith [mul_pos (mul_pos (sub_pos.2 h) (sub_pos.2 h)) (sub_pos.2 h),
    mul_nonneg (sub_pos.2 h).le (sq_nonneg (y + x))]

theorem labComp (T : TransFns) (f : ℚ) (hc : T.cbrt (f ^ 3) = f) :
    (if (if f ^ 3 > (216 / 24389 : ℚ) then f ^ 3 else (116 * f - 16) / (24389 / 27)) >
        (216 / 24389 : ℚ)
     then T.cbrt (if f ^ 3 > (216 / 24389 : ℚ) then f ^ 3 else (116 * f - 16) / (24389 / 27))
     else (24389 / 27 *
        (if f ^ 3 > (216 / 24389 : ℚ) then f ^ 3 else (116 * f - 16) / (24389 / 27)) + 16)
        / 116) = f := by
  by_cases hP : f ^ 3 > (216 / 24389 : ℚ)
  · simp only [if_pos hP]
    exact hc
  · have hfle : f ≤ 6 / 29 := by
      by_contra hcon
      push_neg at hcon
      exact hP (by
        rw [show (216 / 24389 : ℚ) = (6 / 29) ^ 3 from by norm_num]
        exact cube_lt_cube hcon)
    have hub : ¬((116 * f - 16) / (24389 / 27) > (216 / 24389 : ℚ)) := by
      rw [not_lt, div_le_iff₀ (by norm_num : (0:ℚ) < 24389 / 27)]
      nlinarith
    simp only [if_neg hP, if_neg hub]
    ring

theorem labCompY (T : TransFns) (L : ℚ)
    (hc : T.cbrt (((L + 16) / 116) ^ 3) = (L + 16) / 116) :
    (if (if L > (24389 / 27 : ℚ) * (216 / 24389) then ((L + 16) / 116) ^ 3
         else L / (24389 / 27)) > (216 / 24389 : ℚ)
     then T.cbrt (if L > (24389 / 27 : ℚ) * (216 / 24389) then ((L + 16) / 116) ^ 3
         else L / (24389 / 27))
     else (24389 / 27 *
        (if L > (24389 / 27 : ℚ) * (216 / 24389) then ((L + 16) / 116) ^ 3
         else L / (24389 / 27)) + 16) / 116) = (L + 16) / 116 := by
  by_cases hL : L > (24389 / 27 : ℚ) * (216 / 24389)
  · have h8 : (24389 / 27 : ℚ) * (216 / 24389) = 8 := by norm_num
    have hgt : ((L + 16) / 116) ^ 3 > (216 / 24389 : ℚ) := by
      rw [show (216 / 24389 : ℚ) = (6 / 29) ^ 3 from by norm_num]
      refine cube_lt_cube ?_
      rw [h8] at hL
      rw [lt_div_iff₀ (by norm_num : (0:ℚ) < 116)]
      linarith
    simp only [if_pos hL, if_pos hgt]
    exact hc
  · have hub : ¬(L / (24389 / 27) > (216 / 24389 : ℚ)) := by
      rw [not_lt, div_le_iff₀ (by norm_num : (0:ℚ) < 24389 / 27)]
      rw [not_lt] at hL
      nlinarith
    simp only [if_neg hL, if_neg hub]
    ring

theorem lab_roundtrip_cbrt (T : TransFns) (L a b : ℚ)
    (hcx : T.cbrt ((a / 500 + (L + 16) / 116) ^ 3) = a / 500 + (L + 16) / 116)
    (hcy : T.cbrt (((L + 16) / 116) ^ 3) = (L + 16) / 116)
    (hcz : T.cbrt (((L + 16) / 116 - b / 200) ^ 3) = (L + 16) / 116 - b / 200) :
    XYZD50_to_LAB T (LAB_to_XYZD50 [L, a, b]) = [L, a, b] := by
  have hc1 : ∀ q : ℚ, q * (0.3457 / 0.3585) / (0.3457 / 0.3585) = q := fun q => by ring
  have hc2 : ∀ q : ℚ, q * 1.0 / 1.0 = q := fun q => by ring
  have hc3 : ∀ q : ℚ,
      q * ((1.0 - 0.3457 - 0.3585) / 0.3585) / ((1.0 - 0.3457 - 0.3585) / 0.3585) = q :=
    fun q => by ring
  simp only [LAB_to_XYZD50, XYZD50_to_LAB, List.getD_cons_zero, List.getD_cons_succ,
    List.zip_cons_cons, List.zip_nil_right, List.map_cons, List.map_nil]
  simp only [hc1, hc2, hc3]
  rw [labComp T _ hcx, labCompY T _ hcy, labComp T _ hcz]
  simp only [List.cons.injEq]
  refine ⟨by ring, by ring, by ring, trivial⟩

theorem lch_roundtrip_trig (T : TransFns) (L c hh : ℚ) (hh0 : 0 ≤ hh) (hh1 : hh < 360)
    (hs : T.sqrtf ((c * T.cosDeg hh) ^ 2 + (c * T.sinDeg hh) ^ 2) = c)
    (ha : T.atan2Deg (c * T.sinDeg hh) (c * T.cosDeg hh) = hh ∨
      T.atan2Deg (c * T.sinDeg hh) (c * T.cosDeg hh) = hh - 360) :
    LAB_to_LCH T (LCH_to_LAB T [L, c, hh]) = [L, c, hh] := by
  simp only [LCH_to_LAB, LAB_to_LCH, List.getD_cons_zero, List.getD_cons_succ]
  rcases ha with ha | ha
  · rw [hs, ha, if_neg (not_lt.mpr hh0)]
  · rw [hs, ha, if_pos (show hh - 360 < 0 by linarith),
      show hh - 360 + 360 = hh from by ring]

theorem oklch_roundtrip_trig (T : TransFns) (L c hh : ℚ) (hh0 : 0 ≤ hh) (hh1 : hh < 360)
    (hs : T.sqrtf ((c * T.cosDeg hh) ^ 2 + (c * T.sinDeg hh) ^ 2) = c)
    (ha : T.atan2Deg (c * T.sinDeg hh) (c * T.cosDeg hh) = hh ∨
      T.atan2Deg (c * T.sinDeg hh) (c * T.cosDeg hh) = hh - 360) :
    OKLAB_to_OKLCH T (OKLCH_to_OKLAB T [L, c, hh]) = [L, c, hh] := by
  simp only [OKLCH_to_OKLAB, OKLAB_to_OKLCH, List.getD_cons_zero, List.getD_cons_succ]
  rcases ha with ha | ha
  · rw [hs, ha, if_neg (not_lt.mpr hh0)]
  · rw [hs, ha, if_pos (show hh - 360 < 0 by linarith),
      show hh - 360 + 360 = hh from by ring]

theorem hwb_rt_sectorA (T : TransFns) (h w bl : ℚ) (hh0 : 0 ≤ h) (hh1 : h ≤ 60)
    (hw0 : 0 ≤ w) (hb0 : 0 ≤ bl) (hwb1 : w + bl < 100) :
    RGB_to_HWB T (HWB_to_RGB [h, w, bl]) = [h, w, bl] := by
  have hD : (0:ℚ) < 1 - w / 100 - bl / 100 := by linarith
  have hDne : (1 - w / 100 - bl / 100 : ℚ) ≠ 0 := ne_of_gt hD
  have hRGB0 : HSL_to_RGB [h, 100, 50] =
      [(50 / 100 - 100 / 100 * (50 / 100) * (-1)) * 255,
       (50 / 100 - 100 / 100 * (50 / 100) * (9 - (8 + h / 30))) * 255,
       (50 / 100 - 100 / 100 * (50 / 100) * 1) * 255] := by
    simp only [HSL_to_RGB, List.getD_cons_zero, List.getD_cons_succ]
    rw [jsMin_eq_left (show (50:ℚ) / 100 ≤ 1 - 50 / 100 by norm_num)]
    rw [jsRem_small (show (0:ℚ) < 12 by norm_num) (by linarith) (by linarith),
      jsRem_small (show (0:ℚ) < 12 by norm_num) (by linarith)
        (show 8 + h / 30 < 12 by linarith),
      jsRem_small (show (0:ℚ) < 12 by norm_num) (by linarith)
        (show 4 + h / 30 < 12 by linarith)]
    rw [jsMin_eq_right (show (1:ℚ) ≤ 9 - (0 + h / 30) by linarith)]
    rw [jsMin_eq_left (show 0 + h / 30 - 3 ≤ (1:ℚ) by linarith)]
    rw [jsMax_eq_left (show 0 + h / 30 - 3 ≤ (-1 : ℚ) by linarith)]
    rw [jsMin_eq_left (show 9 - (8 + h / 30) ≤ (1:ℚ) by linarith)]
    rw [jsMin_eq_right (show 9 - (8 + h / 30) ≤ 8 + h / 30 - 3 by linarith)]
    rw [jsMax_eq_right (show (-1:ℚ) ≤ 9 - (8 + h / 30) by linarith)]
    rw [jsMin_eq_right (show (1:ℚ) ≤ 9 - (4 + h / 30) by linarith)]
    rw [jsMin_eq_right (show (1:ℚ) ≤ 4 + h / 30 - 3 by linarith)]
    rw [jsMax_eq_right (show (-1:ℚ) ≤ (1:ℚ) by norm_num)]
  have hno : ¬(w / 100 + bl / 100 ≥ 1) := by
    rw [not_le]
    linarith
  have h255 : ∀ q : ℚ, q * 255 / 255 = q := fun q => by ring
  simp only [HWB_to_RGB, List.getD_cons_zero, List.getD_cons_succ]
  rw [if_neg hno, hRGB0]
  simp only [List.map_cons, List.map_nil, h255]
  simp only [RGB_to_HWB, List.getD_cons_zero, List.getD_cons_succ]
  simp only [h255]
  have hsb_sg : (50 / 100 - 100 / 100 * (50 / 100) * 1) * (1 - w / 100 - bl / 100) + w / 100 ≤
      (50 / 100 - 100 / 100 * (50 / 100) * (9 - (8 + h / 30))) * (1 - w / 100 - bl / 100)
        + w / 100 := by
    nlinarith [mul_nonneg (show (0:ℚ) ≤ h by linarith) hD.le]
  have hsg_sr : (50 / 100 - 100 / 100 * (50 / 100) * (9 - (8 + h / 30))) *
      (1 - w / 100 - bl / 100) + w / 100 ≤
      (50 / 100 - 100 / 100 * (50 / 100) * (-1)) * (1 - w / 100 - bl / 100) + w / 100 := by
    nlinarith [mul_nonneg (show (0:ℚ) ≤ 60 - h by linarith) hD.le]
  have hsb_sr := le_trans hsb_sg hsg_sr
  simp only [jsMax_eq_left hsb_sg, jsMax_eq_left hsg_sr, jsMin_eq_right hsb_sg,
    jsMin_eq_right hsb_sr]
  have hdq : (50 / 100 - 100 / 100 * (50 / 100) * (-1)) * (1 - w / 100 - bl / 100) + w / 100
      - ((50 / 100 - 100 / 100 * (50 / 100) * 1) * (1 - w / 100 - bl / 100) + w / 100)
      = 1 - w / 100 - bl / 100 := by ring
  simp only [hdq, if_pos hDne, if_true, if_neg (not_lt.mpr hsb_sg), add_zero]
  have hV : ((50 / 100 - 100 / 100 * (50 / 100) * (9 - (8 + h / 30))) *
      (1 - w / 100 - bl / 100) + w / 100 -
      ((50 / 100 - 100 / 100 * (50 / 100) * 1) * (1 - w / 100 - bl / 100) + w / 100)) /
      (1 - w / 100 - bl / 100) * 60 = h := by
    rw [div_mul_eq_mul_div, div_eq_iff hDne]
    ring
  rw [hV, if_neg (show ¬(h ≥ 360) from fun hcon => by linarith)]
  rw [show ((50 / 100 - 100 / 100 * (50 / 100) * 1) * (1 - w / 100 - bl / 100) + w / 100)
      * 100 = w from by ring]
  rw [show (1 - ((50 / 100 - 100 / 100 * (50 / 100) * (-1)) * (1 - w / 100 - bl / 100)
      + w / 100)) * 100 = bl from by ring]

theorem hwb_rt_sectorB (T : TransFns) (h w bl : ℚ) (hh0 : 60 < h) (hh1 : h < 120)
    (hw0 : 0 ≤ w) (hb0 : 0 ≤ bl) (hwb1 : w + bl < 100) :
    RGB_to_HWB T (HWB_to_RGB [h, w, bl]) = [h, w, bl] := by
  have hD : (0:ℚ) < 1 - w / 100 - bl / 100 := by linarith
  have hDne : (1 - w / 100 - bl / 100 : ℚ) ≠ 0 := ne_of_gt hD
  have hRGB0 : HSL_to_RGB [h, 100, 50] =
      [(50 / 100 - 100 / 100 * (50 / 100) * (0 + h / 30 - 3)) * 255,
       (50 / 100 - 100 / 100 * (50 / 100) * (-1)) * 255,
       (50 / 100 - 100 / 100 * (50 / 100) * 1) * 255] := by
    simp only [HSL_to_RGB, List.getD_cons_zero, List.getD_cons_succ]
    rw [jsMin_eq_left (show (50:ℚ) / 100 ≤ 1 - 50 / 100 by norm_num)]
    rw [jsRem_small (show (0:ℚ) < 12 by norm_num) (by linarith) (by linarith),
      jsRem_small (show (0:ℚ) < 12 by norm_num) (by linarith)
        (show 8 + h / 30 < 12 by linarith),
      jsRem_small (show (0:ℚ) < 12 by norm_num) (by linarith)
        (show 4 + h / 30 < 12 by linarith)]
    rw [jsMin_eq_right (show (1:ℚ) ≤ 9 - (0 + h / 30) by linarith)]
    rw [jsMin_eq_left (show 0 + h / 30 - 3 ≤ (1:ℚ) by linarith)]
    rw [jsMax_eq_right (show (-1:ℚ) ≤ 0 + h / 30 - 3 by linarith)]
    rw [jsMin_eq_left (show 9 - (8 + h / 30) ≤ (1:ℚ) by linarith)]
    rw [jsMin_eq_right (show 9 - (8 + h / 30) ≤ 8 + h / 30 - 3 by linarith)]
    rw [jsMax_eq_left (show 9 - (8 + h / 30) ≤ (-1:ℚ) by linarith)]
    rw [jsMin_eq_right (show (1:ℚ) ≤ 9 - (4 + h / 30) by linarith)]
    rw [jsMin_eq_right (show (1:ℚ) ≤ 4 + h / 30 - 3 by linarith)]
    rw [jsMax_eq_right (show (-1:ℚ) ≤ (1:ℚ) by norm_num)]
  have hno : ¬(w / 100 + bl / 100 ≥ 1) := by
    rw [not_le]
    linarith
  have h255 : ∀ q : ℚ, q * 255 / 255 = q := fun q => by ring
  simp only [HWB_to_RGB, List.getD_cons_zero, List.getD_cons_succ]
  rw [if_neg hno, hRGB0]
  simp only [List.map_cons, List.map_nil, h255]
  simp only [RGB_to_HWB, List.getD_cons_zero, List.getD_cons_succ]
  simp only [h255]
  have hsb_sr : (50 / 100 - 100 / 100 * (50 / 100) * 1) * (1 - w / 100 - bl / 100) + w / 100 ≤
      (50 / 100 - 100 / 100 * (50 / 100) * (0 + h / 30 - 3)) * (1 - w / 100 - bl / 100) + w / 100 := by
    nlinarith [mul_nonneg (show (0:ℚ) ≤ 120 - h by linarith) hD.le]
  have hsr_sg : (50 / 100 - 100 / 100 * (50 / 100) * (0 + h / 30 - 3)) * (1 - w / 100 - bl / 100) + w / 100 ≤
      (50 / 100 - 100 / 100 * (50 / 100) * (-1)) * (1 - w / 100 - bl / 100) + w / 100 := by
    nlinarith [mul_nonneg (show (0:ℚ) ≤ h - 60 by linarith) hD.le]
  have hsb_sg := le_trans hsb_sr hsr_sg
  simp only [jsMax_eq_left hsb_sg, jsMax_eq_right hsr_sg, jsMin_eq_right hsb_sg,
    jsMin_eq_right hsb_sr]
  have hdq : (50 / 100 - 100 / 100 * (50 / 100) * (-1)) * (1 - w / 100 - bl / 100) + w / 100 -
      ((50 / 100 - 100 / 100 * (50 / 100) * 1) * (1 - w / 100 - bl / 100) + w / 100) = 1 - w / 100 - bl / 100 := by ring
  have hmxr : ¬((50 / 100 - 100 / 100 * (50 / 100) * (-1)) * (1 - w / 100 - bl / 100) + w / 100 =
      (50 / 100 - 100 / 100 * (50 / 100) * (0 + h / 30 - 3)) * (1 - w / 100 - bl / 100) + w / 100) := by
    intro heq
    nlinarith [mul_pos hD (show (0:ℚ) < h - 60 by linarith)]
  simp only [hdq, if_pos hDne, if_neg hmxr, if_true, add_zero]
  have hV : (((50 / 100 - 100 / 100 * (50 / 100) * 1) * (1 - w / 100 - bl / 100) + w / 100 -
      ((50 / 100 - 100 / 100 * (50 / 100) * (0 + h / 30 - 3)) * (1 - w / 100 - bl / 100) + w / 100)) /
      (1 - w / 100 - bl / 100) + 2) * 60 = h := by
    rw [show (50 / 100 - 100 / 100 * (50 / 100) * 1) * (1 - w / 100 - bl / 100) + w / 100 -
        ((50 / 100 - 100 / 100 * (50 / 100) * (0 + h / 30 - 3)) * (1 - w / 100 - bl / 100) + w / 100) =
        (h / 60 - 2) * (1 - w / 100 - bl / 100) from by ring,
      mul_div_cancel_right₀ _ hDne]
    ring
  rw [hV, if_neg (show ¬(h ≥ 360) from fun hcon => by linarith)]
  rw [show ((50 / 100 - 100 / 100 * (50 / 100) * 1) * (1 - w / 100 - bl / 100) + w / 100) * 100 = w from by ring]
  rw [show (1 - ((50 / 100 - 100 / 100 * (50 / 100) * (-1)) * (1 - w / 100 - bl / 100) + w / 100)) * 100 = bl from by ring]

theorem hwb_rt_sectorC (T : TransFns) (h w bl : ℚ) (hh0 : 120 ≤ h) (hh1 : h ≤ 180)
    (hw0 : 0 ≤ w) (hb0 : 0 ≤ bl) (hwb1 : w + bl < 100) :
    RGB_to_HWB T (HWB_to_RGB [h, w, bl]) = [h, w, bl] := by
  have hD : (0:ℚ) < 1 - w / 100 - bl / 100 := by linarith
  have hDne : (1 - w / 100 - bl / 100 : ℚ) ≠ 0 := ne_of_gt hD
  have hRGB0 : HSL_to_RGB [h, 100, 50] =
      [(50 / 100 - 100 / 100 * (50 / 100) * 1) * 255,
       (50 / 100 - 100 / 100 * (50 / 100) * (-1)) * 255,
       (50 / 100 - 100 / 100 * (50 / 100) * (9 - (4 + h / 30))) * 255] := by
    simp only [HSL_to_RGB, List.getD_cons_zero, List.getD_cons_succ]
    rw [jsMin_eq_left (show (50:ℚ) / 100 ≤ 1 - 50 / 100 by norm_num)]
    rw [jsRem_small (show (0:ℚ) < 12 by norm_num) (by linarith) (by linarith),
      jsRem_once (show (0:ℚ) < 12 by norm_num) (by linarith)
        (show 8 + h / 30 < 2 * 12 by linarith),
      jsRem_small (show (0:ℚ) < 12 by norm_num) (by linarith)
        (show 4 + h / 30 < 12 by linarith)]
    rw [jsMin_eq_right (show (1:ℚ) ≤ 9 - (0 + h / 30) by linarith)]
    rw [jsMin_eq_right (show (1:ℚ) ≤ 0 + h / 30 - 3 by linarith)]
    rw [jsMax_eq_right (show (-1:ℚ) ≤ (1:ℚ) by norm_num)]
    rw [jsMin_eq_right (show (1:ℚ) ≤ 9 - (8 + h / 30 - 12) by linarith)]
    rw [jsMin_eq_left (show 8 + h / 30 - 12 - 3 ≤ (1:ℚ) by linarith)]
    rw [jsMax_eq_left (show 8 + h / 30 - 12 - 3 ≤ (-1:ℚ) by linarith)]
    rw [jsMin_eq_left (show 9 - (4 + h / 30) ≤ (1:ℚ) by linarith)]
    rw [jsMin_eq_right (show 9 - (4 + h / 30) ≤ 4 + h / 30 - 3 by linarith)]
    rw [jsMax_eq_right (show (-1:ℚ) ≤ 9 - (4 + h / 30) by linarith)]
  have hno : ¬(w / 100 + bl / 100 ≥ 1) := by
    rw [not_le]
    linarith
  have h255 : ∀ q : ℚ, q * 255 / 255 = q := fun q => by ring
  simp only [HWB_to_RGB, List.getD_cons_zero, List.getD_cons_succ]
  rw [if_neg hno, hRGB0]
  simp only [List.map_cons, List.map_nil, h255]
  simp only [RGB_to_HWB, List.getD_cons_zero, List.getD_cons_succ]
  simp only [h255]
  have hsr_sb : (50 / 100 - 100 / 100 * (50 / 100) * 1) * (1 - w / 100 - bl / 100) + w / 100 ≤
      (50 / 100 - 100 / 100 * (50 / 100) * (9 - (4 + h / 30))) * (1 - w / 100 - bl / 100) + w / 100 := by
    nlinarith [mul_nonneg (show (0:ℚ) ≤ h - 120 by linarith) hD.le]
  have hsb_sg : (50 / 100 - 100 / 100 * (50 / 100) * (9 - (4 + h / 30))) * (1 - w / 100 - bl / 100) + w / 100 ≤
      (50 / 100 - 100 / 100 * (50 / 100) * (-1)) * (1 - w / 100 - bl / 100) + w / 100 := by
    nlinarith [mul_nonneg (show (0:ℚ) ≤ 180 - h by linarith) hD.le]
  have hsr_sg := le_trans hsr_sb hsb_sg
  simp only [jsMax_eq_left hsb_sg, jsMax_eq_right hsr_sg, jsMin_eq_right hsb_sg,
    jsMin_eq_left hsr_sb]
  have hdq : (50 / 100 - 100 / 100 * (50 / 100) * (-1)) * (1 - w / 100 - bl / 100) + w / 100 -
      ((50 / 100 - 100 / 100 * (50 / 100) * 1) * (1 - w / 100 - bl / 100) + w / 100) = 1 - w / 100 - bl / 100 := by ring
  have hmxr : ¬((50 / 100 - 100 / 100 * (50 / 100) * (-1)) * (1 - w / 100 - bl / 100) + w / 100 =
      (50 / 100 - 100 / 100 * (50 / 100) * 1) * (1 - w / 100 - bl / 100) + w / 100) := by
    intro heq
    exact hDne (by linarith)
  simp only [hdq, if_pos hDne, if_neg hmxr, if_true, add_zero]
  have hV : (((50 / 100 - 100 / 100 * (50 / 100) * (9 - (4 + h / 30))) * (1 - w / 100 - bl / 100) + w / 100 -
      ((50 / 100 - 100 / 100 * (50 / 100) * 1) * (1 - w / 100 - bl / 100) + w / 100)) /
      (1 - w / 100 - bl / 100) + 2) * 60 = h := by
    rw [show (50 / 100 - 100 / 100 * (50 / 100) * (9 - (4 + h / 30))) * (1 - w / 100 - bl / 100) + w / 100 -
        ((50 / 100 - 100 / 100 * (50 / 100) * 1) * (1 - w / 100 - bl / 100) + w / 100) =
        (h / 60 - 2) * (1 - w / 100 - bl / 100) from by ring,
      mul_div_cancel_right₀ _ hDne]
    ring
  rw [hV, if_neg (show ¬(h ≥ 360) from fun hcon => by linarith)]
  rw [show ((50 / 100 - 100 / 100 * (50 / 100) * 1) * (1 - w / 100 - bl / 100) + w / 100) * 100 = w from by ring]
  rw [show (1 - ((50 / 100 - 100 / 100 * (50 / 100) * (-1)) * (1 - w / 100 - bl / 100) + w / 100)) * 100 = bl from by ring]

theorem hwb_rt_sectorD (T : TransFns) (h w bl : ℚ) (hh0 : 180 < h) (hh1 : h < 240)
    (hw0 : 0 ≤ w) (hb0 : 0 ≤ bl) (hwb1 : w + bl < 100) :
    RGB_to_HWB T (HWB_to_RGB [h, w, bl]) = [h, w, bl] := by
  have hD : (0:ℚ) < 1 - w / 100 - bl / 100 := by linarith
  have hDne : (1 - w / 100 - bl / 100 : ℚ) ≠ 0 := ne_of_gt hD
  have hRGB0 : HSL_to_RGB [h, 100, 50] =
      [(50 / 100 - 100 / 100 * (50 / 100) * 1) * 255,
       (50 / 100 - 100 / 100 * (50 / 100) * (8 + h / 30 - 12 - 3)) * 255,
       (50 / 100 - 100 / 100 * (50 / 100) * (-1)) * 255] := by
    simp only [HSL_to_RGB, List.getD_cons_zero, List.getD_cons_succ]
    rw [jsMin_eq_left (show (50:ℚ) / 100 ≤ 1 - 50 / 100 by norm_num)]
    rw [jsRem_small (show (0:ℚ) < 12 by norm_num) (by linarith) (by linarith),
      jsRem_once (show (0:ℚ) < 12 by norm_num) (by linarith)
        (show 8 + h / 30 < 2 * 12 by linarith),
      jsRem_small (show (0:ℚ) < 12 by norm_num) (by linarith)
        (show 4 + h / 30 < 12 by linarith)]
    rw [jsMin_eq_right (show (1:ℚ) ≤ 9 - (0 + h / 30) by linarith)]
    rw [jsMin_eq_right (show (1:ℚ) ≤ 0 + h / 30 - 3 by linarith)]
    rw [jsMax_eq_right (show (-1:ℚ) ≤ (1:ℚ) by norm_num)]
    rw [jsMin_eq_right (show (1:ℚ) ≤ 9 - (8 + h / 30 - 12) by linarith)]
    rw [jsMin_eq_left (show 8 + h / 30 - 12 - 3 ≤ (1:ℚ) by linarith)]
    rw [jsMax_eq_right (show (-1:ℚ) ≤ 8 + h / 30 - 12 - 3 by linarith)]
    rw [jsMin_eq_left (show 9 - (4 + h / 30) ≤ (1:ℚ) by linarith)]
    rw [jsMin_eq_right (show 9 - (4 + h / 30) ≤ 4 + h / 30 - 3 by linarith)]
    rw [jsMax_eq_left (show 9 - (4 + h / 30) ≤ (-1:ℚ) by linarith)]
  have hno : ¬(w / 100 + bl / 100 ≥ 1) := by
    rw [not_le]
    linarith
  have h255 : ∀ q : ℚ, q * 255 / 255 = q := fun q => by ring
  simp only [HWB_to_RGB, List.getD_cons_zero, List.getD_cons_succ]
  rw [if_neg hno, hRGB0]
  simp only [List.map_cons, List.map_nil, h255]
  simp only [RGB_to_HWB, List.getD_cons_zero, List.getD_cons_succ]
  simp only [h255]
  have hsr_sg : (50 / 100 - 100 / 100 * (50 / 100) * 1) * (1 - w / 100 - bl / 100) + w / 100 ≤
      (50 / 100 - 100 / 100 * (50 / 100) * (8 + h / 30 - 12 - 3)) * (1 - w / 100 - bl / 100) + w / 100 := by
    nlinarith [mul_nonneg (show (0:ℚ) ≤ 240 - h by linarith) hD.le]
  have hsg_sb : (50 / 100 - 100 / 100 * (50 / 100) * (8 + h / 30 - 12 - 3)) * (1 - w / 100 - bl / 100) + w / 100 ≤
      (50 / 100 - 100 / 100 * (50 / 100) * (-1)) * (1 - w / 100 - bl / 100) + w / 100 := by
    nlinarith [mul_nonneg (show (0:ℚ) ≤ h - 180 by linarith) hD.le]
  have hsr_sb := le_trans hsr_sg hsg_sb
  simp only [jsMax_eq_right hsg_sb, jsMax_eq_right hsr_sb, jsMin_eq_left hsg_sb,
    jsMin_eq_left hsr_sg]
  have hdq : (50 / 100 - 100 / 100 * (50 / 100) * (-1)) * (1 - w / 100 - bl / 100) + w / 100 -
      ((50 / 100 - 100 / 100 * (50 / 100) * 1) * (1 - w / 100 - bl / 100) + w / 100) = 1 - w / 100 - bl / 100 := by ring
  have hmxr : ¬((50 / 100 - 100 / 100 * (50 / 100) * (-1)) * (1 - w / 100 - bl / 100) + w / 100 =
      (50 / 100 - 100 / 100 * (50 / 100) * 1) * (1 - w / 100 - bl / 100) + w / 100) := by
    intro heq
    exact hDne (by linarith)
  have hmxg : ¬((50 / 100 - 100 / 100 * (50 / 100) * (-1)) * (1 - w / 100 - bl / 100) + w / 100 =
      (50 / 100 - 100 / 100 * (50 / 100) * (8 + h / 30 - 12 - 3)) * (1 - w / 100 - bl / 100) + w / 100) := by
    intro heq
    nlinarith [mul_pos hD (show (0:ℚ) < h - 180 by linarith)]
  simp only [hdq, if_pos hDne, if_neg hmxr, if_neg hmxg, add_zero]
  have hV : (((50 / 100 - 100 / 100 * (50 / 100) * 1) * (1 - w / 100 - bl / 100) + w / 100 -
      ((50 / 100 - 100 / 100 * (50 / 100) * (8 + h / 30 - 12 - 3)) * (1 - w / 100 - bl / 100) + w / 100)) /
      (1 - w / 100 - bl / 100) + 4) * 60 = h := by
    rw [show (50 / 100 - 100 / 100 * (50 / 100) * 1) * (1 - w / 100 - bl / 100) + w / 100 -
        ((50 / 100 - 100 / 100 * (50 / 100) * (8 + h / 30 - 12 - 3)) * (1 - w / 100 - bl / 100) + w / 100) =
        (h / 60 - 4) * (1 - w / 100 - bl / 100) from by ring,
      mul_div_cancel_right₀ _ hDne]
    ring
  rw [hV, if_neg (show ¬(h ≥ 360) from fun hcon => by linarith)]
  rw [show ((50 / 100 - 100 / 100 * (50 / 100) * 1) * (1 - w / 100 - bl / 100) + w / 100) * 100 = w from by ring]
  rw [show (1 - ((50 / 100 - 100 / 100 * (50 / 100) * (-1)) * (1 - w / 100 - bl / 100) + w / 100)) * 100 = bl from by ring]

theorem hwb_rt_sectorE (T : TransFns) (h w bl : ℚ) (hh0 : 240 ≤ h) (hh1 : h < 300)
    (hw0 : 0 ≤ w) (hb0 : 0 ≤ bl) (hwb1 : w + bl < 100) :
    RGB_to_HWB T (HWB_to_RGB [h, w, bl]) = [h, w, bl] := by
  have hD : (0:ℚ) < 1 - w / 100 - bl / 100 := by linarith
  have hDne : (1 - w / 100 - bl / 100 : ℚ) ≠ 0 := ne_of_gt hD
  have hRGB0 : HSL_to_RGB [h, 100, 50] =
      [(50 / 100 - 100 / 100 * (50 / 100) * (9 - (0 + h / 30))) * 255,
       (50 / 100 - 100 / 100 * (50 / 100) * 1) * 255,
       (50 / 100 - 100 / 100 * (50 / 100) * (-1)) * 255] := by
    simp only [HSL_to_RGB, List.getD_cons_zero, List.getD_cons_succ]
    rw [jsMin_eq_left (show (50:ℚ) / 100 ≤ 1 - 50 / 100 by norm_num)]
    rw [jsRem_small (show (0:ℚ) < 12 by norm_num) (by linarith) (by linarith),
      jsRem_once (show (0:ℚ) < 12 by norm_num) (by linarith)
        (show 8 + h / 30 < 2 * 12 by linarith),
      jsRem_once (show (0:ℚ) < 12 by norm_num) (by linarith)
        (show 4 + h / 30 < 2 * 12 by linarith)]
    rw [jsMin_eq_left (show 9 - (0 + h / 30) ≤ (1:ℚ) by linarith)]
    rw [jsMin_eq_right (show 9 - (0 + h / 30) ≤ 0 + h / 30 - 3 by linarith)]
    rw [jsMax_eq_right (show (-1:ℚ) ≤ 9 - (0 + h / 30) by linarith)]
    rw [jsMin_eq_right (show (1:ℚ) ≤ 9 - (8 + h / 30 - 12) by linarith)]
    rw [jsMin_eq_right (show (1:ℚ) ≤ 8 + h / 30 - 12 - 3 by linarith)]
    rw [jsMax_eq_right (show (-1:ℚ) ≤ (1:ℚ) by norm_num)]
    rw [jsMin_eq_right (show (1:ℚ) ≤ 9 - (4 + h / 30 - 12) by linarith)]
    rw [jsMin_eq_left (show 4 + h / 30 - 12 - 3 ≤ (1:ℚ) by linarith)]
    rw [jsMax_eq_left (show 4 + h / 30 - 12 - 3 ≤ (-1:ℚ) by linarith)]
  have hno : ¬(w / 100 + bl / 100 ≥ 1) := by
    rw [not_le]
    linarith
  have h255 : ∀ q : ℚ, q * 255 / 255 = q := fun q => by ring
  simp only [HWB_to_RGB, List.getD_cons_zero, List.getD_cons_succ]
  rw [if_neg hno, hRGB0]
  simp only [List.map_cons, List.map_nil, h255]
  simp only [RGB_to_HWB, List.getD_cons_zero, List.getD_cons_succ]
  simp only [h255]
  have hsg_sr : (50 / 100 - 100 / 100 * (50 / 100) * 1) * (1 - w / 100 - bl / 100) + w / 100 ≤
      (50 / 100 - 100 / 100 * (50 / 100) * (9 - (0 + h / 30))) * (1 - w / 100 - bl / 100) + w / 100 := by
    nlinarith [mul_nonneg (show (0:ℚ) ≤ h - 240 by linarith) hD.le]
  have hsr_sb : (50 / 100 - 100 / 100 * (50 / 100) * (9 - (0 + h / 30))) * (1 - w / 100 - bl / 100) + w / 100 ≤
      (50 / 100 - 100 / 100 * (50 / 100) * (-1)) * (1 - w / 100 - bl / 100) + w / 100 := by
    nlinarith [mul_nonneg (show (0:ℚ) ≤ 300 - h by linarith) hD.le]
  have hsg_sb := le_trans hsg_sr hsr_sb
  simp only [jsMax_eq_right hsg_sb, jsMax_eq_right hsr_sb, jsMin_eq_left hsg_sb,
    jsMin_eq_right hsg_sr]
  have hdq : (50 / 100 - 100 / 100 * (50 / 100) * (-1)) * (1 - w / 100 - bl / 100) + w / 100 -
      ((50 / 100 - 100 / 100 * (50 / 100) * 1) * (1 - w / 100 - bl / 100) + w / 100) = 1 - w / 100 - bl / 100 := by ring
  have hmxr : ¬((50 / 100 - 100 / 100 * (50 / 100) * (-1)) * (1 - w / 100 - bl / 100) + w / 100 =
      (50 / 100 - 100 / 100 * (50 / 100) * (9 - (0 + h / 30))) * (1 - w / 100 - bl / 100) + w / 100) := by
    intro heq
    nlinarith [mul_pos hD (show (0:ℚ) < 300 - h by linarith)]
  have hmxg : ¬((50 / 100 - 100 / 100 * (50 / 100) * (-1)) * (1 - w / 100 - bl / 100) + w / 100 =
      (50 / 100 - 100 / 100 * (50 / 100) * 1) * (1 - w / 100 - bl / 100) + w / 100) := by
    intro heq
    exact hDne (by linarith)
  simp only [hdq, if_pos hDne, if_neg hmxr, if_neg hmxg, add_zero]
  have hV : (((50 / 100 - 100 / 100 * (50 / 100) * (9 - (0 + h / 30))) * (1 - w / 100 - bl / 100) + w / 100 -
      ((50 / 100 - 100 / 100 * (50 / 100) * 1) * (1 - w / 100 - bl / 100) + w / 100)) /
      (1 - w / 100 - bl / 100) + 4) * 60 = h := by
    rw [show (50 / 100 - 100 / 100 * (50 / 100) * (9 - (0 + h / 30))) * (1 - w / 100 - bl / 100) + w / 100 -
        ((50 / 100 - 100 / 100 * (50 / 100) * 1) * (1 - w / 100 - bl / 100) + w / 100) =
        (h / 60 - 4) * (1 - w / 100 - bl / 100) from by ring,
      mul_div_cancel_right₀ _ hDne]
    ring
  rw [hV, if_neg (show ¬(h ≥ 360) from fun hcon => by linarith)]
  rw [show ((50 / 100 - 100 / 100 * (50 / 100) * 1) * (1 - w / 100 - bl / 100) + w / 100) * 100 = w from by ring]
  rw [show (1 - ((50 / 100 - 100 / 100 * (50 / 100) * (-1)) * (1 - w / 100 - bl / 100) + w / 100)) * 100 = bl from by ring]

theorem hwb_rt_sectorF (T : TransFns) (h w bl : ℚ) (hh0 : 300 ≤ h) (hh1 : h < 360)
    (hw0 : 0 ≤ w) (hb0 : 0 ≤ bl) (hwb1 : w + bl < 100) :
    RGB_to_HWB T (HWB_to_RGB [h, w, bl]) = [h, w, bl] := by
  have hD : (0:ℚ) < 1 - w / 100 - bl / 100 := by linarith
  have hDne : (1 - w / 100 - bl / 100 : ℚ) ≠ 0 := ne_of_gt hD
  have hRGB0 : HSL_to_RGB [h, 100, 50] =
      [(50 / 100 - 100 / 100 * (50 / 100) * (-1)) * 255,
       (50 / 100 - 100 / 100 * (50 / 100) * 1) * 255,
       (50 / 100 - 100 / 100 * (50 / 100) * (4 + h / 30 - 12 - 3)) * 255] := by
    simp only [HSL_to_RGB, List.getD_cons_zero, List.getD_cons_succ]
    rw [jsMin_eq_left (show (50:ℚ) / 100 ≤ 1 - 50 / 100 by norm_num)]
    rw [jsRem_small (show (0:ℚ) < 12 by norm_num) (by linarith) (by linarith),
      jsRem_once (show (0:ℚ) < 12 by norm_num) (by linarith)
        (show 8 + h / 30 < 2 * 12 by linarith),
      jsRem_once (show (0:ℚ) < 12 by norm_num) (by linarith)
        (show 4 + h / 30 < 2 * 12 by linarith)]
    rw [jsMin_eq_left (show 9 - (0 + h / 30) ≤ (1:ℚ) by linarith)]
    rw [jsMin_eq_right (show 9 - (0 + h / 30) ≤ 0 + h / 30 - 3 by linarith)]
    rw [jsMax_eq_left (show 9 - (0 + h / 30) ≤ (-1:ℚ) by linarith)]
    rw [jsMin_eq_right (show (1:ℚ) ≤ 9 - (8 + h / 30 - 12) by linarith)]
    rw [jsMin_eq_right (show (1:ℚ) ≤ 8 + h / 30 - 12 - 3 by linarith)]
    rw [jsMax_eq_right (show (-1:ℚ) ≤ (1:ℚ) by norm_num)]
    rw [jsMin_eq_right (show (1:ℚ) ≤ 9 - (4 + h / 30 - 12) by linarith)]
    rw [jsMin_eq_left (show 4 + h / 30 - 12 - 3 ≤ (1:ℚ) by linarith)]
    rw [jsMax_eq_right (show (-1:ℚ) ≤ 4 + h / 30 - 12 - 3 by linarith)]
  have hno : ¬(w / 100 + bl / 100 ≥ 1) := by
    rw [not_le]
    linarith
  have h255 : ∀ q : ℚ, q * 255 / 255 = q := fun q => by ring
  simp only [HWB_to_RGB, List.getD_cons_zero, List.getD_cons_succ]
  rw [if_neg hno, hRGB0]
  simp only [List.map_cons, List.map_nil, h255]
  simp only [RGB_to_HWB, List.getD_cons_zero, List.getD_cons_succ]
  simp only [h255]
  have hsg_sb : (50 / 100 - 100 / 100 * (50 / 100) * 1) * (1 - w / 100 - bl / 100) + w / 100 ≤
      (50 / 100 - 100 / 100 * (50 / 100) * (4 + h / 30 - 12 - 3)) * (1 - w / 100 - bl / 100) + w / 100 := by
    nlinarith [mul_nonneg (show (0:ℚ) ≤ 360 - h by linarith) hD.le]
  have hsb_sr : (50 / 100 - 100 / 100 * (50 / 100) * (4 + h / 30 - 12 - 3)) * (1 - w / 100 - bl / 100) + w / 100 ≤
      (50 / 100 - 100 / 100 * (50 / 100) * (-1)) * (1 - w / 100 - bl / 100) + w / 100 := by
    nlinarith [mul_nonneg (show (0:ℚ) ≤ h - 300 by linarith) hD.le]
  have hsg_sr := le_trans hsg_sb hsb_sr
  simp only [jsMax_eq_right hsg_sb, jsMax_eq_left hsb_sr, jsMin_eq_left hsg_sb,
    jsMin_eq_right hsg_sr]
  have hdq : (50 / 100 - 100 / 100 * (50 / 100) * (-1)) * (1 - w / 100 - bl / 100) + w / 100 -
      ((50 / 100 - 100 / 100 * (50 / 100) * 1) * (1 - w / 100 - bl / 100) + w / 100) = 1 - w / 100 - bl / 100 := by ring
  have hslt : (50 / 100 - 100 / 100 * (50 / 100) * 1) * (1 - w / 100 - bl / 100) + w / 100 <
      (50 / 100 - 100 / 100 * (50 / 100) * (4 + h / 30 - 12 - 3)) * (1 - w / 100 - bl / 100) + w / 100 := by
    nlinarith [mul_pos hD (show (0:ℚ) < 360 - h by linarith)]
  simp only [hdq, if_pos hDne, if_true, if_pos hslt]
  have hV : (((50 / 100 - 100 / 100 * (50 / 100) * 1) * (1 - w / 100 - bl / 100) + w / 100 -
      ((50 / 100 - 100 / 100 * (50 / 100) * (4 + h / 30 - 12 - 3)) * (1 - w / 100 - bl / 100) + w / 100)) /
      (1 - w / 100 - bl / 100) + 6) * 60 = h := by
    rw [show (50 / 100 - 100 / 100 * (50 / 100) * 1) * (1 - w / 100 - bl / 100) + w / 100 -
        ((50 / 100 - 100 / 100 * (50 / 100) * (4 + h / 30 - 12 - 3)) * (1 - w / 100 - bl / 100) + w / 100) =
        (h / 60 - 6) * (1 - w / 100 - bl / 100) from by ring,
      mul_div_cancel_right₀ _ hDne]
    ring
  rw [hV, if_neg (show ¬(h ≥ 360) from fun hcon => by linarith)]
  rw [show ((50 / 100 - 100 / 100 * (50 / 100) * 1) * (1 - w / 100 - bl / 100) + w / 100) * 100 = w from by ring]
  rw [show (1 - ((50 / 100 - 100 / 100 * (50 / 100) * (-1)) * (1 - w / 100 - bl / 100) + w / 100)) * 100 = bl from by ring]

theorem hwb_roundtrip_nondegenerate (T : TransFns) (h w bl : ℚ)
    (hh0 : 0 ≤ h) (hh1 : h < 360) (hw0 : 0 ≤ w) (hb0 : 0 ≤ bl)
    (hwb1 : w + bl < 100) :
    RGB_to_HWB T (HWB_to_RGB [h, w, bl]) = [h, w, bl] := by
  rcases le_or_lt h 60 with hc | hc
  · exact hwb_rt_sectorA T h w bl hh0 hc hw0 hb0 hwb1
  rcases lt_or_le h 120 with hc2 | hc2
  · exact hwb_rt_sectorB T h w bl hc hc2 hw0 hb0 hwb1
  rcases le_or_lt h 180 with hc3 | hc3
  · exact hwb_rt_sectorC T h w bl hc2 hc3 hw0 hb0 hwb1
  rcases lt_or_le h 240 with hc4 | hc4
  · exact hwb_rt_sectorD T h w bl hc3 hc4 hw0 hb0 hwb1
  rcases lt_or_le h 300 with hc5 | hc5
  · exact hwb_rt_sectorE T h w bl hc4 hc5 hw0 hb0 hwb1
  · exact hwb_rt_sectorF T h w bl hc5 hh1 hw0 hb0 hwb1

/-- C4 amended: the round trips of the built-in bridged converter pairs,
stated per pair.  hsl over rgb and hwb over rgb are EXACT (not merely within
1e-5) on the non-degenerate in-range inputs; lab over xyz-d50, lch over lab
and oklch over oklab are EXACT whenever the transcendental calls the source
makes (Math.cbrt, Math.sqrt, the degree trigonometry and atan2) return the
exact values at the points where they are evaluated, which is the idealized
real-arithmetic reading of the code and is stated as pointwise hypotheses on
the abstract transcendental interpretation.  The original claim fails as
stated at the degenerate in-range boundary inputs: hsl at h = 360 returns
hue 0 (the counterexample), and hwb collapses to gray whenever w + b >= 100.
The remaining pairs (rgb over xyz-d65, oklab over xyz-d65 and the color
spaces) compose gamma transfer functions with matrix pairs that the source
hard-codes as independently rounded decimals and that are not exact rational
inverses, so their round trip deviates in exact arithmetic and its 1e-5
bound is a floating-point property with no exact-rational content. -/
theorem bridge_roundtrip_amended (T : TransFns) :
    (∀ h s l : ℚ, 0 ≤ h → h < 360 → 0 < s → s ≤ 100 → 0 < l → l < 100 →
        RGB_to_HSL (HSL_to_RGB [h, s, l]) = [h, s, l]) ∧
    (∀ h w bl : ℚ, 0 ≤ h → h < 360 → 0 ≤ w → 0 ≤ bl → w + bl < 100 →
        RGB_to_HWB T (HWB_to_RGB [h, w, bl]) = [h, w, bl]) ∧
    (∀ L a b : ℚ,
        T.cbrt ((a / 500 + (L + 16) / 116) ^ 3) = a / 500 + (L + 16) / 116 →
        T.cbrt (((L + 16) / 116) ^ 3) = (L + 16) / 116 →
        T.cbrt (((L + 16) / 116 - b / 200) ^ 3) = (L + 16) / 116 - b / 200 →
        XYZD50_to_LAB T (LAB_to_XYZD50 [L, a, b]) = [L, a, b]) ∧
    (∀ L c hh : ℚ, 0 ≤ hh → hh < 360 →
        T.sqrtf ((c * T.cosDeg hh) ^ 2 + (c * T.sinDeg hh) ^ 2) = c →
        (T.atan2Deg (c * T.sinDeg hh) (c * T.cosDeg hh) = hh ∨
          T.atan2Deg (c * T.sinDeg hh) (c * T.cosDeg hh) = hh - 360) →
        LAB_to_LCH T (LCH_to_LAB T [L, c, hh]) = [L, c, hh]) ∧
    (∀ L c hh : ℚ, 0 ≤ hh → hh < 360 →
        T.sqrtf ((c * T.cosDeg hh) ^ 2 + (c * T.sinDeg hh) ^ 2) = c →
        (T.atan2Deg (c * T.sinDeg hh) (c * T.cosDeg hh) = hh ∨
          T.atan2Deg (c * T.sinDeg hh) (c * T.cosDeg hh) = hh - 360) →
        OKLAB_to_OKLCH T (OKLCH_to_OKLAB T [L, c, hh]) = [L, c, hh]) :=
  ⟨fun h s l a1 a2 a3 a4 a5 a6 => hsl_roundtrip_amended h s l a1 a2 a3 a4 a5 a6,
   fun h w bl a1 a2 a3 a4 a5 => hwb_roundtrip_nondegenerate T h w bl a1 a2 a3 a4 a5,
   fun L a b c1 c2 c3 => lab_roundtrip_cbrt T L a b c1 c2 c3,
   fun L c hh a1 a2 s1 s2 => lch_roundtrip_trig T L c hh a1 a2 s1 s2,
   fun L c hh a1 a2 s1 s2 => oklch_roundtrip_trig T L c hh a1 a2 s1 s2⟩

/-- The hwb round trip really does fail on the degenerate inputs excluded
above: at [0, 60, 60] (in range, but w + b = 120 >= 100) HWB_to_RGB takes
the gray branch and returns [1/2, 1/2, 1/2] (the source omits the x255
scaling there), and reading that back gives [0, 10/51, 5090/51], not
[0, 60, 60]. -/
theorem hwb_roundtrip_degenerate :
    RGB_to_HWB stubT (HWB_to_RGB [0, 60, 60]) = [0, 10/51, 5090/51] ∧
    RGB_to_HWB stubT (HWB_to_RGB [0, 60, 60]) ≠ [(0 : ℚ), 60, 60] := by
  have h1 : HWB_to_RGB [0, 60, 60] = [1/2, 1/2, 1/2] := by
    norm_num [HWB_to_RGB]
  have h2 : RGB_to_HWB stubT [1/2, 1/2, 1/2] = [0, 10/51, 5090/51] := by
    norm_num [RGB_to_HWB, jsMax, jsMin, stubT]
  rw [h1, h2]
  norm_num

/-- A concrete instance of the lab round trip: at [100, 0, 0] every cbrt
call is at the cube of 1, where labWitnessT is exact, and the round trip
returns [100, 0, 0] exactly. -/
theorem lab_roundtrip_instance :
    XYZD50_to_LAB labWitnessT (LAB_to_XYZD50 [100, 0, 0]) = [(100 : ℚ), 0, 0] :=
  lab_roundtrip_cbrt labWitnessT 100 0 0
    (by norm_num [labWitnessT, stubT])
    (by norm_num [labWitnessT, stubT])
    (by norm_num [labWitnessT, stubT])

/-- A concrete instance of the lch round trip: at [50, 2, 0] the trig calls
are at 0 degrees and the sqrt call at 4, where trigWitnessT is exact, and
the round trip returns [50, 2, 0] exactly. -/
theorem lch_roundtrip_instance :
    LAB_to_LCH trigWitnessT (LCH_to_LAB trigWitnessT [50, 2, 0]) = [(50 : ℚ), 2, 0] :=
  lch_roundtrip_trig trigWitnessT 50 2 0 (by norm_num) (by norm_num)
    (by norm_num [trigWitnessT, stubT])
    (Or.inl (by norm_num [trigWitnessT, stubT]))

/-- A concrete instance of the oklch round trip, same points as the lch
instance. -/
theorem oklch_roundtrip_instance :
    OKLAB_to_OKLCH trigWitnessT (OKLCH_to_OKLAB trigWitnessT [1/2, 2, 0]) = [(1/2 : ℚ), 2, 0] :=
  oklch_roundtrip_trig trigWitnessT (1/2) 2 0 (by norm_num) (by norm_num)
    (by norm_num [trigWitnessT, stubT])
    (Or.inl (by norm_num [trigWitnessT, stubT]))

/-- The hard-coded LMS/XYZ-D65 matrices of src/math.ts are not exact
rational inverses: applying LMS_to_XYZD65_M and then XYZD65_to_LMS_M to
[1, 0, 0] does not return [1, 0, 0].  So the oklab round trip (and the
rgb/xyz-d65 and color-space round trips built on such matrix pairs)
deviates already in exact arithmetic, and its 1e-5 accuracy is a
floating-point property, not an exact identity. -/
theorem lms_matrices_not_exact_inverses :
    mulMatVec XYZD65_to_LMS_M (mulMatVec LMS_to_XYZD65_M [1, 0, 0]) ≠ [(1 : ℚ), 0, 0] := by
  with_unfolding_all decide

end Saturon
